import Mathlib

/-!
Verification development for the local rule-based credit-card statement
parser pipeline (PDF text normalizer, C6-bank statement parser, generic
local statement parser).

The TypeScript sources are shallowly embedded:

* JavaScript numbers are modelled as exact rationals `ℚ`.  All rational
  operations used by the embedded code are written through `Rat.divInt`
  (`qAdd`, `qMul`, …) so that every definition evaluates by kernel
  reduction; bridge lemmas identify them with the ordinary field
  operations of `ℚ`.
* `Number.prototype.toFixed(2)` followed by `Number(...)` is modelled by
  `round2` (round half towards +∞ at two decimals, the ECMAScript
  rounding rule for exact decimal inputs).
* Strings are processed as `List Char`; the concrete regular expressions
  of the source are compiled by hand into first-match scanners with the
  exact backtracking behaviour of the originals.
* `Array.prototype.sort` (a stable sort) is modelled by
  `List.insertionSort`, which is stable and agrees with every stable sort
  for a total preorder.
* Wall-clock readings (`performance.now`, `new Date().getFullYear()`)
  are not part of the embedding; the current year is threaded as an
  explicit `nowYear` argument where the source calls `getFullYear`.
-/

/-! ## Kernel-reducible rational arithmetic -/

/-- Addition on `ℚ` written through `Rat.divInt` so that it reduces in the
kernel. -/
def qAdd (a b : ℚ) : ℚ := Rat.divInt (a.num * b.den + b.num * a.den) (a.den * b.den)

/-- Multiplication on `ℚ` written through `Rat.divInt`. -/
def qMul (a b : ℚ) : ℚ := Rat.divInt (a.num * b.num) (a.den * b.den)

/-- Negation on `ℚ` written through `Rat.divInt`. -/
def qNeg (a : ℚ) : ℚ := Rat.divInt (-a.num) a.den

/-- Subtraction on `ℚ` written through `Rat.divInt`. -/
def qSub (a b : ℚ) : ℚ := qAdd a (qNeg b)

/-- Absolute value on `ℚ` written through `Rat.divInt`. -/
def qAbs (a : ℚ) : ℚ := Rat.divInt (a.num.natAbs : ℤ) a.den

/-- Boolean strict order on `ℚ` by cross multiplication. -/
def qLt (a b : ℚ) : Bool := a.num * b.den < b.num * a.den

/-- Boolean order on `ℚ` by cross multiplication. -/
def qLe (a b : ℚ) : Bool := a.num * b.den ≤ b.num * a.den

/-- Kernel-reducible floor of a rational. -/
def ratFloor (q : ℚ) : ℤ := q.num / (q.den : ℤ)

/-- Model of `Number((x).toFixed(2))` on exact decimal values: round to the
nearest multiple of 1/100, ties towards +∞ (the ECMAScript `toFixed`
tie rule "pick the larger n"). -/
def round2 (q : ℚ) : ℚ := Rat.divInt (ratFloor (qAdd (qMul q 100) (Rat.divInt 1 2))) 100

theorem qAdd_eq (a b : ℚ) : qAdd a b = a + b := by
  have ha : ((a.den : ℚ)) ≠ 0 := by positivity
  have hb : ((b.den : ℚ)) ≠ 0 := by positivity
  rw [qAdd, Rat.divInt_eq_div]
  push_cast
  conv_rhs => rw [← Rat.num_div_den a, ← Rat.num_div_den b]
  rw [div_add_div _ _ ha hb]
  ring_nf

theorem qMul_eq (a b : ℚ) : qMul a b = a * b := by
  rw [qMul, Rat.divInt_eq_div]
  push_cast
  conv_rhs => rw [← Rat.num_div_den a, ← Rat.num_div_den b]
  rw [div_mul_div_comm]

theorem qNeg_eq (a : ℚ) : qNeg a = -a := by
  rw [qNeg, Rat.divInt_eq_div]
  push_cast
  rw [neg_div, Rat.num_div_den]

theorem qSub_eq (a b : ℚ) : qSub a b = a - b := by
  rw [qSub, qAdd_eq, qNeg_eq, sub_eq_add_neg]

theorem qAbs_eq (a : ℚ) : qAbs a = |a| := by
  rw [qAbs, Rat.divInt_eq_div]
  rcases abs_cases a with ⟨h1, h2⟩ | ⟨h1, h2⟩
  · rw [h1, Int.natAbs_of_nonneg (Rat.num_nonneg.mpr h2)]
    push_cast
    exact Rat.num_div_den a
  · rw [h1, ← Int.natAbs_neg,
      Int.natAbs_of_nonneg (by simpa using Rat.num_nonpos.mpr h2.le)]
    push_cast
    rw [neg_div, Rat.num_div_den]

theorem ratFloor_eq (q : ℚ) : ratFloor q = ⌊q⌋ := by
  conv_rhs => rw [← Rat.num_div_den q, Rat.floor_intCast_div_natCast]
  rfl

theorem round2_eq (q : ℚ) : round2 q = (⌊q * 100 + 1 / 2⌋ : ℚ) / 100 := by
  rw [round2, ratFloor_eq, qAdd_eq, qMul_eq]
  norm_num [Rat.divInt_eq_div]

theorem qLt_iff (a b : ℚ) : qLt a b = true ↔ a < b := by
  have ha : ((0 : ℚ)) < a.den := by positivity
  have hb : ((0 : ℚ)) < b.den := by positivity
  simp only [qLt, decide_eq_true_eq]
  conv_rhs => rw [← Rat.num_div_den a, ← Rat.num_div_den b]
  rw [div_lt_div_iff₀ ha hb]
  exact_mod_cast Iff.rfl

theorem qLe_iff (a b : ℚ) : qLe a b = true ↔ a ≤ b := by
  have ha : ((0 : ℚ)) < a.den := by positivity
  have hb : ((0 : ℚ)) < b.den := by positivity
  simp only [qLe, decide_eq_true_eq]
  conv_rhs => rw [← Rat.num_div_den a, ← Rat.num_div_den b]
  rw [div_le_div_iff₀ ha hb]
  exact_mod_cast Iff.rfl

/-- A rational is a two-decimal value when it is an integer number of
hundredths. -/
def Den2 (q : ℚ) : Prop := ∃ n : ℤ, q = (n : ℚ) / 100

theorem den2_round2 (q : ℚ) : Den2 (round2 q) := ⟨⌊q * 100 + 1 / 2⌋, round2_eq q⟩

theorem den2_zero : Den2 0 := ⟨0, by norm_num⟩

theorem den2_add {a b : ℚ} (ha : Den2 a) (hb : Den2 b) : Den2 (a + b) := by
  obtain ⟨m, rfl⟩ := ha
  obtain ⟨n, rfl⟩ := hb
  exact ⟨m + n, by push_cast; ring⟩

theorem den2_neg {a : ℚ} (ha : Den2 a) : Den2 (-a) := by
  obtain ⟨m, rfl⟩ := ha
  exact ⟨-m, by push_cast; ring⟩

theorem den2_sub {a b : ℚ} (ha : Den2 a) (hb : Den2 b) : Den2 (a - b) := by
  rw [sub_eq_add_neg]
  exact den2_add ha (den2_neg hb)

theorem den2_abs {a : ℚ} (ha : Den2 a) : Den2 |a| := by
  rcases abs_cases a with ⟨h, _⟩ | ⟨h, _⟩
  · rwa [h]
  · rw [h]
    exact den2_neg ha

/-- On values that are already a whole number of hundredths, `toFixed(2)`
rounding is the identity. -/
theorem round2_den2 {q : ℚ} (h : Den2 q) : round2 q = q := by
  obtain ⟨n, rfl⟩ := h
  rw [round2_eq]
  have h100 : ((100 : ℚ)) ≠ 0 := by norm_num
  rw [div_mul_cancel₀ _ h100]
  rw [show ((n : ℚ) + 1 / 2) = (1 / 2 : ℚ) + n by ring, Int.floor_add_int]
  norm_num

/-! ## Characters and JavaScript string primitives -/

/-- Decimal digit test (`\d` in the source regexes). -/
def isDig (c : Char) : Bool := '0' ≤ c && c ≤ '9'

/-- Numeric value of a decimal digit character. -/
def digitVal (c : Char) : ℕ := c.toNat - 48

/-- Value of a digit string read in base 10 (`Number.parseInt(s, 10)` on an
all-digit string, and the integer part of `Number.parseFloat`). -/
def natOfDigits (ds : List Char) : ℕ := ds.foldl (fun acc c => acc * 10 + digitVal c) 0

/-- ECMAScript WhiteSpace and LineTerminator code points (the `\s` class and
the set trimmed by `String.prototype.trim`). -/
def isJsWs (c : Char) : Bool :=
  (9 ≤ c.toNat && c.toNat ≤ 13) || c.toNat = 32 || c.toNat = 160 || c.toNat = 0x1680 ||
    (0x2000 ≤ c.toNat && c.toNat ≤ 0x200A) || c.toNat = 0x2028 || c.toNat = 0x2029 ||
    c.toNat = 0x202F || c.toNat = 0x205F || c.toNat = 0x3000 || c.toNat = 0xFEFF

/-- ECMAScript LineTerminator code points (the code points `.` does not
match). -/
def isLineTerm (c : Char) : Bool :=
  c.toNat = 10 || c.toNat = 13 || c.toNat = 0x2028 || c.toNat = 0x2029

/-- Simple Unicode lowercasing restricted to the Latin-1 range, which covers
every character the embedded patterns compare case-insensitively. -/
def lowerC (c : Char) : Char :=
  if 65 ≤ c.toNat ∧ c.toNat ≤ 90 then Char.ofNat (c.toNat + 32)
  else if 192 ≤ c.toNat ∧ c.toNat ≤ 222 ∧ c.toNat ≠ 215 then Char.ofNat (c.toNat + 32)
  else c

/-- Combined effect of NFD normalization, `\p{Diacritic}` stripping and
lowercasing on Latin-1 letters (the body of `normalizeMonth`). -/
def foldAccentC (c : Char) : Char :=
  let l := lowerC c
  let n := l.toNat
  if n = 0xE7 then 'c'                                   -- ç
  else if 0xE0 ≤ n ∧ n ≤ 0xE5 then 'a'                   -- à á â ã ä å
  else if 0xE8 ≤ n ∧ n ≤ 0xEB then 'e'                   -- è é ê ë
  else if 0xEC ≤ n ∧ n ≤ 0xEF then 'i'                   -- ì í î ï
  else if n = 0xF1 then 'n'                              -- ñ
  else if (0xF2 ≤ n ∧ n ≤ 0xF6) then 'o'                 -- ò ó ô õ ö
  else if 0xF9 ≤ n ∧ n ≤ 0xFC then 'u'                   -- ù ú û ü
  else if n = 0xFD ∨ n = 0xFF then 'y'                   -- ý ÿ
  else l

/-- Model of `String.prototype.trim`. -/
def trimChars (cs : List Char) : List Char :=
  ((cs.dropWhile isJsWs).reverse.dropWhile isJsWs).reverse

/-- Model of `String.prototype.trim` on `String`. -/
def jsTrim (s : String) : String := ⟨trimChars s.data⟩

/-- Model of `.replace(/\s+/g, ' ')`: collapse every whitespace run to a
single space. -/
def collapseWsAux : Bool → List Char → List Char
  | _, [] => []
  | inWs, c :: rest =>
    if isJsWs c then
      if inWs then collapseWsAux true rest else ' ' :: collapseWsAux true rest
    else c :: collapseWsAux false rest

/-- Collapse whitespace runs to single spaces (`.replace(/\s+/g, ' ')`). -/
def collapseWs (cs : List Char) : List Char := collapseWsAux false cs

/-- Model of `String(n)` for a natural number; the accumulator argument is
fuel that makes the recursion structural. -/
def natToCharsAux : ℕ → ℕ → List Char
  | 0, _ => []
  | fuel + 1, n =>
    if n < 10 then [Char.ofNat (48 + n)]
    else natToCharsAux fuel (n / 10) ++ [Char.ofNat (48 + n % 10)]

/-- Decimal digit list of a natural number. -/
def natToChars (n : ℕ) : List Char := natToCharsAux (n + 1) n

/-- Model of JavaScript number-to-string conversion for integer values. -/
def intToString (i : ℤ) : String :=
  if i < 0 then ⟨'-' :: natToChars i.natAbs⟩ else ⟨natToChars i.natAbs⟩

/-- Model of `String.prototype.padStart(2, '0')`. -/
def padStart2 (s : String) : String :=
  if s.data.length ≥ 2 then s else ⟨List.replicate (2 - s.data.length) '0' ++ s.data⟩

/-! ## First-match scanners for the source's regular expressions

Each concrete regular expression of the TypeScript source is compiled into
a scanner over `List Char`.  `scanFirst` reproduces the leftmost-match rule
(try the pattern at every position, left to right); the individual matchers
reproduce greediness and backtracking of the original pattern. -/

/-- Leftmost match: try `f` at every suffix, left to right. -/
def scanFirst {α : Type} (f : List Char → Option α) : List Char → Option α
  | [] => f []
  | c :: rest =>
    match f (c :: rest) with
    | some a => some a
    | none => scanFirst f rest

/-- Does some suffix satisfy `f`?  (Unanchored `RegExp.test` for patterns
anchored only at `$`.) -/
def anySuffix (f : List Char → Bool) : List Char → Bool
  | [] => f []
  | c :: rest => f (c :: rest) || anySuffix f rest

/-- Consume a literal, case-insensitively (a `/i` pattern literal). -/
def litCI : List Char → List Char → Option (List Char)
  | [], cs => some cs
  | _ :: _, [] => none
  | p :: ps, c :: cs => if lowerC c = lowerC p then litCI ps cs else none

/-- Consume `\s*` (always succeeds). -/
def wsStar (cs : List Char) : List Char := cs.dropWhile isJsWs

/-- Consume `\s+`. -/
def wsPlus (cs : List Char) : Option (List Char) :=
  match cs with
  | c :: rest => if isJsWs c then some (wsStar rest) else none
  | [] => none

/-- Consume a nonempty greedy character-class run `[C]+`, returning the run
and the rest. -/
def classPlus (p : Char → Bool) (cs : List Char) : Option (List Char × List Char) :=
  let run := cs.takeWhile p
  if run.isEmpty then none else some (run, cs.dropWhile p)

/-- Character class `[\d.,]` of the currency captures. -/
def isAmountChar (c : Char) : Bool := isDig c || c = '.' || c = ','

/-! ## Data model (`Pdf2JsonExtractor.ts`, `PdfTextNormalizer.ts`,
`CreditCardStatement.ts`) -/

/-- One text run of a pdf2json text item (`Pdf2JsonTextRun`).  The source
percent-decodes `run.T` via `decodeURIComponent`; the embedding carries the
already-decoded text, so decoding is the identity here. -/
structure Pdf2JsonTextRun where
  T : String
  deriving DecidableEq

/-- One positioned text item of a pdf2json page (`Pdf2JsonTextItem`). -/
structure Pdf2JsonTextItem where
  x : ℚ
  y : ℚ
  w : ℚ
  sw : ℚ
  R : List Pdf2JsonTextRun
  deriving DecidableEq

/-- One pdf2json page (`Pdf2JsonPage`; only the fields the pipeline reads). -/
structure Pdf2JsonPage where
  Width : ℚ
  Height : ℚ
  Texts : List Pdf2JsonTextItem
  deriving DecidableEq

/-- A pdf2json document (`Pdf2JsonDocument`). -/
structure Pdf2JsonDocument where
  Pages : List Pdf2JsonPage
  deriving DecidableEq

/-- A normalized text chunk (`NormalizedTextChunk`). -/
structure NormalizedTextChunk where
  page : ℕ
  text : String
  x : ℚ
  y : ℚ
  width : ℚ
  spacing : ℚ
  deriving DecidableEq

/-- A normalized text line (`NormalizedTextLine`). -/
structure NormalizedTextLine where
  page : ℕ
  y : ℚ
  text : String
  chunks : List NormalizedTextChunk
  deriving DecidableEq

/-- Transaction type tag (`TransactionType`; the parsers below always
produce one of the six concrete tags, never `null`). -/
inductive TransactionType where
  | purchase
  | installment
  | payment
  | refund
  | fee
  | adjustment
  deriving DecidableEq

/-- Installment info (`TransactionInstallmentInfo`). -/
structure TransactionInstallmentInfo where
  current : Option ℕ
  total : Option ℕ
  deriving DecidableEq

/-- One statement transaction (`StatementTransaction`). -/
structure StatementTransaction where
  date : Option String
  description : String
  amount : Option ℚ
  currency : String
  transaction_type : TransactionType
  inferred_category : Option String
  installment : TransactionInstallmentInfo
  deriving DecidableEq

/-- One card of the statement (`StatementCard`). -/
structure StatementCard where
  card_type : Option String
  last4_digits : Option String
  cardholder : Option String
  is_additional : Option Bool
  card_subtotal : Option ℚ
  transactions : List StatementTransaction
  deriving DecidableEq

/-- Auto-debit flag values. -/
inductive AutoDebit where
  | Enabled
  | Disabled
  deriving DecidableEq

/-- Per-card reconciliation summary (the entries of
`metadata.cardSummaries`). -/
structure CardSummary where
  sectionTag : String
  cardName : String
  cardholder : Option String
  lastDigits : Option String
  cardType : Option String
  expectedSubtotal : Option ℚ
  computedSubtotal : ℚ
  subtotalDifference : Option ℚ
  transactionCount : ℕ
  deriving DecidableEq

/-- The root statement record (`CreditCardStatement`), with the metadata
object of the producing parser as a type parameter. -/
structure CreditCardStatement (μ : Type) where
  cardholder_name : Option String
  main_card_last4 : Option String
  due_date : Option String
  closing_date : Option String
  total_amount_due : Option ℚ
  minimum_payment : Option ℚ
  best_purchase_day : Option ℕ
  auto_debit : Option AutoDebit
  annual_fee : Option String
  credit_limit : Option ℚ
  available_limit : Option ℚ
  cards : List StatementCard
  metadata : μ
  deriving DecidableEq

/-! ## PdfTextNormalizer -/

/-- Normalizer configuration (`PdfTextNormalizer`'s constructor fields;
defaults `yTolerance = 2`, `spaceThreshold = 1.5`). -/
structure PdfTextNormalizer where
  yTolerance : ℚ
  spaceThreshold : ℚ
  deriving DecidableEq

/-- The normalizer the statement parsers construct (`new PdfTextNormalizer()`,
all defaults). -/
def defaultNormalizer : PdfTextNormalizer := ⟨2, Rat.divInt 3 2⟩

namespace PdfNorm

/-- Model of `decodeRun`: `null` for a falsy `run.T`, otherwise the decoded
text (decoding is the identity in the embedding, see `Pdf2JsonTextRun`). -/
def decodeRun (run : Pdf2JsonTextRun) : Option String :=
  if run.T = "" then none else some run.T

/-- Model of `decodeTextItem`: concatenate the decoded runs, return `null`
when the concatenation is whitespace-only. -/
def decodeTextItem (textItem : Pdf2JsonTextItem) : Option String :=
  let parts := textItem.R.filterMap decodeRun
  let combined : String := ⟨(parts.map String.data).flatten⟩
  if (trimChars combined.data).length > 0 then some combined else none

/-- Sort order of `flattenPage`'s comparator: by `y`, then by `x`. -/
def chunkLE (a b : NormalizedTextChunk) : Prop :=
  if a.y = b.y then qLe a.x b.x = true else qLt a.y b.y = true

instance : DecidableRel chunkLE := fun a b => by unfold chunkLE; infer_instance

instance : IsTotal NormalizedTextChunk chunkLE where
  total a b := by
    unfold chunkLE
    rcases eq_or_ne a.y b.y with h | h
    · simp only [h, if_pos rfl, qLe_iff]
      exact le_total a.x b.x
    · simp only [if_neg h, if_neg (Ne.symm h), qLt_iff]
      exact (lt_or_gt_of_ne h).imp id id

instance : IsTrans NormalizedTextChunk chunkLE where
  trans a b c hab hbc := by
    unfold chunkLE at *
    by_cases h1 : a.y = b.y <;> by_cases h2 : b.y = c.y
    · rw [if_pos h1] at hab
      rw [if_pos h2] at hbc
      rw [if_pos (h1.trans h2), qLe_iff]
      rw [qLe_iff] at hab hbc
      exact le_trans hab hbc
    · rw [if_pos h1] at hab
      rw [if_neg h2, qLt_iff] at hbc
      have h3 : a.y ≠ c.y := by rw [h1]; exact ne_of_lt hbc
      rw [if_neg h3, qLt_iff, h1]
      exact hbc
    · rw [if_neg h1, qLt_iff] at hab
      rw [if_pos h2] at hbc
      have h3 : a.y ≠ c.y := by rw [← h2]; exact ne_of_lt hab
      rw [if_neg h3, qLt_iff, ← h2]
      exact hab
    · rw [if_neg h1, qLt_iff] at hab
      rw [if_neg h2, qLt_iff] at hbc
      have h3 := lt_trans hab hbc
      rw [if_neg (ne_of_lt h3), qLt_iff]
      exact h3

/-- Model of `flattenPage`: decode a page's text items into chunks and sort
them by `(y, x)`; `Array.prototype.sort` is stable, which
`List.insertionSort` reproduces. -/
def flattenPage (page : Pdf2JsonPage) (pageIndex : ℕ) : List NormalizedTextChunk :=
  let chunks := page.Texts.filterMap fun textItem =>
    (decodeTextItem textItem).map fun text =>
      { page := pageIndex + 1
        text := text
        x := textItem.x
        y := textItem.y
        width := textItem.w
        spacing := textItem.sw }
  List.insertionSort chunkLE chunks

/-- Division of a rational by a natural number, through `Rat.divInt`. -/
def qDivNat (a : ℚ) (n : ℕ) : ℚ := Rat.divInt a.num (a.den * n)

theorem qDivNat_eq (a : ℚ) (n : ℕ) : qDivNat a n = a / n := by
  rcases Nat.eq_zero_or_pos n with h | h
  · subst h
    simp [qDivNat, Rat.divInt_eq_div]
  · rw [qDivNat, Rat.divInt_eq_div]
    have hden : ((a.den : ℚ)) ≠ 0 := by positivity
    have hn : ((n : ℚ)) ≠ 0 := by positivity
    push_cast
    rw [div_mul_eq_div_div]
    rw [Rat.num_div_den]

/-- Sum of the `y` coordinates of a chunk list
(`chunks.reduce((sum, item) => sum + item.y, 0)`). -/
def sumY (chunks : List NormalizedTextChunk) : ℚ :=
  chunks.foldl (fun sum item => qAdd sum item.y) 0

/-- Fold state of `groupChunksByLine`: the finished lines in reverse order
and the currently open line. -/
structure GroupState where
  revLines : List NormalizedTextLine
  current : Option NormalizedTextLine

/-- One step of the `groupChunksByLine` loop. -/
def groupStep (cfg : PdfTextNormalizer) (st : GroupState) (chunk : NormalizedTextChunk) :
    GroupState :=
  let st : GroupState :=
    match st.current with
    | some cur =>
      if chunk.page ≠ cur.page ∨ qLt cfg.yTolerance (qAbs (qSub chunk.y cur.y)) then
        { revLines := cur :: st.revLines
          current := some { page := chunk.page, y := chunk.y, text := "", chunks := [] } }
      else st
    | none =>
      { revLines := st.revLines
        current := some { page := chunk.page, y := chunk.y, text := "", chunks := [] } }
  match st.current with
  | some cur =>
    let lastChunk := cur.chunks.getLast?
    let needsSpace :=
      match lastChunk with
      | some lc => qLt cfg.spaceThreshold (qSub chunk.x (qAdd lc.x lc.width))
      | none => false
    let newChunks := cur.chunks ++ [chunk]
    let newText :=
      if cur.text != "" && needsSpace then cur.text ++ " " ++ chunk.text
      else cur.text ++ chunk.text
    { revLines := st.revLines
      current := some
        { page := cur.page
          y := qDivNat (sumY newChunks) newChunks.length
          text := newText
          chunks := newChunks } }
  | none => st

/-- Model of `groupChunksByLine`. -/
def groupChunksByLine (cfg : PdfTextNormalizer) (chunks : List NormalizedTextChunk) :
    List NormalizedTextLine :=
  let st := chunks.foldl (groupStep cfg) ⟨[], none⟩
  let allLines :=
    match st.current with
    | some cur => (cur :: st.revLines).reverse
    | none => st.revLines.reverse
  allLines.map fun line => { line with text := jsTrim line.text }

/-- Model of `PdfTextNormalizer.normalize`. -/
def normalize (cfg : PdfTextNormalizer) (document : Pdf2JsonDocument) :
    List NormalizedTextLine :=
  (document.Pages.enum.map fun pair => groupChunksByLine cfg (flattenPage pair.2 pair.1)).flatten

end PdfNorm

/-! ## C6BankStatementParser: regular-expression scanners -/

namespace C6Bank

/-- Trailing part `(?:\.\d{3})*,\d{2}` of `AMOUNT_REGEX`, consuming the whole
input. -/
def groupsCents : List Char → Bool
  | [',', a, b] => isDig a && isDig b
  | '.' :: a :: b :: c :: rest => isDig a && isDig b && isDig c && groupsCents rest
  | _ => false

/-- Whole-suffix match of `-?\d{1,3}(?:\.\d{3})*,\d{2}`. -/
def amountExact (cs : List Char) : Bool :=
  let body := fun (cs : List Char) =>
    let ds := cs.takeWhile isDig
    decide (1 ≤ ds.length) && decide (ds.length ≤ 3) && groupsCents (cs.dropWhile isDig)
  match cs with
  | '-' :: rest => body rest
  | _ => body cs

/-- Model of `AMOUNT_REGEX.test` (the pattern is anchored at `$` only, so a
match is a matching suffix). -/
def amountTest (s : String) : Bool := anySuffix amountExact s.data

/-- Character class `[a-zç]` under `/i`. -/
def isMonthLetter (c : Char) : Bool :=
  ('a' ≤ c && c ≤ 'z') || ('A' ≤ c && c ≤ 'Z') || c = 'ç' || c = 'Ç'

/-- Model of `DATE_CHUNK_REGEX` (`/^(\d{1,2})\s+([a-zç]{3,})$/i`), returning
the two captures. -/
def dateChunkParse (s : String) : Option (String × String) :=
  let cs := s.data
  let ds := cs.takeWhile isDig
  let r1 := cs.dropWhile isDig
  if 1 ≤ ds.length ∧ ds.length ≤ 2 then
    match wsPlus r1 with
    | some r2 =>
      let ls := r2.takeWhile isMonthLetter
      let r3 := r2.dropWhile isMonthLetter
      if 3 ≤ ls.length ∧ r3 = [] then some (⟨ds⟩, ⟨ls⟩) else none
    | none => none
  else none

/-- Tail common to all `R\$\s*([\d.,]+)` patterns: consume `R$`, optional
whitespace and a nonempty `[\d.,]+` capture. -/
def currencyCapTail (cs : List Char) : Option String := do
  let r1 ← litCI "r$".data cs
  let (cap, _) ← classPlus isAmountChar (wsStar r1)
  return ⟨cap⟩

/-- Anchored attempt of `SUBTOTAL_REGEX`
(`/Subtotal\s+deste\s+cartão\s+R\$\s*([\d.,]+)/i`), returning the full match
and the capture. -/
def subtotalMatchAt (cs : List Char) : Option (String × String) := do
  let r1 ← litCI "subtotal".data cs
  let r2 ← wsPlus r1
  let r3 ← litCI "deste".data r2
  let r4 ← wsPlus r3
  let r5 ← litCI "cartão".data r4
  let r6 ← wsPlus r5
  let r7 ← litCI "r$".data r6
  let (cap, r9) ← classPlus isAmountChar (wsStar r7)
  return (⟨cs.take (cs.length - r9.length)⟩, ⟨cap⟩)

/-- First match of `SUBTOTAL_REGEX` (full match, capture). -/
def subtotalFind (s : String) : Option (String × String) := scanFirst subtotalMatchAt s.data

/-- Model of `VALUE_WITH_CURRENCY_REGEX.test` (`/R\$\s*([\d.,]+)/i`). -/
def valueWithCurrencyTest (s : String) : Bool := (scanFirst currencyCapTail s.data).isSome

/-- The `MONTH_MAP` table, in source order. -/
def MONTH_MAP : List (String × String) :=
  [("jan", "01"), ("janeiro", "01"), ("fev", "02"), ("fevereiro", "02"),
   ("mar", "03"), ("março", "03"), ("marco", "03"), ("abr", "04"), ("abril", "04"),
   ("mai", "05"), ("maio", "05"), ("jun", "06"), ("junho", "06"), ("jul", "07"),
   ("julho", "07"), ("ago", "08"), ("agosto", "08"), ("set", "09"), ("setembro", "09"),
   ("out", "10"), ("outubro", "10"), ("nov", "11"), ("novembro", "11"),
   ("dez", "12"), ("dezembro", "12")]

/-- Model of `normalizeMonth` (NFD, diacritic stripping, lowercasing). -/
def normalizeMonth (value : String) : String := ⟨value.data.map foldAccentC⟩

/-- The string coercion of `Object.prototype.constructor` (the `Object`
built-in function), which is what `Number.parseInt` and template-string
interpolation see when bracket access on the plain `MONTH_MAP` object
literal walks the prototype chain. -/
def objectCtorString : String := "function Object() \x7b [native code] \x7d"

/-- JavaScript bracket access `MONTH_MAP[name]`: the own property when the
key is in the table, else the prototype chain of the object literal.  Of
`Object.prototype`'s properties, `constructor` is the only one a
lowercased, diacritic-stripped word of the `[a-zç]` classes can name (all
the others contain an uppercase letter or an underscore), and its truthy
value coerces to `objectCtorString` at both of its uses here; every other
miss is `undefined`, that is `none`. -/
def monthMapGet (name : String) : Option String :=
  match MONTH_MAP.lookup name with
  | some m => some m
  | none => if name = "constructor" then some objectCtorString else none

/-- `Number.parseInt(s, 10)` on the strings this code hands it (none has
leading whitespace or a sign): the value of the leading digit run, `none`
standing for `NaN` when the string does not start with a digit. -/
def jsParseIntNat (s : String) : Option ℕ :=
  let ds := s.data.takeWhile isDig
  if ds.length = 0 then none else some (natOfDigits ds)

/-- Case-insensitive containment of a literal (an alternation-free `/pat/i`
test). -/
def containsCI (hay : List Char) (pat : String) : Bool := (scanFirst (litCI pat.data) hay).isSome

/-- Presence of the `\d+\/\d+` alternative: some digit directly followed by
a slash and a digit. -/
def hasSlashPattern (cs : List Char) : Bool :=
  anySuffix
    (fun s =>
      match s with
      | a :: '/' :: b :: _ => isDig a && isDig b
      | _ => false)
    cs

/-- Second capture `(\d{1,2})` of the installment pattern, anchored. -/
def installmentTotalAt (cs : List Char) : Option ℕ :=
  match cs with
  | c :: d :: _ => if isDig c then some (if isDig d then natOfDigits [c, d] else natOfDigits [c]) else none
  | [c] => if isDig c then some (natOfDigits [c]) else none
  | [] => none

/-- Anchored attempt of `(\d{1,2})\/(\d{1,2})`, with the greedy-then-backtrack
behaviour of `\d{1,2}` before the slash. -/
def installmentAt (cs : List Char) : Option (ℕ × ℕ) :=
  match cs with
  | a :: rest =>
    if isDig a then
      (match rest with
       | b :: '/' :: r2 =>
         if isDig b then (installmentTotalAt r2).map fun t => (natOfDigits [a, b], t) else none
       | _ => none).orElse
        fun _ =>
          match rest with
          | '/' :: r2 => (installmentTotalAt r2).map fun t => (natOfDigits [a], t)
          | _ => none
    else none
  | [] => none

/-- Character class `[/ -]` (slash or dash, written here with a space) of the numeric date patterns. -/
def isDateSep (c : Char) : Bool := c = '/' || c = '-'

/-- Capture `(\d{2}[SEP]\d{2}(?:[SEP]\d{2,4})?)` (with `[SEP]` the slash-or-dash class) of the closing-date pattern
(greedy optional year group). -/
def ddmmyyCapt (cs : List Char) : Option String :=
  match cs with
  | a :: b :: s1 :: c :: d :: rest =>
    if isDig a ∧ isDig b ∧ isDateSep s1 ∧ isDig c ∧ isDig d then
      let base := [a, b, s1, c, d]
      match rest with
      | s2 :: more =>
        if isDateSep s2 then
          let ys := (more.takeWhile isDig).take 4
          if 2 ≤ ys.length then some ⟨base ++ s2 :: ys⟩ else some ⟨base⟩
        else some ⟨base⟩
      | [] => some ⟨base⟩
    else none
  | _ => none

/-- Anchored attempt of `até\s+` followed by the numeric date capture, under `/i`. -/
def closingAt (cs : List Char) : Option String := do
  let r1 ← litCI "até".data cs
  let r2 ← wsPlus r1
  ddmmyyCapt r2

/-- First match of the closing-date pattern. -/
def closingFind (s : String) : Option String := scanFirst closingAt s.data

/-- Terminator `(?:Débito|Valor|$)` of the due-date pattern. -/
def dueTerm (cs : List Char) : Bool :=
  (litCI "débito".data cs).isSome || (litCI "valor".data cs).isSome || cs.isEmpty

/-- Lazy `.*?` up to the first position where `term` holds; `.` does not
match line terminators. -/
def lazyDotUntil (term : List Char → Bool) : List Char → Option (List Char)
  | [] => if term [] then some [] else none
  | c :: rest =>
    if term (c :: rest) then some []
    else if isLineTerm c then none
    else (lazyDotUntil term rest).map (c :: ·)

/-- Anchored attempt of `/Vencimento:\s*([^|\s].*?)(?:Débito|Valor|$)/i`. -/
def dueAt (cs : List Char) : Option String := do
  let r1 ← litCI "vencimento:".data cs
  match wsStar r1 with
  | c :: rest =>
    if c = '|' then none
    else (lazyDotUntil dueTerm rest).map fun dots => ⟨c :: dots⟩
  | [] => none

/-- First match of the due-date pattern. -/
def dueFind (s : String) : Option String := scanFirst dueAt s.data

/-- Anchored attempt of `/Valor da fatura:\s*R\$\s*([\d.,]+)/i`. -/
def totalAt (cs : List Char) : Option String := do
  let r1 ← litCI "valor da fatura:".data cs
  currencyCapTail (wsStar r1)

/-- First match of the invoice-total header pattern. -/
def totalFind (s : String) : Option String := scanFirst totalAt s.data

/-- Anchored attempt of
`/Pagamento mínimo\s*(?:ou parcial)?\s*R\$\s*([\d.,]+)/i`; the optional
group backtracks when taking it would block the `R$` literal. -/
def minimumAt (cs : List Char) : Option String := do
  let r1 ← litCI "pagamento mínimo".data cs
  let r2 := wsStar r1
  (do
    let r3 ← litCI "ou parcial".data r2
    currencyCapTail (wsStar r3)).orElse
    fun _ => currencyCapTail r2

/-- First match of the minimum-payment header pattern. -/
def minimumFind (s : String) : Option String := scanFirst minimumAt s.data

/-- Anchored attempt of `/NOSSO NÚMERO\s*(\d{6,})/i`. -/
def invoiceAt (cs : List Char) : Option String := do
  let r1 ← litCI "nosso número".data cs
  let run := (wsStar r1).takeWhile isDig
  if 6 ≤ run.length then some ⟨run⟩ else none

/-- First match of the invoice-number pattern. -/
def invoiceFind (s : String) : Option String := scanFirst invoiceAt s.data

/-- Anchored attempt of `/Melhor dia de compra:\s*(\d{1,2})/i`. -/
def bestDayAt (cs : List Char) : Option String := do
  let r1 ← litCI "melhor dia de compra:".data cs
  let run := ((wsStar r1).takeWhile isDig).take 2
  if 1 ≤ run.length then some ⟨run⟩ else none

/-- First match of the best-purchase-day pattern. -/
def bestDayFind (s : String) : Option String := scanFirst bestDayAt s.data

/-- Anchored attempt of `/Débito automático:\s*(Ativado|Desativado)/i`; the
capture is the matched slice of the input. -/
def autoDebitAt (cs : List Char) : Option String := do
  let r1 ← litCI "débito automático:".data cs
  let r2 := wsStar r1
  if (litCI "ativado".data r2).isSome then some ⟨r2.take 7⟩
  else if (litCI "desativado".data r2).isSome then some ⟨r2.take 10⟩
  else none

/-- First match of the auto-debit pattern. -/
def autoDebitFind (s : String) : Option String := scanFirst autoDebitAt s.data

/-- Anchored attempt of `/Anuidade:\s*([^|]+)/i`; whitespace characters are
inside `[^|]`, so `\s*` backtracks one character when the run after the
whitespace is empty or starts with `|`. -/
def annualFeeAt (cs : List Char) : Option String := do
  let r1 ← litCI "anuidade:".data cs
  let ws := r1.takeWhile isJsWs
  let tgt := r1.dropWhile isJsWs
  match tgt with
  | c :: _ =>
    if c = '|' then
      match ws.getLast? with
      | some w => some ⟨[w]⟩
      | none => none
    else some ⟨tgt.takeWhile (· ≠ '|')⟩
  | [] =>
    match ws.getLast? with
    | some w => some ⟨[w]⟩
    | none => none

/-- First match of the annual-fee pattern. -/
def annualFeeFind (s : String) : Option String := scanFirst annualFeeAt s.data

/-- Greedy `.*` followed by `f`: try the longest tail first (`.` does not
match line terminators). -/
def dotStarLast {α : Type} (f : List Char → Option α) : List Char → Option α
  | [] => f []
  | c :: rest =>
    (if ¬isLineTerm c then dotStarLast f rest else none).orElse fun _ => f (c :: rest)

/-- Anchored attempt of `/Limite\s+(?:total|crédito).*R\$\s*([\d.,]+)/i`. -/
def creditLimitAt (cs : List Char) : Option String := do
  let r1 ← litCI "limite".data cs
  let r2 ← wsPlus r1
  let r3 ← (litCI "total".data r2).orElse fun _ => litCI "crédito".data r2
  dotStarLast currencyCapTail r3

/-- First match of the credit-limit pattern. -/
def creditLimitFind (s : String) : Option String := scanFirst creditLimitAt s.data

/-- Anchored attempt of `/Limite\s+disponível.*R\$\s*([\d.,]+)/i`. -/
def availableLimitAt (cs : List Char) : Option String := do
  let r1 ← litCI "limite".data cs
  let r2 ← wsPlus r1
  let r3 ← litCI "disponível".data r2
  dotStarLast currencyCapTail r3

/-- First match of the available-limit pattern. -/
def availableLimitFind (s : String) : Option String := scanFirst availableLimitAt s.data

/-- Anchored attempt of `/VALOR\s+TOTAL\s*([\d.,]+)/i`. -/
def invoiceTotalAt (cs : List Char) : Option String := do
  let r1 ← litCI "valor".data cs
  let r2 ← wsPlus r1
  let r3 ← litCI "total".data r2
  let (cap, _) ← classPlus isAmountChar (wsStar r3)
  return ⟨cap⟩

/-- First match of the footer invoice-total pattern. -/
def invoiceTotalFind (s : String) : Option String := scanFirst invoiceTotalAt s.data

/-- Anchored attempt of `/PAGAMENTO\s+M[IÍ]NIMO\s*([\d.,]+)/i`. -/
def minPaymentAt (cs : List Char) : Option String := do
  let r1 ← litCI "pagamento".data cs
  let r2 ← wsPlus r1
  let r3 ← litCI "m".data r2
  match r3 with
  | c :: r4 =>
    if lowerC c = 'i' ∨ lowerC c = 'í' then do
      let r5 ← litCI "nimo".data r4
      let (cap, _) ← classPlus isAmountChar (wsStar r5)
      return (⟨cap⟩ : String)
    else none
  | [] => none

/-- First match of the footer minimum-payment pattern. -/
def minPaymentFind (s : String) : Option String := scanFirst minPaymentAt s.data

/-- Section marker test `/Transações dos cartões adicionais/i`. -/
def adicionaisTest (s : String) : Bool := containsCI s.data "transações dos cartões adicionais"

/-- Section marker test `/Transações do cartão principal/i`. -/
def principalTest (s : String) : Bool := containsCI s.data "transações do cartão principal"

/-- Anchored noise test `/^Valores em reais/i`. -/
def valoresEmReaisTest (s : String) : Bool := (litCI "valores em reais".data s.data).isSome

/-- Start class `[A-ZÀ-Ü]` of the cardholder-name pattern (by code points,
so `×` U+00D7 is included, as in the JavaScript class). -/
def isUpperNameStart (c : Char) : Bool :=
  (65 ≤ c.toNat && c.toNat ≤ 90) || (192 ≤ c.toNat && c.toNat ≤ 220)

/-- Continuation class `[A-ZÀ-Ü\s\-']` of the cardholder-name pattern. -/
def isUpperNameChar (c : Char) : Bool :=
  isUpperNameStart c || isJsWs c || c = '-' || c = Char.ofNat 39

/-- Helper of `countNonWsRuns`; the flag records whether the previous
character was inside a non-whitespace run. -/
def countNonWsRunsAux : Bool → List Char → ℕ
  | _, [] => 0
  | inRun, c :: rest =>
    if isJsWs c then countNonWsRunsAux false rest
    else (if inRun then 0 else 1) + countNonWsRunsAux true rest

/-- Number of maximal non-whitespace runs (`candidate.split(/\s+/).length`
on a trimmed, nonempty string). -/
def countNonWsRuns (cs : List Char) : ℕ := countNonWsRunsAux false cs

/-- The cardholder-name candidate test of `extractHeader`: trimmed text of
length ≥ 5, full match of `/^(?:[A-ZÀ-Ü][A-ZÀ-Ü\s\-']+)$/`, at least two
whitespace-separated words. -/
def cardholderCandidate (text : String) : Option String :=
  let candidate := jsTrim text
  let ok :=
    decide (5 ≤ candidate.data.length) &&
    (match candidate.data with
     | c :: rest => isUpperNameStart c && !rest.isEmpty && rest.all isUpperNameChar
     | [] => false) &&
    decide (2 ≤ countNonWsRuns candidate.data)
  if ok then some candidate else none

end C6Bank

/-! ## C6BankStatementParser: parser functions -/

/-- Replace the first comma by a period (`.replace(',', '.')`). -/
def replaceFirstComma : List Char → List Char
  | [] => []
  | c :: rest => if c = ',' then '.' :: rest else c :: replaceFirstComma rest

/-- Model of `Number.parseFloat` on a string over the alphabet
`0-9 . -` (the alphabet left by `parseCurrency`'s sanitization):
parse the longest numeric prefix, `none` for `NaN`. -/
def jsParseFloat (cs : List Char) : Option ℚ :=
  let neg := cs.head? = some '-'
  let r := if neg then cs.tail else cs
  let ints := r.takeWhile isDig
  let r2 := r.dropWhile isDig
  let fracs := if r2.head? = some '.' then r2.tail.takeWhile isDig else []
  if ints.isEmpty ∧ fracs.isEmpty then none
  else
    let k := fracs.length
    let m : ℤ := ((natOfDigits ints * 10 ^ k + natOfDigits fracs : ℕ) : ℤ)
    some (Rat.divInt (if neg then -m else m) ((10 ^ k : ℕ) : ℤ))

namespace C6Bank

/-- Complement of the class `[\sR$]` under `/gi` (the characters
`parseCurrency`'s first replacement keeps). -/
def sanitizeKeep (c : Char) : Bool := !(isJsWs c || lowerC c == 'r' || c == '$')

/-- Characters the `replace(/\./g, '')` step keeps. -/
def notDot (c : Char) : Bool := c != '.'

/-- The class `[\d.-]` (complement of the final `[^\d.-]` removal). -/
def floatKeep (c : Char) : Bool := isDig c || c == '.' || c == '-'

/-- Model of `parseCurrency`: strip whitespace, `R`, `r` and `$`; drop all
periods; turn the first comma into a period; drop everything outside
`0-9 . -`; `parseFloat`; `null` for `NaN`, else the value rounded via
`toFixed(2)`.  (The parse of a finite digit string is always finite, so the
`Number.isFinite` guard never fails when the parse succeeds.) -/
def parseCurrency (value : String) : Option ℚ :=
  if value = "" then none
  else
    match jsParseFloat
        ((replaceFirstComma ((value.data.filter sanitizeKeep).filter notDot)).filter
          floatKeep) with
    | none => none
    | some q => some (round2 q)

/-- Model of `extractYear`: the `^(\d{4})-` capture, as a number. -/
def extractYear : Option String → Option ℤ
  | none => none
  | some s =>
    match s.data with
    | a :: b :: c :: d :: '-' :: _ =>
      if isDig a ∧ isDig b ∧ isDig c ∧ isDig d then some ((natOfDigits [a, b, c, d] : ℕ) : ℤ)
      else none
    | _ => none

/-- Model of `extractMonth`: the `^\d{4}-(\d{2})-` capture, as a number. -/
def extractMonth : Option String → Option ℕ
  | none => none
  | some s =>
    match s.data with
    | a :: b :: c :: d :: '-' :: e :: f :: '-' :: _ =>
      if isDig a ∧ isDig b ∧ isDig c ∧ isDig d ∧ isDig e ∧ isDig f then
        some (natOfDigits [e, f])
      else none
    | _ => none

/-- Model of `parseStatementDate`.  `nowYear` stands for
`new Date().getFullYear()`; month resolution is the bracket access
`monthMapGet` (prototype chain included), and a month value whose
`parseInt` is `NaN` — the inherited `constructor` case — never takes the
year decrement, since `NaN > closingMonth` is false. -/
def parseStatementDate (value : String) (fallbackYear : Option ℤ) (closingMonth : Option ℕ)
    (nowYear : ℤ) : Option String :=
  match dateChunkParse value with
  | none => none
  | some (dayDigits, monthWord) =>
    let day := padStart2 dayDigits
    let monthName := normalizeMonth monthWord
    match monthMapGet monthName with
    | none => none
    | some month =>
      let year0 : ℤ := fallbackYear.getD nowYear
      let year :=
        match closingMonth with
        | some cm =>
          match jsParseIntNat month with
          | some m => if cm ≠ 0 ∧ cm < m then year0 - 1 else year0
          | none => year0
        | none => year0
      some (intToString year ++ "-" ++ month ++ "-" ++ day)

/-- The refund keyword test `(estorno|reembolso|cashback|cr[eé]dito)` under
`/i`. -/
def refundTest (n : List Char) : Bool :=
  containsCI n "estorno" || containsCI n "reembolso" || containsCI n "cashback" ||
    containsCI n "credito" || containsCI n "crédito"

/-- The C6 payment keyword test `(pagamento|pagto|boleto|pix)` under `/i`. -/
def paymentTest (n : List Char) : Bool :=
  containsCI n "pagamento" || containsCI n "pagto" || containsCI n "boleto" || containsCI n "pix"

/-- The C6 adjustment keyword test
`(ajuste|ajust|antecip|inclus[aã]o|compensa[cç][aã]o)` under `/i`. -/
def adjustmentTest (n : List Char) : Bool :=
  containsCI n "ajuste" || containsCI n "ajust" || containsCI n "antecip" ||
    containsCI n "inclusao" || containsCI n "inclusão" || containsCI n "compensacao" ||
    containsCI n "compensacão" || containsCI n "compensaçao" || containsCI n "compensação"

/-- The C6 fee keyword test `(tarifa|juros|encargo|anuidade|multa)` under
`/i`. -/
def feeTest (n : List Char) : Bool :=
  containsCI n "tarifa" || containsCI n "juros" || containsCI n "encargo" ||
    containsCI n "anuidade" || containsCI n "multa"

/-- The C6 installment test, including the `\d+\/\d+` alternative. -/
def installmentTest (n : List Char) : Bool :=
  containsCI n "parcela" || containsCI n "parcelamento" || containsCI n "parcelado" ||
    hasSlashPattern n

/-- Model of `determineTransactionType`: ordered keyword tests against the
lowercased description. -/
def determineTransactionType (description : String) : TransactionType :=
  let normalized := description.data.map lowerC
  if refundTest normalized then .refund
  else if paymentTest normalized then .payment
  else if adjustmentTest normalized then .adjustment
  else if feeTest normalized then .fee
  else if installmentTest normalized then .installment
  else .purchase

/-- Model of `extractInstallmentInfo` (the `parseInt` results of an all-digit
capture are never `NaN`, so the `NaN` guard never fires). -/
def extractInstallmentInfo (description : String) : TransactionInstallmentInfo :=
  match scanFirst installmentAt description.data with
  | none => ⟨none, none⟩
  | some (current, total) => ⟨some current, some total⟩

/-- Model of `getSignedAmount` (`amount * -1` is `qNeg`). -/
def getSignedAmount (transaction : StatementTransaction) : ℚ :=
  let amount := transaction.amount.getD 0
  match transaction.transaction_type with
  | .payment | .refund | .adjustment => amount
  | _ => qNeg amount

/-- Model of `normalizeAnnualFee`. -/
def normalizeAnnualFee (value : Option String) : Option String :=
  match value with
  | none => none
  | some v =>
    if v = "" then none
    else
      let trimmed := jsTrim v
      if trimmed = "" then none
      else if containsCI trimmed.data "isento" then some "Exempt"
      else some trimmed

/-- Anchored attempt of `/Final\s*(\d{4})/i`. -/
def finalDigitsAt (cs : List Char) : Option String := do
  let r1 ← litCI "final".data cs
  match wsStar r1 with
  | a :: b :: c :: d :: _ =>
    if isDig a ∧ isDig b ∧ isDig c ∧ isDig d then some ⟨[a, b, c, d]⟩ else none
  | _ => none

/-- Character class `[A-ZÀ-Ú\s]` of the cardholder capture (code points
`0xC0`–`0xDA`, so `×` is included as in the JavaScript class). -/
def isHolderChar (c : Char) : Bool :=
  (65 ≤ c.toNat && c.toNat ≤ 90) || (192 ≤ c.toNat && c.toNat ≤ 218) || isJsWs c

/-- Anchored attempt of the cardholder pattern: a dash, then `\s*` and a
nonempty `[A-ZÀ-Ú\s]+` capture (whitespace is inside the class, so `\s*`
backtracks one character when the run is whitespace-only). -/
def holderAt (cs : List Char) : Option String :=
  match cs with
  | '-' :: rest =>
    let run := rest.takeWhile isHolderChar
    if run.isEmpty then none
    else
      let ws := run.takeWhile isJsWs
      if ws.length = run.length then
        match run.getLast? with
        | some w => some ⟨[w]⟩
        | none => none
      else some ⟨run.drop ws.length⟩
  | _ => none

/-- Drop the first `SUBTOTAL_REGEX` match
(`line.text.replace(SUBTOTAL_REGEX, '')`). -/
def removeFirstSubtotal : List Char → List Char
  | [] => []
  | c :: rest =>
    match subtotalMatchAt (c :: rest) with
    | some (full, _) => (c :: rest).drop full.data.length
    | none => c :: removeFirstSubtotal rest

/-- Result record of `parseCardHeader`. -/
structure CardHeaderInfo where
  cardName : String
  cardholder : Option String
  lastDigits : Option String
  cardType : Option String
  deriving DecidableEq

/-- Model of `parseCardHeader`. -/
def parseCardHeader (line : NormalizedTextLine) : CardHeaderInfo :=
  let amountChunkIndex := line.chunks.findIdx? fun chunk => valueWithCurrencyTest chunk.text
  let infoChunks :=
    match amountChunkIndex with
    | some i => line.chunks.drop (i + 1)
    | none => line.chunks.drop 1
  let cardName :=
    match infoChunks.head? with
    | some chunk => jsTrim chunk.text
    | none => jsTrim ⟨removeFirstSubtotal line.text.data⟩
  let cardTypeJoined :=
    jsTrim (String.intercalate " " ((infoChunks.drop 1).map fun chunk => jsTrim chunk.text))
  { cardName := cardName
    cardholder := (scanFirst holderAt cardName.data).map jsTrim
    lastDigits := scanFirst finalDigitsAt cardName.data
    cardType := if cardTypeJoined = "" then none else some cardTypeJoined }

/-- Model of `parseDateValue`.  `nowYear` stands for
`new Date().getFullYear()`; note the truthiness test on `fallbackYear`
in the numeric branch (`fallbackYear ? … : …`) against the nullish
coalescing in the textual branch (`fallbackYear ?? …`). -/
def parseDateValue (value : String) (fallbackYear : Option ℤ) (nowYear : ℤ) : Option String :=
  if value = "" then none
  else
    let trimmed := (jsTrim value).data
    let numeric : Option String :=
      match trimmed with
      | a :: b :: s1 :: c :: d :: rest =>
        if isDig a ∧ isDig b ∧ isDateSep s1 ∧ isDig c ∧ isDig d then
          let yy : Option (Option (List Char)) :=
            match rest with
            | [] => some none
            | s2 :: ys =>
              if isDateSep s2 ∧ ys ≠ [] ∧ ys.all isDig ∧ 2 ≤ ys.length ∧ ys.length ≤ 4 then
                some (some ys)
              else none
          match yy with
          | none => none
          | some yOpt =>
            let year : String :=
              match yOpt with
              | none =>
                match fallbackYear with
                | some y => if y ≠ 0 then intToString y else intToString nowYear
                | none => intToString nowYear
              | some ys => if ys.length = 2 then ⟨'2' :: '0' :: ys⟩ else ⟨ys⟩
            some (year ++ "-" ++ ⟨[c, d]⟩ ++ "-" ++ ⟨[a, b]⟩)
        else none
      | _ => none
    match numeric with
    | some r => some r
    | none =>
      let ds := trimmed.takeWhile isDig
      let r1 := trimmed.dropWhile isDig
      if 1 ≤ ds.length ∧ ds.length ≤ 2 then
        match wsPlus r1 with
        | none => none
        | some r2 =>
          match litCI "de".data r2 with
          | none => none
          | some r3 =>
            match wsPlus r3 with
            | none => none
            | some r4 =>
              let ms := r4.takeWhile isMonthLetter
              let r5 := r4.dropWhile isMonthLetter
              if ms.length = 0 then none
              else
                let yearText : Option (Option (List Char)) :=
                  match r5 with
                  | [] => some none
                  | _ =>
                    match wsPlus r5 with
                    | none => none
                    | some r6 =>
                      match litCI "de".data r6 with
                      | none => none
                      | some r7 =>
                        match wsPlus r7 with
                        | none => none
                        | some r8 =>
                          if r8.length = 4 ∧ r8.all isDig then some (some r8) else none
                match yearText with
                | none => none
                | some yOpt =>
                  match monthMapGet (normalizeMonth ⟨ms⟩) with
                  | none => none
                  | some month =>
                    let year : String :=
                      match yOpt with
                      | some ys => ⟨ys⟩
                      | none => intToString (fallbackYear.getD nowYear)
                    some (year ++ "-" ++ month ++ "-" ++ padStart2 ⟨ds⟩)
      else none

end C6Bank

namespace C6Bank

/-- JavaScript falsiness of an optional string field (`undefined`, `null`
and `""` are falsy; the embedding folds `null` into `none`). -/
def falsyStr : Option String → Bool
  | none => true
  | some s => s = ""

/-- JavaScript falsiness of an optional numeric field (`undefined`, `null`
and `0` are falsy; the embedding folds `null` into `none`). -/
def falsyNum : Option ℚ → Bool
  | none => true
  | some q => q = 0

/-- The `ParsedHeaderResult` record of the C6 parser.  TypeScript
distinguishes `undefined` from `null` in these fields; both are folded into
`none` here, which preserves the behaviour of every read (the guards use
falsiness or `== null`/`?? …`, and `autoDebit`'s `=== undefined` guard is
never reached with `null`). -/
structure ParsedHeaderResult where
  cardholderName : Option String
  closingDate : Option String
  dueDate : Option String
  invoiceNumber : Option String
  totalAmount : Option ℚ
  minimumPayment : Option ℚ
  bestPurchaseDay : Option ℕ
  autoDebit : Option AutoDebit
  annualFee : Option String
  creditLimit : Option ℚ
  availableLimit : Option ℚ
  year : Option ℤ
  closingMonth : Option ℕ
  deriving DecidableEq

/-- The empty header record (`const result = {}`). -/
def emptyHeader : ParsedHeaderResult :=
  ⟨none, none, none, none, none, none, none, none, none, none, none, none, none⟩

/-- The cardholder-name clause of the `extractHeader` loop body. -/
def updCardholder (result : ParsedHeaderResult) (text : String) : ParsedHeaderResult :=
  if falsyStr result.cardholderName then
    match cardholderCandidate text with
    | some candidate => { result with cardholderName := some candidate }
    | none => result
  else result

/-- The closing-date clause of the `extractHeader` loop body (also derives
the fallback year and closing month). -/
def updClosing (nowYear : ℤ) (result : ParsedHeaderResult) (text : String) : ParsedHeaderResult :=
  if falsyStr result.closingDate then
    match closingFind text with
    | some cap =>
      let parsed := parseDateValue cap none nowYear
      { result with
        closingDate := parsed
        year := extractYear parsed
        closingMonth := extractMonth parsed }
    | none => result
  else result

/-- The due-date clause of the `extractHeader` loop body. -/
def updDue (nowYear : ℤ) (result : ParsedHeaderResult) (text : String) : ParsedHeaderResult :=
  if falsyStr result.dueDate then
    match dueFind text with
    | some cap =>
      match parseDateValue cap result.year nowYear with
      | some parsed =>
        { result with
          dueDate := some parsed
          year := result.year.orElse fun _ => extractYear (some parsed) }
      | none => result
    | none => result
  else result

/-- The invoice-total clause of the `extractHeader` loop body. -/
def updTotal (result : ParsedHeaderResult) (text : String) : ParsedHeaderResult :=
  if falsyNum result.totalAmount then
    match totalFind text with
    | some cap => { result with totalAmount := parseCurrency cap }
    | none => result
  else result

/-- The minimum-payment clause of the `extractHeader` loop body. -/
def updMinimum (result : ParsedHeaderResult) (text : String) : ParsedHeaderResult :=
  if falsyNum result.minimumPayment then
    match minimumFind text with
    | some cap => { result with minimumPayment := parseCurrency cap }
    | none => result
  else result

/-- The invoice-number clause of the `extractHeader` loop body. -/
def updInvoice (result : ParsedHeaderResult) (text : String) : ParsedHeaderResult :=
  if falsyStr result.invoiceNumber then
    match invoiceFind text with
    | some cap => { result with invoiceNumber := some (jsTrim cap) }
    | none => result
  else result

/-- The best-purchase-day clause of the `extractHeader` loop body
(`== null` guard). -/
def updBestDay (result : ParsedHeaderResult) (text : String) : ParsedHeaderResult :=
  if result.bestPurchaseDay.isNone then
    match bestDayFind text with
    | some cap => { result with bestPurchaseDay := some (natOfDigits cap.data) }
    | none => result
  else result

/-- The auto-debit clause of the `extractHeader` loop body
(`=== undefined` guard). -/
def updAutoDebit (result : ParsedHeaderResult) (text : String) : ParsedHeaderResult :=
  if result.autoDebit.isNone then
    match autoDebitFind text with
    | some cap =>
      { result with
        autoDebit :=
          some
            (if "ativ".data.isPrefixOf (cap.data.map lowerC) then AutoDebit.Enabled
             else AutoDebit.Disabled) }
    | none => result
  else result

/-- The annual-fee clause of the `extractHeader` loop body. -/
def updAnnualFee (result : ParsedHeaderResult) (text : String) : ParsedHeaderResult :=
  if falsyStr result.annualFee then
    match annualFeeFind text with
    | some cap => { result with annualFee := normalizeAnnualFee (some cap) }
    | none => result
  else result

/-- The credit-limit clause of the `extractHeader` loop body. -/
def updCreditLimit (result : ParsedHeaderResult) (text : String) : ParsedHeaderResult :=
  if falsyNum result.creditLimit then
    match creditLimitFind text with
    | some cap => { result with creditLimit := parseCurrency cap }
    | none => result
  else result

/-- The available-limit clause of the `extractHeader` loop body. -/
def updAvailableLimit (result : ParsedHeaderResult) (text : String) : ParsedHeaderResult :=
  if falsyNum result.availableLimit then
    match availableLimitFind text with
    | some cap => { result with availableLimit := parseCurrency cap }
    | none => result
  else result

/-- One iteration of the `extractHeader` row loop: skip empty rows, then
apply the eleven field clauses in source order. -/
def headerStep (nowYear : ℤ) (result : ParsedHeaderResult) (line : NormalizedTextLine) :
    ParsedHeaderResult :=
  let text := line.text
  if text = "" then result
  else
    updAvailableLimit
      (updCreditLimit
        (updAnnualFee
          (updAutoDebit
            (updBestDay
              (updInvoice
                (updMinimum
                  (updTotal (updDue nowYear (updClosing nowYear (updCardholder result text) text)
                    text) text) text) text) text) text) text) text) text

/-- Model of `extractHeader`. -/
def extractHeader (nowYear : ℤ) (lines : List NormalizedTextLine) : ParsedHeaderResult :=
  lines.foldl (headerStep nowYear) emptyHeader

/-- A `CardBlock` of the C6 parser.  The TypeScript section tag is the
string `'principal'` or `'adicionais'`. -/
structure CardBlock where
  sectionTag : String
  cardName : String
  cardholder : Option String
  lastDigits : Option String
  cardType : Option String
  expectedSubtotal : Option ℚ
  rawSubtotalText : Option String
  transactions : List StatementTransaction
  deriving DecidableEq

/-- Parser state (`C6BankStatementParser`'s readonly fields; defaults
`fallbackCurrency = 'BRL'`, `minimumTransactions = 3`). -/
structure C6Parser where
  fallbackCurrency : String
  minimumTransactions : ℕ
  deriving DecidableEq

/-- Constructor configuration (`C6BankStatementParserConfig`). -/
structure C6Config where
  fallbackCurrency : Option String
  minimumTransactions : Option ℕ
  deriving DecidableEq

/-- Model of the `C6BankStatementParser` constructor. -/
def mkC6Parser (config : Option C6Config) : C6Parser :=
  { fallbackCurrency := (config.bind (·.fallbackCurrency)).getD "BRL"
    minimumTransactions := (config.bind (·.minimumTransactions)).getD 3 }

/-- State of the `splitLineIntoTransactionChunks` loop. -/
structure SplitState where
  groups : List (List NormalizedTextChunk)
  currentGroup : Option (List NormalizedTextChunk)

/-- One iteration of the `splitLineIntoTransactionChunks` chunk loop. -/
def splitStep (st : SplitState) (chunk : NormalizedTextChunk) : SplitState :=
  let trimmed := jsTrim chunk.text
  if trimmed = "" then st
  else if (dateChunkParse trimmed).isSome then
    let groups :=
      match st.currentGroup with
      | some g => if g.length > 0 then st.groups ++ [g] else st.groups
      | none => st.groups
    { groups := groups, currentGroup := some [{ chunk with text := trimmed }] }
  else
    match st.currentGroup with
    | none => st
    | some g =>
      let g := g ++ [{ chunk with text := trimmed }]
      if amountTest trimmed then { groups := st.groups ++ [g], currentGroup := none }
      else { groups := st.groups, currentGroup := some g }

/-- Model of `splitLineIntoTransactionChunks`. -/
def splitLineIntoTransactionChunks (line : NormalizedTextLine) :
    List (List NormalizedTextChunk) :=
  let st := line.chunks.foldl splitStep ⟨[], none⟩
  match st.currentGroup with
  | some g => if g.length > 0 then st.groups ++ [g] else st.groups
  | none => st.groups

/-- Model of `buildDescription`: join with spaces, collapse whitespace,
trim. -/
def buildDescription (chunks : List NormalizedTextChunk) : String :=
  jsTrim ⟨collapseWs (String.intercalate " " (chunks.map (·.text))).data⟩

/-- The body of the transaction-group loop of `extractTransactionsFromLines`;
`none` models the `continue` paths. -/
def mkTransaction (p : C6Parser) (fallbackYear : Option ℤ) (closingMonth : Option ℕ)
    (nowYear : ℤ) (group : List NormalizedTextChunk) : Option StatementTransaction :=
  if group.length < 3 then none
  else
    match group with
    | [] => none
    | dateChunk :: rest =>
      let amountChunk := rest.getLastD dateChunk
      let descriptionChunks := rest.dropLast
      let dateText := jsTrim dateChunk.text
      let amountText := jsTrim amountChunk.text
      if ¬amountTest amountText then none
      else
        let description := buildDescription descriptionChunks
        if description = "" then none
        else
          let date := parseStatementDate dateText fallbackYear closingMonth nowYear
          match parseCurrency amountText with
          | none => none
          | some amount =>
            some
              { date := date
                description := description
                amount := some amount
                currency := p.fallbackCurrency
                transaction_type := determineTransactionType description
                inferred_category := none
                installment := extractInstallmentInfo description }

/-- Model of `extractTransactionsFromLines`. -/
def extractTransactionsFromLines (p : C6Parser) (fallbackYear : Option ℤ)
    (closingMonth : Option ℕ) (nowYear : ℤ) (lines : List NormalizedTextLine) :
    List StatementTransaction :=
  lines.flatMap fun line =>
    (splitLineIntoTransactionChunks line).filterMap
      (mkTransaction p fallbackYear closingMonth nowYear)

/-- The pending data of an open card block (everything but the
transactions, which are attached by `finalizeBlock`). -/
def finalizeBlock (p : C6Parser) (fallbackYear : Option ℤ) (closingMonth : Option ℕ)
    (nowYear : ℤ) (cur : Option CardBlock) (buf : List NormalizedTextLine) : List CardBlock :=
  match cur with
  | none => []
  | some block =>
    [{ block with
        transactions := extractTransactionsFromLines p fallbackYear closingMonth nowYear buf }]

/-- The row loop of `extractCardBlocks`, with the current section, the open
block and its pending row buffer as explicit state. -/
def extractCardBlocksGo (p : C6Parser) (fallbackYear : Option ℤ) (closingMonth : Option ℕ)
    (nowYear : ℤ) (sec : String) (cur : Option CardBlock) (buf : List NormalizedTextLine) :
    List NormalizedTextLine → List CardBlock
  | [] => finalizeBlock p fallbackYear closingMonth nowYear cur buf
  | line :: rest =>
    let text := line.text
    if text = "" then extractCardBlocksGo p fallbackYear closingMonth nowYear sec cur buf rest
    else if adicionaisTest text then
      extractCardBlocksGo p fallbackYear closingMonth nowYear "adicionais" cur buf rest
    else if principalTest text then
      extractCardBlocksGo p fallbackYear closingMonth nowYear "principal" cur buf rest
    else
      match subtotalFind text with
      | some fullCap =>
        let amount := parseCurrency fullCap.2
        let info := parseCardHeader line
        finalizeBlock p fallbackYear closingMonth nowYear cur buf ++
          extractCardBlocksGo p fallbackYear closingMonth nowYear sec
            (some
              { sectionTag := sec
                cardName := info.cardName
                cardholder := info.cardholder
                lastDigits := info.lastDigits
                cardType := info.cardType
                expectedSubtotal := amount
                rawSubtotalText := some fullCap.1
                transactions := [] })
            [] rest
      | none =>
        if cur.isSome then
          if valoresEmReaisTest text then
            extractCardBlocksGo p fallbackYear closingMonth nowYear sec cur buf rest
          else
            extractCardBlocksGo p fallbackYear closingMonth nowYear sec cur (buf ++ [line]) rest
        else extractCardBlocksGo p fallbackYear closingMonth nowYear sec cur buf rest

/-- Model of `extractCardBlocks`. -/
def extractCardBlocks (p : C6Parser) (nowYear : ℤ) (header : ParsedHeaderResult)
    (lines : List NormalizedTextLine) : List CardBlock :=
  extractCardBlocksGo p header.year header.closingMonth nowYear "principal" none [] lines

/-- Model of `extractInvoiceTotal`. -/
def extractInvoiceTotal : List NormalizedTextLine → Option ℚ
  | [] => none
  | line :: rest =>
    match invoiceTotalFind line.text with
    | some cap =>
      match parseCurrency cap with
      | some amount => some amount
      | none => extractInvoiceTotal rest
    | none => extractInvoiceTotal rest

/-- Model of `extractMinimumPayment`. -/
def extractMinimumPayment : List NormalizedTextLine → Option ℚ
  | [] => none
  | line :: rest =>
    match minPaymentFind line.text with
    | some cap =>
      match parseCurrency cap with
      | some amount => some amount
      | none => extractMinimumPayment rest
    | none => extractMinimumPayment rest

/-- The metadata object the C6 parser attaches to its statement. -/
structure C6Metadata where
  parserTag : String
  sourceTag : String
  lineCount : ℕ
  invoiceNumber : Option String
  cardSummaries : List CardSummary
  deriving DecidableEq

/-- The per-card reconciliation summary built inside `parse`
(`metadata.cardSummaries`). -/
def mkCardSummary (block : CardBlock) : CardSummary :=
  let signedTotal := round2 (block.transactions.foldl (fun acc tx => qAdd acc (getSignedAmount tx)) 0)
  let absoluteTotal := round2 (qAbs signedTotal)
  { sectionTag := block.sectionTag
    cardName := block.cardName
    cardholder := block.cardholder
    lastDigits := block.lastDigits
    cardType := block.cardType
    expectedSubtotal := block.expectedSubtotal
    computedSubtotal := absoluteTotal
    subtotalDifference :=
      match block.expectedSubtotal with
      | some expected => some (round2 (qSub absoluteTotal expected))
      | none => none
    transactionCount := block.transactions.length }

/-- JavaScript truthiness of `block.lastDigits` (a string field). -/
def truthyLastDigits (block : CardBlock) : Bool :=
  match block.lastDigits with
  | some s => s ≠ ""
  | none => false

/-- Model of the statement-building part of `C6BankStatementParser.parse`,
from the normalized lines on (PDF extraction and the stage timing metrics
are outside the embedding; both return branches carry the same metrics
structure).  Returns `null` exactly on the minimum-transaction gate. -/
def parseStatement (p : C6Parser) (nowYear : ℤ) (lines : List NormalizedTextLine) :
    Option (CreditCardStatement C6Metadata) :=
  let header := extractHeader nowYear lines
  let cardBlocks := extractCardBlocks p nowYear header lines
  let allTransactions := cardBlocks.flatMap (·.transactions)
  if allTransactions.length < p.minimumTransactions then none
  else
    let totalAmount := header.totalAmount.orElse fun _ => extractInvoiceTotal lines
    let minimumPayment := header.minimumPayment.orElse fun _ => extractMinimumPayment lines
    let cards : List StatementCard := cardBlocks.map fun block =>
      { card_type := block.cardType
        last4_digits := block.lastDigits
        cardholder := block.cardholder
        is_additional := some (block.sectionTag = "adicionais")
        card_subtotal := block.expectedSubtotal
        transactions := block.transactions }
    let mainCardLast4 :=
      (cardBlocks.find? fun block => block.sectionTag = "principal" ∧ truthyLastDigits block).bind
        (·.lastDigits)
    some
      { cardholder_name := header.cardholderName
        main_card_last4 := mainCardLast4
        due_date := header.dueDate
        closing_date := header.closingDate
        total_amount_due := totalAmount
        minimum_payment := minimumPayment
        best_purchase_day := header.bestPurchaseDay
        auto_debit := header.autoDebit
        annual_fee := header.annualFee
        credit_limit := header.creditLimit
        available_limit := header.availableLimit
        cards := cards
        metadata :=
          { parserTag := "local:c6-bank"
            sourceTag := "pdf2json"
            lineCount := lines.length
            invoiceNumber := header.invoiceNumber
            cardSummaries := cardBlocks.map mkCardSummary } }

/-- Full pipeline result of one `parse` call (statement, normalized lines
and the decoded document; timing metrics are outside the embedding). -/
structure ParseResult where
  statement : Option (CreditCardStatement C6Metadata)
  lines : List NormalizedTextLine
  pdf : Pdf2JsonDocument
  deriving DecidableEq

/-- Model of a full `parse` call from a decoded document: normalization
followed by statement building. -/
def parseFromDocument (p : C6Parser) (nowYear : ℤ) (document : Pdf2JsonDocument) : ParseResult :=
  let lines := PdfNorm.normalize defaultNormalizer document
  { statement := parseStatement p nowYear lines
    lines := lines
    pdf := document }

end C6Bank

/-! ## LocalStatementParser -/

namespace LocalParser

/-- Model of `DATE_REGEX` (`/^(\d{2})[ SEP ](\d{2})(?:[ SEP ](\d{2,4}))?$/`
with `[ SEP ]` the slash-or-dash class), returning the three captures. -/
def dateRegexParse (s : String) : Option (String × String × Option String) :=
  match s.data with
  | a :: b :: s1 :: c :: d :: rest =>
    if isDig a ∧ isDig b ∧ C6Bank.isDateSep s1 ∧ isDig c ∧ isDig d then
      match rest with
      | [] => some (⟨[a, b]⟩, ⟨[c, d]⟩, none)
      | s2 :: ys =>
        if C6Bank.isDateSep s2 ∧ ys ≠ [] ∧ ys.all isDig ∧ 2 ≤ ys.length ∧ ys.length ≤ 4 then
          some (⟨[a, b]⟩, ⟨[c, d]⟩, some ⟨ys⟩)
        else none
    else none
  | _ => none

/-- Model of `LocalStatementParser.parseCurrency`; the body is a verbatim
duplicate of the C6 implementation. -/
def parseCurrency (value : String) : Option ℚ := C6Bank.parseCurrency value

/-- Model of `LocalStatementParser.parseDate` (note the truthiness test
`fallbackYear ? … : …` for a missing year capture). -/
def parseDate (value : String) (fallbackYear : Option ℤ) (nowYear : ℤ) : Option String :=
  if value = "" then none
  else
    match dateRegexParse (jsTrim value) with
    | none => none
    | some (dd, mm, yy) =>
      let year : String :=
        match yy with
        | none =>
          match fallbackYear with
          | some y => if y ≠ 0 then intToString y else intToString nowYear
          | none => intToString nowYear
        | some ys => if ys.data.length = 2 then ⟨'2' :: '0' :: ys.data⟩ else ys
      some (year ++ "-" ++ mm ++ "-" ++ dd)

/-- Model of `LocalStatementParser.extractYear`; verbatim duplicate of the
C6 implementation. -/
def extractYear (dateIso : Option String) : Option ℤ := C6Bank.extractYear dateIso

/-- The local payment keyword test `(pagamento|pagto|boleto)` under `/i`
(no `pix`). -/
def localPaymentTest (n : List Char) : Bool :=
  C6Bank.containsCI n "pagamento" || C6Bank.containsCI n "pagto" || C6Bank.containsCI n "boleto"

/-- The local installment keyword test `(parcela|parcelamento|parcelado)`
under `/i` (no `\d+\/\d+` alternative). -/
def localInstallmentTest (n : List Char) : Bool :=
  C6Bank.containsCI n "parcela" || C6Bank.containsCI n "parcelamento" ||
    C6Bank.containsCI n "parcelado"

/-- The local fee keyword test `(tarifa|juros|anuidade|multa|encargo)` under
`/i`. -/
def localFeeTest (n : List Char) : Bool :=
  C6Bank.containsCI n "tarifa" || C6Bank.containsCI n "juros" || C6Bank.containsCI n "anuidade" ||
    C6Bank.containsCI n "multa" || C6Bank.containsCI n "encargo"

/-- The local adjustment keyword test
`(ajuste|ajustado|compensa[cç][aã]o)` under `/i`. -/
def localAdjustmentTest (n : List Char) : Bool :=
  C6Bank.containsCI n "ajuste" || C6Bank.containsCI n "ajustado" ||
    C6Bank.containsCI n "compensacao" || C6Bank.containsCI n "compensacão" ||
    C6Bank.containsCI n "compensaçao" || C6Bank.containsCI n "compensação"

/-- Model of `LocalStatementParser.determineTransactionType`: same ordered
keyword scheme as the C6 parser but with the order
refund, payment, installment, fee, adjustment, a payment list without
`pix`, and no digits-slash-digits alternative. -/
def determineTransactionType (description : String) : TransactionType :=
  let normalized := description.data.map lowerC
  if C6Bank.refundTest normalized then .refund
  else if localPaymentTest normalized then .payment
  else if localInstallmentTest normalized then .installment
  else if localFeeTest normalized then .fee
  else if localAdjustmentTest normalized then .adjustment
  else .purchase

/-- Tail `\s*[-:]\s*` of the labelled header patterns, followed by a `(.+)`
capture; whitespace backtracking as in the source engine (`.` does not
match line terminators, and a line-terminator whitespace character can
never start the capture). -/
def sepWsDotPlus (cs : List Char) : Option String := do
  let r1 := wsStar cs
  match r1 with
  | c :: rest =>
    if c = '-' ∨ c = ':' then
      let tgt := rest.dropWhile isJsWs
      match tgt with
      | _ :: _ => some ⟨tgt.takeWhile fun x => ¬isLineTerm x⟩
      | [] =>
        match (rest.reverse.dropWhile isLineTerm) with
        | w :: _ => some ⟨[w]⟩
        | [] => none
    else none
  | [] => none

/-- Anchored attempt of the cardholder pattern
`/(titular|nome do titular|cliente)\s*[-:]\s*(.+)/i`. -/
def cardholderAt (cs : List Char) : Option String :=
  ((litCI "titular".data cs).bind sepWsDotPlus).orElse fun _ =>
    ((litCI "nome do titular".data cs).bind sepWsDotPlus).orElse fun _ =>
      (litCI "cliente".data cs).bind sepWsDotPlus

/-- First match of the cardholder pattern. -/
def cardholderFind (s : String) : Option String := scanFirst cardholderAt s.data

/-- Tail `\s*[-:]\s*` followed by the numeric date capture of the
closing/due patterns. -/
def sepWsDate (cs : List Char) : Option String := do
  match wsStar cs with
  | c :: rest =>
    if c = '-' ∨ c = ':' then C6Bank.ddmmyyCapt (wsStar rest) else none
  | [] => none

/-- Anchored attempt of
`/(data\s+de\s+fechamento|fechamento)\s*[-:]\s*(date)/i`. -/
def closingAt (cs : List Char) : Option String :=
  ((do
      let r1 ← litCI "data".data cs
      let r2 ← wsPlus r1
      let r3 ← litCI "de".data r2
      let r4 ← wsPlus r3
      let r5 ← litCI "fechamento".data r4
      sepWsDate r5)).orElse
    fun _ => (litCI "fechamento".data cs).bind sepWsDate

/-- First match of the closing-date pattern. -/
def closingFind (s : String) : Option String := scanFirst closingAt s.data

/-- Anchored attempt of `/(vencimento|pagamento\s+até)\s*[-:]\s*(date)/i`. -/
def dueAt (cs : List Char) : Option String :=
  ((litCI "vencimento".data cs).bind sepWsDate).orElse fun _ =>
    (do
      let r1 ← litCI "pagamento".data cs
      let r2 ← wsPlus r1
      let r3 ← litCI "até".data r2
      sepWsDate r3)

/-- First match of the due-date pattern. -/
def dueFind (s : String) : Option String := scanFirst dueAt s.data

/-- Character class `[ºo.]` under `/i`. -/
def isOrdinalChar (c : Char) : Bool := lowerC c = 'º' || lowerC c = 'o' || c = '.'

/-- Capture class `[0-9a-z-]` under `/i`. -/
def isInvoiceChar (c : Char) : Bool :=
  isDig c || ('a' ≤ c && c ≤ 'z') || ('A' ≤ c && c ≤ 'Z') || c = '-'

/-- Tail `\s*[-:]\s*([0-9a-z-]+)` of the invoice pattern. -/
def sepWsInvoiceCap (cs : List Char) : Option String := do
  match wsStar cs with
  | c :: rest =>
    if c = '-' ∨ c = ':' then
      let (cap, _) ← classPlus isInvoiceChar (wsStar rest)
      return (⟨cap⟩ : String)
    else none
  | [] => none

/-- Anchored attempt of
`/(fatura\s*n[ºo.]|n[ºo.]\s+da\s+fatura|número\s+da\s+fatura)\s*[-:]\s*([0-9a-z-]+)/i`. -/
def invoiceAt (cs : List Char) : Option String :=
  ((litCI "fatura".data cs).bind fun r1 =>
      match wsStar r1 with
      | c :: d :: r3 =>
        if lowerC c = 'n' ∧ isOrdinalChar d then sepWsInvoiceCap r3 else none
      | _ => none).orElse fun _ =>
    ((do
        match cs with
        | c :: d :: r1 =>
          if lowerC c = 'n' ∧ isOrdinalChar d then do
            let r2 ← wsPlus r1
            let r3 ← litCI "da".data r2
            let r4 ← wsPlus r3
            let r5 ← litCI "fatura".data r4
            sepWsInvoiceCap r5
          else none
        | _ => none)).orElse fun _ =>
      (do
        let r1 ← litCI "número".data cs
        let r2 ← wsPlus r1
        let r3 ← litCI "da".data r2
        let r4 ← wsPlus r3
        let r5 ← litCI "fatura".data r4
        sepWsInvoiceCap r5)

/-- First match of the invoice-number pattern. -/
def invoiceFind (s : String) : Option String := scanFirst invoiceAt s.data

/-- Anchored attempt of `/(BRL|USD|EUR|R\$)/i`; the capture is the matched
input slice. -/
def currencyAt (cs : List Char) : Option String :=
  if (litCI "brl".data cs).isSome then some ⟨cs.take 3⟩
  else if (litCI "usd".data cs).isSome then some ⟨cs.take 3⟩
  else if (litCI "eur".data cs).isSome then some ⟨cs.take 3⟩
  else if (litCI "r$".data cs).isSome then some ⟨cs.take 2⟩
  else none

/-- First match of the currency pattern. -/
def currencyFind (s : String) : Option String := scanFirst currencyAt s.data

/-- Uppercasing inverse to `lowerC` (for `toUpperCase` on the currency
capture). -/
def upperC (c : Char) : Char :=
  if 97 ≤ c.toNat ∧ c.toNat ≤ 122 then Char.ofNat (c.toNat - 32)
  else if 224 ≤ c.toNat ∧ c.toNat ≤ 254 ∧ c.toNat ≠ 247 then Char.ofNat (c.toNat - 32)
  else c

/-- Tail `\s*[-:]?\s*([^\s].*)` of the total/minimum patterns, with the
optional-separator backtracking of the source engine. -/
def optSepDotCapture (cs : List Char) : Option String :=
  let tgt := cs.dropWhile isJsWs
  match tgt with
  | [] => none
  | c :: rest =>
    if c = '-' ∨ c = ':' then
      let tgt2 := rest.dropWhile isJsWs
      match tgt2 with
      | d :: rest2 => some ⟨d :: rest2.takeWhile fun x => ¬isLineTerm x⟩
      | [] => some ⟨c :: rest.takeWhile fun x => ¬isLineTerm x⟩
    else some ⟨c :: rest.takeWhile fun x => ¬isLineTerm x⟩

/-- Anchored attempt of
`/(total\s+(da\s+fatura|a\s+pagar|geral)|valor\s+total)\s*[-:]?\s*([^\s].*)/i`. -/
def totalAt (cs : List Char) : Option String :=
  ((do
      let r1 ← litCI "total".data cs
      let r2 ← wsPlus r1
      let r3 ←
        ((do
            let a1 ← litCI "da".data r2
            let a2 ← wsPlus a1
            litCI "fatura".data a2)).orElse fun _ =>
          ((do
              let a1 ← litCI "a".data r2
              let a2 ← wsPlus a1
              litCI "pagar".data a2)).orElse fun _ => litCI "geral".data r2
      optSepDotCapture r3)).orElse fun _ =>
    (do
      let r1 ← litCI "valor".data cs
      let r2 ← wsPlus r1
      let r3 ← litCI "total".data r2
      optSepDotCapture r3)

/-- First match of the total pattern. -/
def totalFind (s : String) : Option String := scanFirst totalAt s.data

/-- Anchored attempt of
`/(pagamento\s+mínimo|valor\s+mínimo)\s*[-:]?\s*([^\s].*)/i`. -/
def minimumAt (cs : List Char) : Option String :=
  ((do
      let r1 ← litCI "pagamento".data cs
      let r2 ← wsPlus r1
      let r3 ← litCI "mínimo".data r2
      optSepDotCapture r3)).orElse fun _ =>
    (do
      let r1 ← litCI "valor".data cs
      let r2 ← wsPlus r1
      let r3 ← litCI "mínimo".data r2
      optSepDotCapture r3)

/-- First match of the minimum pattern. -/
def minimumFind (s : String) : Option String := scanFirst minimumAt s.data

/-- Header record of the local parser. -/
structure LocalHeader where
  cardholder : Option String
  closingDate : Option String
  dueDate : Option String
  invoiceNumber : Option String
  currency : Option String
  totalAmount : Option ℚ
  minimumPayment : Option ℚ
  year : Option ℤ
  deriving DecidableEq

/-- The empty local header record. -/
def emptyLocalHeader : LocalHeader := ⟨none, none, none, none, none, none, none, none⟩

/-- The cardholder clause of the local `extractHeader` loop body. -/
def updLCardholder (result : LocalHeader) (text : String) : LocalHeader :=
  match cardholderFind text with
  | some cap =>
    if C6Bank.falsyStr result.cardholder then { result with cardholder := some (jsTrim cap) }
    else result
  | none => result

/-- The closing-date clause of the local `extractHeader` loop body. -/
def updLClosing (nowYear : ℤ) (result : LocalHeader) (text : String) : LocalHeader :=
  match closingFind text with
  | some cap =>
    if C6Bank.falsyStr result.closingDate then
      let parsed := parseDate cap none nowYear
      { result with closingDate := parsed, year := extractYear parsed }
    else result
  | none => result

/-- The due-date clause of the local `extractHeader` loop body. -/
def updLDue (nowYear : ℤ) (result : LocalHeader) (text : String) : LocalHeader :=
  match dueFind text with
  | some cap =>
    if C6Bank.falsyStr result.dueDate then
      let parsed := parseDate cap none nowYear
      { result with
        dueDate := parsed
        year := result.year.orElse fun _ => extractYear parsed }
    else result
  | none => result

/-- The invoice-number clause of the local `extractHeader` loop body. -/
def updLInvoice (result : LocalHeader) (text : String) : LocalHeader :=
  match invoiceFind text with
  | some cap =>
    if C6Bank.falsyStr result.invoiceNumber then { result with invoiceNumber := some (jsTrim cap) }
    else result
  | none => result

/-- The currency clause of the local `extractHeader` loop body. -/
def updLCurrency (result : LocalHeader) (text : String) : LocalHeader :=
  match currencyFind text with
  | some cap =>
    if C6Bank.falsyStr result.currency then
      let value : String := ⟨cap.data.map upperC⟩
      { result with currency := some (if value = "R$" then "BRL" else value) }
    else result
  | none => result

/-- The total clause of the local `extractHeader` loop body. -/
def updLTotal (result : LocalHeader) (text : String) : LocalHeader :=
  match totalFind text with
  | some cap =>
    if C6Bank.falsyNum result.totalAmount then
      match parseCurrency cap with
      | some amount => { result with totalAmount := some amount }
      | none => result
    else result
  | none => result

/-- The minimum clause of the local `extractHeader` loop body. -/
def updLMinimum (result : LocalHeader) (text : String) : LocalHeader :=
  match minimumFind text with
  | some cap =>
    if C6Bank.falsyNum result.minimumPayment then
      match parseCurrency cap with
      | some amount => { result with minimumPayment := some amount }
      | none => result
    else result
  | none => result

/-- One iteration of the local `extractHeader` row loop: the seven field
clauses in source order. -/
def headerStep (nowYear : ℤ) (result : LocalHeader) (line : NormalizedTextLine) : LocalHeader :=
  let text := line.text
  updLMinimum
    (updLTotal
      (updLCurrency (updLInvoice (updLDue nowYear (updLClosing nowYear
        (updLCardholder result text) text) text) text) text) text) text

/-- Model of the local `extractHeader` (only the first 80 rows are
scanned). -/
def extractHeader (nowYear : ℤ) (lines : List NormalizedTextLine) : LocalHeader :=
  (lines.take 80).foldl (headerStep nowYear) emptyLocalHeader

/-- Sort order of the per-row chunk sort (`(a, b) => a.x - b.x`). -/
def chunkXLE (a b : NormalizedTextChunk) : Prop := qLe a.x b.x = true

instance : DecidableRel chunkXLE := fun a b => by unfold chunkXLE; infer_instance

/-- Model of `combineAmountChunks`: text of the second-to-last chunk, then
the last, all whitespace removed. -/
def combineAmountChunks (chunks : List NormalizedTextChunk) : String :=
  let lastChunk := chunks.getLast?
  let secondLast := if chunks.length > 1 then chunks.get? (chunks.length - 2) else none
  let raw := ((([secondLast, lastChunk].filterMap id).map (·.text.data)).flatten)
  ⟨raw.filter fun c => ¬isJsWs c⟩

/-- Model of the local `buildDescription`: the interior chunks, joined and
collapsed. -/
def buildDescription (chunks : List NormalizedTextChunk) : String :=
  if chunks.length ≤ 2 then ""
  else
    let middle := (chunks.drop 1).dropLast
    jsTrim ⟨collapseWs (String.intercalate " " (middle.map (·.text))).data⟩

/-- Parser state (`LocalStatementParser`'s readonly fields; defaults
`fallbackCurrency = 'BRL'`, `minimumTransactions = 3`). -/
structure LocalParserState where
  fallbackCurrency : String
  minimumTransactions : ℕ
  deriving DecidableEq

/-- Model of the `LocalStatementParser` constructor. -/
def mkLocalParser (fallbackCurrency : Option String) (minimumTransactions : Option ℕ) :
    LocalParserState :=
  { fallbackCurrency := fallbackCurrency.getD "BRL"
    minimumTransactions := minimumTransactions.getD 3 }

/-- The body of the per-row loop of `extractTransactions`; `none` models the
`continue` paths. -/
def mkLocalTransaction (p : LocalParserState) (fallbackYear : Option ℤ) (nowYear : ℤ)
    (line : NormalizedTextLine) : Option StatementTransaction :=
  if line.chunks.length < 3 then none
  else
    let sortedChunks := List.insertionSort chunkXLE line.chunks
    match sortedChunks.head? with
    | none => none
    | some firstChunk =>
      let dateCandidate := firstChunk.text
      if (dateRegexParse dateCandidate).isNone then none
      else
        let amountText := combineAmountChunks sortedChunks
        if ¬C6Bank.amountTest amountText then none
        else
          let description := buildDescription sortedChunks
          if description = "" then none
          else
            let date := parseDate dateCandidate fallbackYear nowYear
            match parseCurrency amountText with
            | none => none
            | some amount =>
              some
                { date := date
                  description := description
                  amount := some amount
                  currency := p.fallbackCurrency
                  transaction_type := determineTransactionType description
                  inferred_category := none
                  installment := ⟨none, none⟩ }

/-- Model of the local `extractTransactions`. -/
def extractTransactions (p : LocalParserState) (fallbackYear : Option ℤ) (nowYear : ℤ)
    (lines : List NormalizedTextLine) : List StatementTransaction :=
  lines.filterMap (mkLocalTransaction p fallbackYear nowYear)

/-- The metadata object the local parser attaches to its statement. -/
structure LocalMetadata where
  parserTag : String
  sourceTag : String
  lineCount : ℕ
  invoiceNumber : Option String
  currency : String
  deriving DecidableEq

/-- Model of the statement-building part of `LocalStatementParser.parse`,
from the normalized lines on.  Returns `null` exactly on the
minimum-transaction gate. -/
def parseStatement (p : LocalParserState) (nowYear : ℤ) (lines : List NormalizedTextLine) :
    Option (CreditCardStatement LocalMetadata) :=
  let header := extractHeader nowYear lines
  let transactions := extractTransactions p header.year nowYear lines
  if transactions.length < p.minimumTransactions then none
  else
    let cards : List StatementCard :=
      if transactions.length > 0 then
        [{ card_type := none
           last4_digits := none
           cardholder := header.cardholder
           is_additional := none
           card_subtotal := none
           transactions := transactions }]
      else []
    some
      { cardholder_name := header.cardholder
        main_card_last4 := none
        due_date := header.dueDate
        closing_date := header.closingDate
        total_amount_due := header.totalAmount
        minimum_payment := header.minimumPayment
        best_purchase_day := none
        auto_debit := none
        annual_fee := none
        credit_limit := none
        available_limit := none
        cards := cards
        metadata :=
          { parserTag := "local"
            sourceTag := "pdf2json"
            lineCount := lines.length
            invoiceNumber := header.invoiceNumber
            currency := header.currency.getD p.fallbackCurrency } }

/-- Full pipeline result of one local `parse` call. -/
structure LocalParseResult where
  statement : Option (CreditCardStatement LocalMetadata)
  lines : List NormalizedTextLine
  pdf : Pdf2JsonDocument
  deriving DecidableEq

/-- Model of a full local `parse` call from a decoded document. -/
def parseFromDocument (p : LocalParserState) (nowYear : ℤ) (document : Pdf2JsonDocument) :
    LocalParseResult :=
  let lines := PdfNorm.normalize defaultNormalizer document
  { statement := parseStatement p nowYear lines
    lines := lines
    pdf := document }

end LocalParser

/-! ## Spec-side definitions used by the claim statements -/

/-- The twelve zero-padded month codes. -/
def monthCodes : List String :=
  ["01", "02", "03", "04", "05", "06", "07", "08", "09", "10", "11", "12"]

/-- Classifier as worded by the spec: the first matching rule of an ordered
rule list determines the transaction type, `purchase` otherwise. -/
def specOrderedClassify (rules : List ((List Char → Bool) × TransactionType))
    (description : String) : TransactionType :=
  match rules.find? fun r => r.1 (description.data.map lowerC) with
  | some r => r.2
  | none => .purchase

/-- The C6 parser's keyword rules in their source order. -/
def c6TypeRules : List ((List Char → Bool) × TransactionType) :=
  [(C6Bank.refundTest, .refund), (C6Bank.paymentTest, .payment),
   (C6Bank.adjustmentTest, .adjustment), (C6Bank.feeTest, .fee),
   (C6Bank.installmentTest, .installment)]

/-- The local parser's keyword rules in their source order. -/
def localTypeRules : List ((List Char → Bool) × TransactionType) :=
  [(C6Bank.refundTest, .refund), (LocalParser.localPaymentTest, .payment),
   (LocalParser.localInstallmentTest, .installment), (LocalParser.localFeeTest, .fee),
   (LocalParser.localAdjustmentTest, .adjustment)]

/-- One `parse` method call on a C6 parser instance, with the instance's
readonly state threaded explicitly: the method reads only its readonly
fields and writes none, so the state is returned unchanged. -/
def C6Bank.parseCall (p : C6Bank.C6Parser) (nowYear : ℤ) (document : Pdf2JsonDocument) :
    C6Bank.ParseResult × C6Bank.C6Parser :=
  (C6Bank.parseFromDocument p nowYear document, p)

/-- One `parse` method call on a local parser instance, with the instance's
readonly state threaded explicitly. -/
def LocalParser.parseCall (p : LocalParser.LocalParserState) (nowYear : ℤ)
    (document : Pdf2JsonDocument) : LocalParser.LocalParseResult × LocalParser.LocalParserState :=
  (LocalParser.parseFromDocument p nowYear document, p)

/-- A row that reaches the subtotal-marker rule of the card-block state
machine: nonempty text, not a section marker, matching `SUBTOTAL_REGEX`
(the spec's state machine checks the section-marker rules first). -/
def C6Bank.isSubtotalMarkerRow (line : NormalizedTextLine) : Bool :=
  line.text != "" && !C6Bank.adicionaisTest line.text && !C6Bank.principalTest line.text &&
    (C6Bank.subtotalFind line.text).isSome

/-- The current-section value after processing a row prefix. -/
def C6Bank.sectionAfter (sec : String) (lines : List NormalizedTextLine) : String :=
  lines.foldl
    (fun s line =>
      if line.text = "" then s
      else if C6Bank.adicionaisTest line.text then "adicionais"
      else if C6Bank.principalTest line.text then "principal"
      else s)
    sec

/-- Spec-side description of the emitted blocks: one `(section, declared
subtotal)` pair per subtotal-marker row, in document order, with the
section following the marker rows seen so far. -/
def C6Bank.markerSummaries (sec : String) : List NormalizedTextLine → List (String × Option ℚ)
  | [] => []
  | line :: rest =>
    if line.text = "" then C6Bank.markerSummaries sec rest
    else if C6Bank.adicionaisTest line.text then C6Bank.markerSummaries "adicionais" rest
    else if C6Bank.principalTest line.text then C6Bank.markerSummaries "principal" rest
    else
      match C6Bank.subtotalFind line.text with
      | some fullCap => (sec, C6Bank.parseCurrency fullCap.2) :: C6Bank.markerSummaries sec rest
      | none => C6Bank.markerSummaries sec rest

/-- A positioned chunk used by the concrete witness inputs. -/
def sampleChunk (t : String) (x : ℚ) : NormalizedTextChunk := ⟨1, t, x, 1, 1, 0⟩

/-- A three-chunk transaction row used by the concrete witness inputs. -/
def sampleTxLine (d desc amt : String) : NormalizedTextLine :=
  ⟨1, 1, d ++ " " ++ desc ++ " " ++ amt, [sampleChunk d 1, sampleChunk desc 10, sampleChunk amt 20]⟩

/-- A small document (as normalized rows) with one card block and three
transactions, used by the concrete witnesses. -/
def sampleLines : List NormalizedTextLine :=
  [⟨1, 1, "Lembrando: nesta fatura serão lançadas apenas transações feitas até 26/09/25.", []⟩,
   ⟨1, 2, "Transações do cartão principal", []⟩,
   ⟨1, 3, "Subtotal deste cartão R$ 30,00 C6 Carbon Final 1671 - LEANDRO MARTINS",
     [sampleChunk "Subtotal deste cartão R$ 30,00" 1,
      sampleChunk "C6 Carbon Final 1671 - LEANDRO MARTINS" 10]⟩,
   sampleTxLine "15 dez" "LOJA A" "10,00",
   sampleTxLine "16 dez" "LOJA B" "8,00",
   sampleTxLine "17 set" "LOJA C" "12,00"]

/-- The default-configured C6 parser used by the concrete witnesses. -/
def sampleParser : C6Bank.C6Parser := C6Bank.mkC6Parser none

/-- The first card summary of the sample document's parsed statement, used
by the concrete witnesses. -/
def sampleSummary : CardSummary :=
  (match C6Bank.parseStatement sampleParser 2030 sampleLines with
    | some st => st.metadata.cardSummaries
    | none => []).headD ⟨"", "", none, none, none, none, 0, none, 0⟩

/-- Rows in ascending `y` order (the cross-row order the normalizer
guarantees). -/
def rowLt (a b : NormalizedTextLine) : Prop := a.y < b.y

instance : DecidableRel rowLt := fun a b => by unfold rowLt; infer_instance

/-- The chunks of the currently open line of a grouping state. -/
def PdfNorm.curChunks (st : PdfNorm.GroupState) : List NormalizedTextChunk :=
  match st.current with
  | some cur => cur.chunks
  | none => []

/-- Loop invariant of `groupChunksByLine` over `(y, x)`-sorted same-page
chunks: the open line's chunks are nonempty and `(y, x)`-sorted, its `y`
is their running average, the closed lines are in strictly increasing `y`
order with `(y, x)`-sorted chunks, and the most recently closed line's
average sits more than the tolerance below the open line's first chunk. -/
def PdfNorm.GroupInv (tol : ℚ) (P : ℕ) (st : PdfNorm.GroupState) : Prop :=
  match st.current with
  | none => st.revLines = []
  | some cur =>
    cur.page = P ∧
    cur.chunks ≠ [] ∧
    cur.y = PdfNorm.qDivNat (PdfNorm.sumY cur.chunks) cur.chunks.length ∧
    List.Sorted PdfNorm.chunkLE cur.chunks ∧
    List.Chain' rowLt st.revLines.reverse ∧
    (∀ l ∈ st.revLines, List.Sorted PdfNorm.chunkLE l.chunks) ∧
    (∀ h ∈ st.revLines.head?, ∀ c0 ∈ cur.chunks.head?, h.y + tol < c0.y)

/-! ## Helper lemmas on characters and lists -/

theorem char_le_iff_toNat {a b : Char} : a ≤ b ↔ a.toNat ≤ b.toNat := by
  rw [Char.le_def]
  exact ⟨fun h => h, fun h => h⟩

theorem char_eq_iff_toNat {a b : Char} : a = b ↔ a.toNat = b.toNat := by
  rw [Char.ext_iff, UInt32.ext_iff]
  exact Iff.rfl

theorem isDig_toNat {c : Char} : isDig c = true ↔ 48 ≤ c.toNat ∧ c.toNat ≤ 57 := by
  simp only [isDig, Bool.and_eq_true, decide_eq_true_eq, char_le_iff_toNat]
  exact Iff.rfl

theorem dig_not_ws {c : Char} (h : isDig c = true) : isJsWs c = false := by
  rw [isDig_toNat] at h
  simp only [isJsWs]
  simp only [Bool.or_eq_false_iff, Bool.and_eq_false_iff, decide_eq_false_iff_not]
  omega

theorem lowerC_of_small {c : Char} (h : c.toNat < 65) : lowerC c = c := by
  unfold lowerC
  rw [if_neg (by omega), if_neg (by omega)]

theorem dig_sanitizeKeep {c : Char} (h : isDig c = true) : C6Bank.sanitizeKeep c = true := by
  have hn := isDig_toNat.mp h
  have hw := dig_not_ws h
  have hr : lowerC c ≠ 'r' := by
    rw [lowerC_of_small (by omega), Ne, char_eq_iff_toNat]
    show c.toNat ≠ 114
    omega
  have hd : c ≠ '$' := by
    rw [Ne, char_eq_iff_toNat]
    show c.toNat ≠ 36
    omega
  simp [C6Bank.sanitizeKeep, hw, hr, hd]

theorem dig_notDot {c : Char} (h : isDig c = true) : C6Bank.notDot c = true := by
  have hn := isDig_toNat.mp h
  have : c ≠ '.' := by
    rw [Ne, char_eq_iff_toNat]
    show c.toNat ≠ 46
    omega
  simp [C6Bank.notDot, this]

theorem dig_ne_comma {c : Char} (h : isDig c = true) : c ≠ ',' := by
  have hn := isDig_toNat.mp h
  rw [Ne, char_eq_iff_toNat]
  show c.toNat ≠ 44
  omega

theorem dig_ne_minus {c : Char} (h : isDig c = true) : c ≠ '-' := by
  have hn := isDig_toNat.mp h
  rw [Ne, char_eq_iff_toNat]
  show c.toNat ≠ 45
  omega

theorem dig_floatKeep {c : Char} (h : isDig c = true) : C6Bank.floatKeep c = true := by
  simp [C6Bank.floatKeep, h]

theorem takeWhile_append_all {p : Char → Bool} {l r : List Char} (h : ∀ c ∈ l, p c = true) :
    (l ++ r).takeWhile p = l ++ r.takeWhile p := by
  induction l with
  | nil => rfl
  | cons c cs ih =>
    have hc := h c (List.mem_cons_self c cs)
    show List.takeWhile p (c :: (cs ++ r)) = _
    rw [List.takeWhile_cons, if_pos hc, ih fun d hd => h d (List.mem_cons_of_mem c hd)]
    rfl

theorem dropWhile_append_all {p : Char → Bool} {l r : List Char} (h : ∀ c ∈ l, p c = true) :
    (l ++ r).dropWhile p = r.dropWhile p := by
  induction l with
  | nil => rfl
  | cons c cs ih =>
    have hc := h c (List.mem_cons_self c cs)
    show List.dropWhile p (c :: (cs ++ r)) = _
    rw [List.dropWhile_cons, if_pos hc]
    exact ih fun d hd => h d (List.mem_cons_of_mem c hd)

theorem replaceFirstComma_append {l r : List Char} (h : ∀ c ∈ l, c ≠ ',') :
    replaceFirstComma (l ++ ',' :: r) = l ++ '.' :: r := by
  induction l with
  | nil => simp [replaceFirstComma]
  | cons c cs ih =>
    have hc := h c (List.mem_cons_self c cs)
    show replaceFirstComma (c :: (cs ++ ',' :: r)) = _
    rw [replaceFirstComma, if_neg hc, ih fun d hd => h d (List.mem_cons_of_mem c hd)]
    rfl

theorem natOfDigits_pair (c1 c2 : Char) :
    natOfDigits [c1, c2] = 10 * digitVal c1 + digitVal c2 := by
  simp [natOfDigits]
  ring

/-- Every value `parseCurrency` produces has been rounded to a whole number
of hundredths. -/
theorem parseCurrency_den2 {s : String} {v : ℚ} (h : C6Bank.parseCurrency s = some v) :
    Den2 v := by
  unfold C6Bank.parseCurrency at h
  split_ifs at h
  rcases hfl : jsParseFloat ((replaceFirstComma
      ((s.data.filter C6Bank.sanitizeKeep).filter C6Bank.notDot)).filter C6Bank.floatKeep)
    with _ | q
  · rw [hfl] at h
    exact absurd h (by simp)
  · rw [hfl] at h
    simp only [Option.some.injEq] at h
    rw [← h]
    exact den2_round2 q

/-- On a string of digits and thousands dots followed by a decimal comma
and two cent digits, `parseCurrency` returns the exact two-decimal value
obtained by dropping the dots and reading the comma as the decimal point. -/
theorem parseCurrency_grammar (s : String) (ds : List Char) (c1 c2 : Char)
    (hdata : s.data = ds ++ ',' :: [c1, c2])
    (hds : ∀ c ∈ ds, isDig c = true ∨ c = '.')
    (hne : ∃ c ∈ ds, isDig c = true)
    (hc1 : isDig c1 = true) (hc2 : isDig c2 = true) :
    C6Bank.parseCurrency s =
      some (((natOfDigits (ds.filter isDig) * 100 + 10 * digitVal c1 + digitVal c2 : ℕ) : ℚ) /
        100) := by
  have hsne : s ≠ "" := by
    intro h
    rw [h] at hdata
    exact List.cons_ne_nil ',' [c1, c2] (List.append_eq_nil.mp hdata.symm).2
  unfold C6Bank.parseCurrency
  rw [if_neg hsne, hdata]
  have h1 : (ds ++ ',' :: [c1, c2]).filter C6Bank.sanitizeKeep = ds ++ ',' :: [c1, c2] := by
    rw [List.filter_append]
    congr 1
    · exact List.filter_eq_self.mpr fun c hc =>
        (hds c hc).elim dig_sanitizeKeep fun e => by subst e; decide
    · apply List.filter_eq_self.mpr
      intro c hc
      simp only [List.mem_cons, List.mem_singleton, List.not_mem_nil, or_false] at hc
      rcases hc with rfl | rfl | rfl
      · decide
      · exact dig_sanitizeKeep hc1
      · exact dig_sanitizeKeep hc2
  rw [h1]
  have h2 : (ds ++ ',' :: [c1, c2]).filter C6Bank.notDot =
      ds.filter isDig ++ ',' :: [c1, c2] := by
    rw [List.filter_append]
    congr 1
    · apply List.filter_congr
      intro c hc
      rcases hds c hc with hd | rfl
      · rw [dig_notDot hd, hd]
      · decide
    · apply List.filter_eq_self.mpr
      intro c hc
      simp only [List.mem_cons, List.mem_singleton, List.not_mem_nil, or_false] at hc
      rcases hc with rfl | rfl | rfl
      · decide
      · exact dig_notDot hc1
      · exact dig_notDot hc2
  rw [h2]
  rw [replaceFirstComma_append fun c hc => dig_ne_comma (List.of_mem_filter hc)]
  have h3 : (ds.filter isDig ++ '.' :: [c1, c2]).filter C6Bank.floatKeep =
      ds.filter isDig ++ '.' :: [c1, c2] := by
    rw [List.filter_append]
    congr 1
    · exact List.filter_eq_self.mpr fun c hc => dig_floatKeep (List.of_mem_filter hc)
    · apply List.filter_eq_self.mpr
      intro c hc
      simp only [List.mem_cons, List.mem_singleton, List.not_mem_nil, or_false] at hc
      rcases hc with rfl | rfl | rfl
      · decide
      · exact dig_floatKeep hc1
      · exact dig_floatKeep hc2
  rw [h3]
  -- parseFloat on `digits ++ '.' :: [c1, c2]`
  have hnonempty : ds.filter isDig ≠ [] := by
    obtain ⟨c, hc, hdig⟩ := hne
    exact List.ne_nil_of_mem (List.mem_filter.mpr ⟨hc, hdig⟩)
  obtain ⟨d0, ds', hcons⟩ := List.exists_cons_of_ne_nil hnonempty
  have halld : ∀ c ∈ ds.filter isDig, isDig c = true := fun c hc => List.of_mem_filter hc
  have hd0 : isDig d0 = true := halld d0 (hcons ▸ List.mem_cons_self d0 ds')
  unfold jsParseFloat
  have hhead : (ds.filter isDig ++ '.' :: [c1, c2]).head? = some d0 := by
    rw [hcons]
    rfl
  have hneg : ((ds.filter isDig ++ '.' :: [c1, c2]).head? = some '-') = False := by
    rw [hhead]
    simp only [Option.some.injEq, eq_iff_iff, iff_false]
    intro h
    exact dig_ne_minus hd0 h
  simp only [hneg, if_false]
  have hdot : isDig '.' = false := by decide
  have hints : (ds.filter isDig ++ '.' :: [c1, c2]).takeWhile isDig = ds.filter isDig := by
    rw [takeWhile_append_all halld]
    simp [List.takeWhile_cons, hdot]
  have hdrop : (ds.filter isDig ++ '.' :: [c1, c2]).dropWhile isDig = '.' :: [c1, c2] := by
    rw [dropWhile_append_all halld]
    simp [List.dropWhile_cons, hdot]
  rw [hints, hdrop]
  have hfracs : ((('.' :: [c1, c2] : List Char).head? = some '.') = True) := by
    simp
  simp only [hfracs, if_true]
  have htail : ('.' :: [c1, c2] : List Char).tail.takeWhile isDig = [c1, c2] := by
    simp [List.takeWhile_cons, hc1, hc2]
  rw [htail]
  rw [if_neg (by simp [List.isEmpty_iff, hnonempty])]
  have hlen : ([c1, c2] : List Char).length = 2 := rfl
  rw [hlen]
  rw [Rat.divInt_eq_div]
  have hden2 : Den2 ((((natOfDigits (ds.filter isDig) * 10 ^ 2 + natOfDigits [c1, c2] : ℕ) : ℤ) : ℚ) /
      ((((10 ^ 2 : ℕ) : ℕ) : ℤ) : ℚ)) := by
    refine ⟨((natOfDigits (ds.filter isDig) * 10 ^ 2 + natOfDigits [c1, c2] : ℕ) : ℤ), ?_⟩
    norm_num
  show some (round2 ((((natOfDigits (ds.filter isDig) * 10 ^ 2 + natOfDigits [c1, c2] : ℕ) : ℤ) : ℚ) /
      ((((10 ^ 2 : ℕ) : ℕ) : ℤ) : ℚ))) = _
  rw [round2_den2 hden2]
  rw [natOfDigits_pair]
  congr 1
  push_cast
  ring_nf

/-- C1: for both parser variants, the statement field of the parse result is
`null` exactly when the total number of detected transactions (across all
card blocks for the C6 parser) is below the configured minimum, and a
statement is produced otherwise.  (Stage timing metrics are wall-clock
values outside the embedding; the source returns the same metrics record on
both branches.) -/
theorem C1_minimum_transaction_gate (p : C6Bank.C6Parser) (q : LocalParser.LocalParserState)
    (nowYear : ℤ) (lines : List NormalizedTextLine) :
    (C6Bank.parseStatement p nowYear lines = none ↔
      ((C6Bank.extractCardBlocks p nowYear (C6Bank.extractHeader nowYear lines) lines).flatMap
          (·.transactions)).length < p.minimumTransactions) ∧
    (LocalParser.parseStatement q nowYear lines = none ↔
      (LocalParser.extractTransactions q (LocalParser.extractHeader nowYear lines).year nowYear
          lines).length < q.minimumTransactions) := by
  constructor
  · simp only [C6Bank.parseStatement]
    split_ifs with h
    · simpa using h
    · simpa using h
  · simp only [LocalParser.parseStatement]
    split_ifs with h
    · simpa using h
    · simpa using h

/-- C2: the currency parser sends `"1.234,56"` to `1234.56`, `"R$ 45,00"`
to `45.00` and `"N/A"` to `null` without an error value; in general, on a
string of digits and thousands dots followed by a decimal comma and two
cent digits it strips the dots, reads the comma as the decimal point and
returns the exact two-decimal value; and every parsed value is a whole
number of hundredths (the `toFixed(2)` rounding), while failed parses give
`null`. -/
theorem C2_parse_currency :
    C6Bank.parseCurrency "1.234,56" = some ((123456 : ℚ) / 100) ∧
    C6Bank.parseCurrency "R$ 45,00" = some ((45 : ℚ)) ∧
    C6Bank.parseCurrency "N/A" = none ∧
    (∀ (s : String) (ds : List Char) (c1 c2 : Char),
      s.data = ds ++ ',' :: [c1, c2] →
      (∀ c ∈ ds, isDig c = true ∨ c = '.') →
      (∃ c ∈ ds, isDig c = true) →
      isDig c1 = true → isDig c2 = true →
      C6Bank.parseCurrency s =
        some (((natOfDigits (ds.filter isDig) * 100 + 10 * digitVal c1 + digitVal c2 : ℕ) : ℚ) /
          100)) ∧
    (∀ (s : String) (v : ℚ),
      C6Bank.parseCurrency s = some v → Den2 v) ∧
    LocalParser.parseCurrency = C6Bank.parseCurrency := by
  refine ⟨?_, ?_, by decide, parseCurrency_grammar, fun s v h => parseCurrency_den2 h, rfl⟩
  · have h : C6Bank.parseCurrency "1.234,56" = some (Rat.divInt 123456 100) := by decide
    rw [h, Rat.divInt_eq_div]
    norm_num
  · have h : C6Bank.parseCurrency "R$ 45,00" = some (Rat.divInt 45 1) := by decide
    rw [h, Rat.divInt_eq_div]
    norm_num

/-- Witness for C2's general clause at a concrete input:
`"7.040,25"` parses to `7040.25`. -/
theorem C2_parse_currency_witness :
    "7.040,25".data = "7.040".data ++ ',' :: ['2', '5'] ∧
    C6Bank.parseCurrency "7.040,25" =
      some (((natOfDigits ("7.040".data.filter isDig) * 100 + 10 * digitVal '2' +
        digitVal '5' : ℕ) : ℚ) / 100) := by
  refine ⟨by decide, ?_⟩
  exact C2_parse_currency.2.2.2.1 "7.040,25" "7.040".data '2' '5' (by decide)
    (by decide) (by decide) (by decide) (by decide)

theorem lookup_mem_values {α β : Type} [BEq α] {l : List (α × β)} {k : α} {v : β}
    (h : List.lookup k l = some v) : v ∈ l.map Prod.snd := by
  induction l with
  | nil => cases h
  | cons p rest ih =>
    rw [List.lookup] at h
    split at h
    · cases h
      exact List.mem_cons_self _ _
    · exact List.mem_cons_of_mem _ (ih h)

theorem month_map_values {k mm : String}
    (h : C6Bank.MONTH_MAP.lookup k = some mm) : mm ∈ monthCodes := by
  have hv := lookup_mem_values h
  simp only [C6Bank.MONTH_MAP, List.map_cons, List.map_nil, List.mem_cons,
    List.not_mem_nil, or_false] at hv
  rcases hv with rfl | rfl | rfl | rfl | rfl | rfl | rfl | rfl | rfl | rfl | rfl | rfl | rfl |
    rfl | rfl | rfl | rfl | rfl | rfl | rfl | rfl | rfl | rfl | rfl | rfl <;> decide

theorem dateChunkParse_some {v dd mon : String}
    (h : C6Bank.dateChunkParse v = some (dd, mon)) :
    dd.data = v.data.takeWhile isDig ∧ 1 ≤ dd.data.length ∧ dd.data.length ≤ 2 ∧
      dd.data.all isDig = true := by
  unfold C6Bank.dateChunkParse at h
  dsimp only at h
  split_ifs at h with h1
  rcases hws : wsPlus (v.data.dropWhile isDig) with _ | r2
  · rw [hws] at h
    cases h
  · rw [hws] at h
    dsimp only at h
    split_ifs at h with h2
    obtain ⟨rfl, rfl⟩ : (⟨v.data.takeWhile isDig⟩ : String) = dd ∧
        (⟨r2.takeWhile C6Bank.isMonthLetter⟩ : String) = mon := by
      constructor <;> [exact congrArg Prod.fst (Option.some.inj h);
        exact congrArg Prod.snd (Option.some.inj h)]
    refine ⟨rfl, h1.1, h1.2, ?_⟩
    rw [List.all_eq_true]
    intro c hc
    exact List.mem_takeWhile_imp hc

theorem padStart2_length {s : String} (h1 : 1 ≤ s.data.length) (h2 : s.data.length ≤ 2) :
    (padStart2 s).data.length = 2 := by
  unfold padStart2
  split_ifs with h
  · omega
  · simp only [List.length_append, List.length_replicate]
    omega

theorem monthMapGet_own {k mm : String} (h : C6Bank.MONTH_MAP.lookup k = some mm) :
    C6Bank.monthMapGet k = some mm := by
  unfold C6Bank.monthMapGet
  rw [h]

theorem monthCodes_parseInt {mm : String} (h : mm ∈ monthCodes) :
    C6Bank.jsParseIntNat mm = some (natOfDigits mm.data) := by
  simp only [monthCodes, List.mem_cons, List.not_mem_nil, or_false] at h
  rcases h with rfl | rfl | rfl | rfl | rfl | rfl | rfl | rfl | rfl | rfl | rfl | rfl <;> decide

/-- C3: with a fallback year and a nonzero closing month from the header,
a parsed day/month chunk resolves to the fallback year minus one exactly
when its month number exceeds the closing month, and to the fallback year
otherwise; in particular `"15 dez"` on a January-closing statement resolves
to December of the preceding year. -/
theorem C3_year_boundary (v : String) (fy nowYear : ℤ) (cm : ℕ) (dd mon mm : String)
    (hparse : C6Bank.dateChunkParse v = some (dd, mon))
    (hmonth : C6Bank.MONTH_MAP.lookup (C6Bank.normalizeMonth mon) = some mm)
    (hcm : 1 ≤ cm) :
    (C6Bank.parseStatementDate v (some fy) (some cm) nowYear =
      some (intToString (if cm < natOfDigits mm.data then fy - 1 else fy) ++ "-" ++ mm ++ "-" ++
        padStart2 dd)) ∧
    ((if cm < natOfDigits mm.data then fy - 1 else fy) = fy - 1 ↔ cm < natOfDigits mm.data) ∧
    C6Bank.parseStatementDate "15 dez" (some fy) (some 1) nowYear =
      some (intToString (fy - 1) ++ "-12-15") := by
  refine ⟨?_, ?_, ?_⟩
  · unfold C6Bank.parseStatementDate
    rw [hparse]
    dsimp only
    rw [monthMapGet_own hmonth]
    dsimp only
    rw [monthCodes_parseInt (month_map_values hmonth)]
    dsimp only
    have hcm0 : cm ≠ 0 := by omega
    simp only [ne_eq, hcm0, not_false_iff, true_and, Option.getD_some]
  · constructor
    · intro h
      by_contra hlt
      rw [if_neg hlt] at h
      omega
    · intro h
      rw [if_pos h]
  · unfold C6Bank.parseStatementDate
    rw [show C6Bank.dateChunkParse "15 dez" = some ("15", "dez") from by decide]
    dsimp only
    rw [show C6Bank.monthMapGet (C6Bank.normalizeMonth "dez") = some "12" from by decide]
    dsimp only
    rw [show C6Bank.jsParseIntNat "12" = some 12 from by decide]
    dsimp only
    rw [if_pos (by decide)]
    rw [show padStart2 "15" = "15" from by decide]
    congr 1
    apply String.ext
    simp [String.data_append]

/-- Witness for C3 at a concrete chunk: `"20 nov"` with fallback year 2026
and closing month 10 resolves to 2025-11-20 (November exceeds October). -/
theorem C3_year_boundary_witness :
    C6Bank.dateChunkParse "20 nov" = some ("20", "nov") ∧
    C6Bank.MONTH_MAP.lookup (C6Bank.normalizeMonth "nov") = some "11" ∧
    (1 : ℕ) ≤ 10 ∧
    C6Bank.parseStatementDate "20 nov" (some 2026) (some 10) 2030 =
      some (intToString (if 10 < natOfDigits ("11" : String).data then 2026 - 1 else 2026) ++
        "-" ++ "11" ++ "-" ++ padStart2 "20") := by
  refine ⟨by decide, by decide, by norm_num, ?_⟩
  exact (C3_year_boundary "20 nov" 2026 2030 10 "20" "nov" "11" (by decide) (by decide)
    (by norm_num)).1

/-- C10 (amended): a date the C6 transaction-date resolver emits is
non-null exactly when the chunk parses as a 1-2 digit day plus a month
word that resolves through bracket access on `MONTH_MAP`; when the word
is an own key of the table the result is `year-MM-DD` with the month code
drawn from the fixed Portuguese table (hence in 01-12) and the
zero-padded, calendar-unvalidated day (`"31 fev"` yields a string ending
in `-02-31`, `"99 jan"` one ending in `-01-99`) — but the inherited,
truthy `constructor` property of the object literal's prototype escapes
the table: that month word produces a malformed non-null date whose month
component is the interpolated source text of the `Object` function, and
whose year never takes the boundary decrement (its month number is
`NaN`). -/
theorem C10_date_shape (v : String) (fy : Option ℤ) (cm : Option ℕ) (nowYear : ℤ) (s : String)
    (h : C6Bank.parseStatementDate v fy cm nowYear = some s) :
    (∃ (dd mon : String),
      C6Bank.dateChunkParse v = some (dd, mon) ∧
      (padStart2 dd).data.length = 2 ∧ dd.data.all isDig = true ∧
      1 ≤ dd.data.length ∧ dd.data.length ≤ 2 ∧
      ((∃ (mm : String) (y : ℤ),
          C6Bank.MONTH_MAP.lookup (C6Bank.normalizeMonth mon) = some mm ∧
          mm ∈ monthCodes ∧
          s = intToString y ++ "-" ++ mm ++ "-" ++ padStart2 dd) ∨
        (C6Bank.MONTH_MAP.lookup (C6Bank.normalizeMonth mon) = none ∧
          C6Bank.normalizeMonth mon = "constructor" ∧
          s = intToString (fy.getD nowYear) ++ "-" ++ C6Bank.objectCtorString ++ "-" ++
            padStart2 dd))) ∧
    C6Bank.parseStatementDate "31 fev" (some 2025) (some 12) nowYear = some "2025-02-31" ∧
    C6Bank.parseStatementDate "99 jan" (some 2025) (some 12) nowYear = some "2025-01-99" := by
  refine ⟨?_, ?_, ?_⟩
  · unfold C6Bank.parseStatementDate at h
    rcases hparse : C6Bank.dateChunkParse v with _ | ⟨dd, mon⟩
    · rw [hparse] at h
      cases h
    · rw [hparse] at h
      dsimp only at h
      obtain ⟨hd1, hd2, hd3, hd4⟩ := dateChunkParse_some hparse
      unfold C6Bank.monthMapGet at h
      rcases hmonth : C6Bank.MONTH_MAP.lookup (C6Bank.normalizeMonth mon) with _ | mm
      · rw [hmonth] at h
        dsimp only at h
        by_cases hctor : C6Bank.normalizeMonth mon = "constructor"
        · rw [if_pos hctor] at h
          dsimp only at h
          refine ⟨dd, mon, rfl, padStart2_length hd2 hd3, hd4, hd2, hd3,
            Or.inr ⟨hmonth, hctor, ?_⟩⟩
          cases cm
          · exact (Option.some.inj h).symm
          · rw [show C6Bank.jsParseIntNat C6Bank.objectCtorString = none from by decide] at h
            exact (Option.some.inj h).symm
        · rw [if_neg hctor] at h
          cases h
      · rw [hmonth] at h
        dsimp only at h
        refine ⟨dd, mon, rfl, padStart2_length hd2 hd3, hd4, hd2, hd3,
          Or.inl ⟨mm,
            (match cm with
             | some cmv =>
               if cmv ≠ 0 ∧ cmv < natOfDigits mm.data then fy.getD nowYear - 1
               else fy.getD nowYear
             | none => fy.getD nowYear),
            hmonth, month_map_values hmonth, ?_⟩⟩
        cases cm
        · exact (Option.some.inj h).symm
        · rw [monthCodes_parseInt (month_map_values hmonth)] at h
          exact (Option.some.inj h).symm
  · rw [show C6Bank.parseStatementDate "31 fev" (some 2025) (some 12) nowYear =
        some (intToString 2025 ++ "-" ++ "02" ++ "-" ++ padStart2 "31") from by
      unfold C6Bank.parseStatementDate
      rw [show C6Bank.dateChunkParse "31 fev" = some ("31", "fev") from by decide]
      dsimp only
      rw [show C6Bank.monthMapGet (C6Bank.normalizeMonth "fev") = some "02" from by decide]
      dsimp only
      rw [show C6Bank.jsParseIntNat "02" = some 2 from by decide]
      dsimp only
      rw [if_neg (by decide)]
      rfl]
    decide
  · rw [show C6Bank.parseStatementDate "99 jan" (some 2025) (some 12) nowYear =
        some (intToString 2025 ++ "-" ++ "01" ++ "-" ++ padStart2 "99") from by
      unfold C6Bank.parseStatementDate
      rw [show C6Bank.dateChunkParse "99 jan" = some ("99", "jan") from by decide]
      dsimp only
      rw [show C6Bank.monthMapGet (C6Bank.normalizeMonth "jan") = some "01" from by decide]
      dsimp only
      rw [show C6Bank.jsParseIntNat "01" = some 1 from by decide]
      dsimp only
      rw [if_neg (by decide)]
      rfl]
    decide

set_option maxRecDepth 10000 in
/-- C10 counterexample: the month word `constructor` names the inherited,
truthy `constructor` property of the object literal's prototype, so the
transaction detector emits a non-null date that is not of the
`YYYY-MM-DD` shape — its month component is the interpolated source text
of the `Object` function — for a reachable transaction row. -/
theorem C10_counterexample :
    C6Bank.parseStatementDate "15 constructor" (some 2025) (some 1) 2030 =
      some ("2025-" ++ C6Bank.objectCtorString ++ "-15") ∧
    (C6Bank.extractTransactionsFromLines sampleParser (some 2025) (some 1) 2030
        [sampleTxLine "15 constructor" "LOJA D" "10,00"]).map (fun tx => tx.date) =
      [some ("2025-" ++ C6Bank.objectCtorString ++ "-15")] ∧
    ("2025-" ++ C6Bank.objectCtorString ++ "-15").data.length ≠ 10 := by
  refine ⟨by decide, by decide, by decide⟩

/-- Witness for C10's general clause at a concrete chunk. -/
theorem C10_date_shape_witness :
    C6Bank.parseStatementDate "7 mar" (some 2024) none 2030 = some "2024-03-07" ∧
    (∃ (dd mon : String),
      C6Bank.dateChunkParse "7 mar" = some (dd, mon) ∧
      (padStart2 dd).data.length = 2 ∧ dd.data.all isDig = true ∧
      1 ≤ dd.data.length ∧ dd.data.length ≤ 2 ∧
      ((∃ (mm : String) (y : ℤ),
          C6Bank.MONTH_MAP.lookup (C6Bank.normalizeMonth mon) = some mm ∧
          mm ∈ monthCodes ∧
          ("2024-03-07" : String) = intToString y ++ "-" ++ mm ++ "-" ++ padStart2 dd) ∨
        (C6Bank.MONTH_MAP.lookup (C6Bank.normalizeMonth mon) = none ∧
          C6Bank.normalizeMonth mon = "constructor" ∧
          ("2024-03-07" : String) =
            intToString ((some (2024 : ℤ)).getD 2030) ++ "-" ++ C6Bank.objectCtorString ++
              "-" ++ padStart2 dd))) := by
  refine ⟨by decide, ?_⟩
  exact (C10_date_shape "7 mar" (some 2024) none 2030 "2024-03-07" (by decide)).1

/-- C7 (amended): the C6 parser's classifier is the ordered first-match
keyword test refund → payment → adjustment → fee → installment (the latter
including the digits-slash-digits pattern), defaulting to purchase, and
the same slash pattern populates the installment fields; the generic local
parser instead tests refund → payment → installment → fee → adjustment,
without the slash alternative, and every transaction it emits carries null
installment info. -/
theorem C7_transaction_type_order :
    (∀ d : String, C6Bank.determineTransactionType d = specOrderedClassify c6TypeRules d) ∧
    (∀ d : String, LocalParser.determineTransactionType d = specOrderedClassify localTypeRules d) ∧
    (∀ (d : String) (c t : ℕ),
      C6Bank.extractInstallmentInfo d = ⟨some c, some t⟩ ↔
        scanFirst C6Bank.installmentAt d.data = some (c, t)) ∧
    (∀ d : String,
      C6Bank.extractInstallmentInfo d = ⟨none, none⟩ ↔
        scanFirst C6Bank.installmentAt d.data = none) ∧
    (∀ (p : LocalParser.LocalParserState) (fy : Option ℤ) (ny : ℤ) (line : NormalizedTextLine)
        (tx : StatementTransaction),
      LocalParser.mkLocalTransaction p fy ny line = some tx → tx.installment = ⟨none, none⟩) := by
  refine ⟨?_, ?_, ?_, ?_, ?_⟩
  · intro d
    unfold C6Bank.determineTransactionType specOrderedClassify c6TypeRules
    dsimp only
    by_cases h1 : C6Bank.refundTest (d.data.map lowerC) <;>
      by_cases h2 : C6Bank.paymentTest (d.data.map lowerC) <;>
      by_cases h3 : C6Bank.adjustmentTest (d.data.map lowerC) <;>
      by_cases h4 : C6Bank.feeTest (d.data.map lowerC) <;>
      by_cases h5 : C6Bank.installmentTest (d.data.map lowerC) <;>
      simp [List.find?, h1, h2, h3, h4, h5]
  · intro d
    unfold LocalParser.determineTransactionType specOrderedClassify localTypeRules
    dsimp only
    by_cases h1 : C6Bank.refundTest (d.data.map lowerC) <;>
      by_cases h2 : LocalParser.localPaymentTest (d.data.map lowerC) <;>
      by_cases h3 : LocalParser.localInstallmentTest (d.data.map lowerC) <;>
      by_cases h4 : LocalParser.localFeeTest (d.data.map lowerC) <;>
      by_cases h5 : LocalParser.localAdjustmentTest (d.data.map lowerC) <;>
      simp [List.find?, h1, h2, h3, h4, h5]
  · intro d c t
    unfold C6Bank.extractInstallmentInfo
    rcases h : scanFirst C6Bank.installmentAt d.data with _ | ⟨c', t'⟩ <;> simp
  · intro d
    unfold C6Bank.extractInstallmentInfo
    rcases h : scanFirst C6Bank.installmentAt d.data with _ | ⟨c', t'⟩ <;> simp
  · intro p fy ny line tx h
    unfold LocalParser.mkLocalTransaction at h
    dsimp only at h
    split at h
    · cases h
    · split at h
      · cases h
      · split at h
        · cases h
        · split at h
          · cases h
          · split at h
            · cases h
            · split at h
              · cases h
              · cases h
                rfl

/-- C7 counterexample: the two parser variants use different keyword
orders, so the single claimed order (adjustment before installment, with
the digits-slash-digits rule) does not describe the local parser:
`"ajuste parcela"` is `adjustment` under the claimed order (as the C6
parser returns) but `installment` in the local parser, and `"compra 2/4"`
is `installment` under the claimed slash rule but `purchase` in the local
parser. -/
theorem C7_counterexample :
    C6Bank.determineTransactionType "ajuste parcela" = .adjustment ∧
    LocalParser.determineTransactionType "ajuste parcela" = .installment ∧
    LocalParser.determineTransactionType "compra 2/4" = .purchase ∧
    TransactionType.installment ≠ TransactionType.adjustment ∧
    TransactionType.purchase ≠ TransactionType.installment := by
  refine ⟨by decide, by decide, by decide, by decide, by decide⟩

/-- Witness for C7's implication clause at a concrete row. -/
theorem C7_transaction_type_order_witness :
    LocalParser.mkLocalTransaction (LocalParser.mkLocalParser none none) none 2030
        (sampleTxLine "01/02" "LOJA A" "10,00") =
      some
        { date := some "2030-02-01"
          description := "LOJA A"
          amount := some 10
          currency := "BRL"
          transaction_type := .purchase
          inferred_category := none
          installment := ⟨none, none⟩ } ∧
    ({ date := some "2030-02-01"
       description := "LOJA A"
       amount := some 10
       currency := "BRL"
       transaction_type := .purchase
       inferred_category := none
       installment := ⟨none, none⟩ } : StatementTransaction).installment = ⟨none, none⟩ := by
  constructor
  · decide
  · exact C7_transaction_type_order.2.2.2.2 (LocalParser.mkLocalParser none none) none 2030
      (sampleTxLine "01/02" "LOJA A" "10,00") _ (by decide)

/-- C9: parsing is deterministic and touches no instance state: calling
`parse` twice in sequence on the same decoded document (threading the
instance's readonly state through both calls) yields equal statements and
normalized lines, and returns the instance state unchanged, for both
parser variants.  (The two calls are separate evaluations of the embedded
pipeline; the embedding is pure because the source methods allocate all
row buffers and block lists locally and write no field.) -/
theorem C9_parse_deterministic (p : C6Bank.C6Parser) (q : LocalParser.LocalParserState)
    (nowYear : ℤ) (document : Pdf2JsonDocument) :
    ((C6Bank.parseCall p nowYear document).1.statement =
      (C6Bank.parseCall (C6Bank.parseCall p nowYear document).2 nowYear document).1.statement) ∧
    ((C6Bank.parseCall p nowYear document).1.lines =
      (C6Bank.parseCall (C6Bank.parseCall p nowYear document).2 nowYear document).1.lines) ∧
    (C6Bank.parseCall (C6Bank.parseCall p nowYear document).2 nowYear document).2 = p ∧
    ((LocalParser.parseCall q nowYear document).1.statement =
      (LocalParser.parseCall (LocalParser.parseCall q nowYear document).2 nowYear
          document).1.statement) ∧
    ((LocalParser.parseCall q nowYear document).1.lines =
      (LocalParser.parseCall (LocalParser.parseCall q nowYear document).2 nowYear
          document).1.lines) ∧
    (LocalParser.parseCall (LocalParser.parseCall q nowYear document).2 nowYear document).2 = q :=
  ⟨rfl, rfl, rfl, rfl, rfl, rfl⟩

/-! ## C5 lemmas: per-clause field preservation in the header loops -/

theorem updClosing_cardholderName (ny : ℤ) (r : C6Bank.ParsedHeaderResult) (t : String) :
    (C6Bank.updClosing ny r t).cardholderName = r.cardholderName := by
  unfold C6Bank.updClosing
  split_ifs
  · split <;> first
    | rfl
    | (split <;> rfl)
  · rfl

theorem updDue_cardholderName (ny : ℤ) (r : C6Bank.ParsedHeaderResult) (t : String) :
    (C6Bank.updDue ny r t).cardholderName = r.cardholderName := by
  unfold C6Bank.updDue
  split_ifs
  · split <;> first
    | rfl
    | (split <;> rfl)
  · rfl

theorem updTotal_cardholderName (r : C6Bank.ParsedHeaderResult) (t : String) :
    (C6Bank.updTotal r t).cardholderName = r.cardholderName := by
  unfold C6Bank.updTotal
  split_ifs
  · split <;> first
    | rfl
    | (split <;> rfl)
  · rfl

theorem updMinimum_cardholderName (r : C6Bank.ParsedHeaderResult) (t : String) :
    (C6Bank.updMinimum r t).cardholderName = r.cardholderName := by
  unfold C6Bank.updMinimum
  split_ifs
  · split <;> first
    | rfl
    | (split <;> rfl)
  · rfl

theorem updInvoice_cardholderName (r : C6Bank.ParsedHeaderResult) (t : String) :
    (C6Bank.updInvoice r t).cardholderName = r.cardholderName := by
  unfold C6Bank.updInvoice
  split_ifs
  · split <;> first
    | rfl
    | (split <;> rfl)
  · rfl

theorem updBestDay_cardholderName (r : C6Bank.ParsedHeaderResult) (t : String) :
    (C6Bank.updBestDay r t).cardholderName = r.cardholderName := by
  unfold C6Bank.updBestDay
  split_ifs
  · split <;> first
    | rfl
    | (split <;> rfl)
  · rfl

theorem updAutoDebit_cardholderName (r : C6Bank.ParsedHeaderResult) (t : String) :
    (C6Bank.updAutoDebit r t).cardholderName = r.cardholderName := by
  unfold C6Bank.updAutoDebit
  split_ifs
  · split <;> first
    | rfl
    | (split <;> rfl)
  · rfl

theorem updAnnualFee_cardholderName (r : C6Bank.ParsedHeaderResult) (t : String) :
    (C6Bank.updAnnualFee r t).cardholderName = r.cardholderName := by
  unfold C6Bank.updAnnualFee
  split_ifs
  · split <;> first
    | rfl
    | (split <;> rfl)
  · rfl

theorem updCreditLimit_cardholderName (r : C6Bank.ParsedHeaderResult) (t : String) :
    (C6Bank.updCreditLimit r t).cardholderName = r.cardholderName := by
  unfold C6Bank.updCreditLimit
  split_ifs
  · split <;> first
    | rfl
    | (split <;> rfl)
  · rfl

theorem updAvailableLimit_cardholderName (r : C6Bank.ParsedHeaderResult) (t : String) :
    (C6Bank.updAvailableLimit r t).cardholderName = r.cardholderName := by
  unfold C6Bank.updAvailableLimit
  split_ifs
  · split <;> first
    | rfl
    | (split <;> rfl)
  · rfl

theorem updCardholder_closingDate (r : C6Bank.ParsedHeaderResult) (t : String) :
    (C6Bank.updCardholder r t).closingDate = r.closingDate := by
  unfold C6Bank.updCardholder
  split_ifs
  · split <;> first
    | rfl
    | (split <;> rfl)
  · rfl

theorem updDue_closingDate (ny : ℤ) (r : C6Bank.ParsedHeaderResult) (t : String) :
    (C6Bank.updDue ny r t).closingDate = r.closingDate := by
  unfold C6Bank.updDue
  split_ifs
  · split <;> first
    | rfl
    | (split <;> rfl)
  · rfl

theorem updTotal_closingDate (r : C6Bank.ParsedHeaderResult) (t : String) :
    (C6Bank.updTotal r t).closingDate = r.closingDate := by
  unfold C6Bank.updTotal
  split_ifs
  · split <;> first
    | rfl
    | (split <;> rfl)
  · rfl

theorem updMinimum_closingDate (r : C6Bank.ParsedHeaderResult) (t : String) :
    (C6Bank.updMinimum r t).closingDate = r.closingDate := by
  unfold C6Bank.updMinimum
  split_ifs
  · split <;> first
    | rfl
    | (split <;> rfl)
  · rfl

theorem updInvoice_closingDate (r : C6Bank.ParsedHeaderResult) (t : String) :
    (C6Bank.updInvoice r t).closingDate = r.closingDate := by
  unfold C6Bank.updInvoice
  split_ifs
  · split <;> first
    | rfl
    | (split <;> rfl)
  · rfl

theorem updBestDay_closingDate (r : C6Bank.ParsedHeaderResult) (t : String) :
    (C6Bank.updBestDay r t).closingDate = r.closingDate := by
  unfold C6Bank.updBestDay
  split_ifs
  · split <;> first
    | rfl
    | (split <;> rfl)
  · rfl

theorem updAutoDebit_closingDate (r : C6Bank.ParsedHeaderResult) (t : String) :
    (C6Bank.updAutoDebit r t).closingDate = r.closingDate := by
  unfold C6Bank.updAutoDebit
  split_ifs
  · split <;> first
    | rfl
    | (split <;> rfl)
  · rfl

theorem updAnnualFee_closingDate (r : C6Bank.ParsedHeaderResult) (t : String) :
    (C6Bank.updAnnualFee r t).closingDate = r.closingDate := by
  unfold C6Bank.updAnnualFee
  split_ifs
  · split <;> first
    | rfl
    | (split <;> rfl)
  · rfl

theorem updCreditLimit_closingDate (r : C6Bank.ParsedHeaderResult) (t : String) :
    (C6Bank.updCreditLimit r t).closingDate = r.closingDate := by
  unfold C6Bank.updCreditLimit
  split_ifs
  · split <;> first
    | rfl
    | (split <;> rfl)
  · rfl

theorem updAvailableLimit_closingDate (r : C6Bank.ParsedHeaderResult) (t : String) :
    (C6Bank.updAvailableLimit r t).closingDate = r.closingDate := by
  unfold C6Bank.updAvailableLimit
  split_ifs
  · split <;> first
    | rfl
    | (split <;> rfl)
  · rfl

theorem updCardholder_dueDate (r : C6Bank.ParsedHeaderResult) (t : String) :
    (C6Bank.updCardholder r t).dueDate = r.dueDate := by
  unfold C6Bank.updCardholder
  split_ifs
  · split <;> first
    | rfl
    | (split <;> rfl)
  · rfl

theorem updClosing_dueDate (ny : ℤ) (r : C6Bank.ParsedHeaderResult) (t : String) :
    (C6Bank.updClosing ny r t).dueDate = r.dueDate := by
  unfold C6Bank.updClosing
  split_ifs
  · split <;> first
    | rfl
    | (split <;> rfl)
  · rfl

theorem updTotal_dueDate (r : C6Bank.ParsedHeaderResult) (t : String) :
    (C6Bank.updTotal r t).dueDate = r.dueDate := by
  unfold C6Bank.updTotal
  split_ifs
  · split <;> first
    | rfl
    | (split <;> rfl)
  · rfl

theorem updMinimum_dueDate (r : C6Bank.ParsedHeaderResult) (t : String) :
    (C6Bank.updMinimum r t).dueDate = r.dueDate := by
  unfold C6Bank.updMinimum
  split_ifs
  · split <;> first
    | rfl
    | (split <;> rfl)
  · rfl

theorem updInvoice_dueDate (r : C6Bank.ParsedHeaderResult) (t : String) :
    (C6Bank.updInvoice r t).dueDate = r.dueDate := by
  unfold C6Bank.updInvoice
  split_ifs
  · split <;> first
    | rfl
    | (split <;> rfl)
  · rfl

theorem updBestDay_dueDate (r : C6Bank.ParsedHeaderResult) (t : String) :
    (C6Bank.updBestDay r t).dueDate = r.dueDate := by
  unfold C6Bank.updBestDay
  split_ifs
  · split <;> first
    | rfl
    | (split <;> rfl)
  · rfl

theorem updAutoDebit_dueDate (r : C6Bank.ParsedHeaderResult) (t : String) :
    (C6Bank.updAutoDebit r t).dueDate = r.dueDate := by
  unfold C6Bank.updAutoDebit
  split_ifs
  · split <;> first
    | rfl
    | (split <;> rfl)
  · rfl

theorem updAnnualFee_dueDate (r : C6Bank.ParsedHeaderResult) (t : String) :
    (C6Bank.updAnnualFee r t).dueDate = r.dueDate := by
  unfold C6Bank.updAnnualFee
  split_ifs
  · split <;> first
    | rfl
    | (split <;> rfl)
  · rfl

theorem updCreditLimit_dueDate (r : C6Bank.ParsedHeaderResult) (t : String) :
    (C6Bank.updCreditLimit r t).dueDate = r.dueDate := by
  unfold C6Bank.updCreditLimit
  split_ifs
  · split <;> first
    | rfl
    | (split <;> rfl)
  · rfl

theorem updAvailableLimit_dueDate (r : C6Bank.ParsedHeaderResult) (t : String) :
    (C6Bank.updAvailableLimit r t).dueDate = r.dueDate := by
  unfold C6Bank.updAvailableLimit
  split_ifs
  · split <;> first
    | rfl
    | (split <;> rfl)
  · rfl

theorem updCardholder_totalAmount (r : C6Bank.ParsedHeaderResult) (t : String) :
    (C6Bank.updCardholder r t).totalAmount = r.totalAmount := by
  unfold C6Bank.updCardholder
  split_ifs
  · split <;> first
    | rfl
    | (split <;> rfl)
  · rfl

theorem updClosing_totalAmount (ny : ℤ) (r : C6Bank.ParsedHeaderResult) (t : String) :
    (C6Bank.updClosing ny r t).totalAmount = r.totalAmount := by
  unfold C6Bank.updClosing
  split_ifs
  · split <;> first
    | rfl
    | (split <;> rfl)
  · rfl

theorem updDue_totalAmount (ny : ℤ) (r : C6Bank.ParsedHeaderResult) (t : String) :
    (C6Bank.updDue ny r t).totalAmount = r.totalAmount := by
  unfold C6Bank.updDue
  split_ifs
  · split <;> first
    | rfl
    | (split <;> rfl)
  · rfl

theorem updMinimum_totalAmount (r : C6Bank.ParsedHeaderResult) (t : String) :
    (C6Bank.updMinimum r t).totalAmount = r.totalAmount := by
  unfold C6Bank.updMinimum
  split_ifs
  · split <;> first
    | rfl
    | (split <;> rfl)
  · rfl

theorem updInvoice_totalAmount (r : C6Bank.ParsedHeaderResult) (t : String) :
    (C6Bank.updInvoice r t).totalAmount = r.totalAmount := by
  unfold C6Bank.updInvoice
  split_ifs
  · split <;> first
    | rfl
    | (split <;> rfl)
  · rfl

theorem updBestDay_totalAmount (r : C6Bank.ParsedHeaderResult) (t : String) :
    (C6Bank.updBestDay r t).totalAmount = r.totalAmount := by
  unfold C6Bank.updBestDay
  split_ifs
  · split <;> first
    | rfl
    | (split <;> rfl)
  · rfl

theorem updAutoDebit_totalAmount (r : C6Bank.ParsedHeaderResult) (t : String) :
    (C6Bank.updAutoDebit r t).totalAmount = r.totalAmount := by
  unfold C6Bank.updAutoDebit
  split_ifs
  · split <;> first
    | rfl
    | (split <;> rfl)
  · rfl

theorem updAnnualFee_totalAmount (r : C6Bank.ParsedHeaderResult) (t : String) :
    (C6Bank.updAnnualFee r t).totalAmount = r.totalAmount := by
  unfold C6Bank.updAnnualFee
  split_ifs
  · split <;> first
    | rfl
    | (split <;> rfl)
  · rfl

theorem updCreditLimit_totalAmount (r : C6Bank.ParsedHeaderResult) (t : String) :
    (C6Bank.updCreditLimit r t).totalAmount = r.totalAmount := by
  unfold C6Bank.updCreditLimit
  split_ifs
  · split <;> first
    | rfl
    | (split <;> rfl)
  · rfl

theorem updAvailableLimit_totalAmount (r : C6Bank.ParsedHeaderResult) (t : String) :
    (C6Bank.updAvailableLimit r t).totalAmount = r.totalAmount := by
  unfold C6Bank.updAvailableLimit
  split_ifs
  · split <;> first
    | rfl
    | (split <;> rfl)
  · rfl

theorem updCardholder_minimumPayment (r : C6Bank.ParsedHeaderResult) (t : String) :
    (C6Bank.updCardholder r t).minimumPayment = r.minimumPayment := by
  unfold C6Bank.updCardholder
  split_ifs
  · split <;> first
    | rfl
    | (split <;> rfl)
  · rfl

theorem updClosing_minimumPayment (ny : ℤ) (r : C6Bank.ParsedHeaderResult) (t : String) :
    (C6Bank.updClosing ny r t).minimumPayment = r.minimumPayment := by
  unfold C6Bank.updClosing
  split_ifs
  · split <;> first
    | rfl
    | (split <;> rfl)
  · rfl

theorem updDue_minimumPayment (ny : ℤ) (r : C6Bank.ParsedHeaderResult) (t : String) :
    (C6Bank.updDue ny r t).minimumPayment = r.minimumPayment := by
  unfold C6Bank.updDue
  split_ifs
  · split <;> first
    | rfl
    | (split <;> rfl)
  · rfl

theorem updTotal_minimumPayment (r : C6Bank.ParsedHeaderResult) (t : String) :
    (C6Bank.updTotal r t).minimumPayment = r.minimumPayment := by
  unfold C6Bank.updTotal
  split_ifs
  · split <;> first
    | rfl
    | (split <;> rfl)
  · rfl

theorem updInvoice_minimumPayment (r : C6Bank.ParsedHeaderResult) (t : String) :
    (C6Bank.updInvoice r t).minimumPayment = r.minimumPayment := by
  unfold C6Bank.updInvoice
  split_ifs
  · split <;> first
    | rfl
    | (split <;> rfl)
  · rfl

theorem updBestDay_minimumPayment (r : C6Bank.ParsedHeaderResult) (t : String) :
    (C6Bank.updBestDay r t).minimumPayment = r.minimumPayment := by
  unfold C6Bank.updBestDay
  split_ifs
  · split <;> first
    | rfl
    | (split <;> rfl)
  · rfl

theorem updAutoDebit_minimumPayment (r : C6Bank.ParsedHeaderResult) (t : String) :
    (C6Bank.updAutoDebit r t).minimumPayment = r.minimumPayment := by
  unfold C6Bank.updAutoDebit
  split_ifs
  · split <;> first
    | rfl
    | (split <;> rfl)
  · rfl

theorem updAnnualFee_minimumPayment (r : C6Bank.ParsedHeaderResult) (t : String) :
    (C6Bank.updAnnualFee r t).minimumPayment = r.minimumPayment := by
  unfold C6Bank.updAnnualFee
  split_ifs
  · split <;> first
    | rfl
    | (split <;> rfl)
  · rfl

theorem updCreditLimit_minimumPayment (r : C6Bank.ParsedHeaderResult) (t : String) :
    (C6Bank.updCreditLimit r t).minimumPayment = r.minimumPayment := by
  unfold C6Bank.updCreditLimit
  split_ifs
  · split <;> first
    | rfl
    | (split <;> rfl)
  · rfl

theorem updAvailableLimit_minimumPayment (r : C6Bank.ParsedHeaderResult) (t : String) :
    (C6Bank.updAvailableLimit r t).minimumPayment = r.minimumPayment := by
  unfold C6Bank.updAvailableLimit
  split_ifs
  · split <;> first
    | rfl
    | (split <;> rfl)
  · rfl

theorem updCardholder_invoiceNumber (r : C6Bank.ParsedHeaderResult) (t : String) :
    (C6Bank.updCardholder r t).invoiceNumber = r.invoiceNumber := by
  unfold C6Bank.updCardholder
  split_ifs
  · split <;> first
    | rfl
    | (split <;> rfl)
  · rfl

theorem updClosing_invoiceNumber (ny : ℤ) (r : C6Bank.ParsedHeaderResult) (t : String) :
    (C6Bank.updClosing ny r t).invoiceNumber = r.invoiceNumber := by
  unfold C6Bank.updClosing
  split_ifs
  · split <;> first
    | rfl
    | (split <;> rfl)
  · rfl

theorem updDue_invoiceNumber (ny : ℤ) (r : C6Bank.ParsedHeaderResult) (t : String) :
    (C6Bank.updDue ny r t).invoiceNumber = r.invoiceNumber := by
  unfold C6Bank.updDue
  split_ifs
  · split <;> first
    | rfl
    | (split <;> rfl)
  · rfl

theorem updTotal_invoiceNumber (r : C6Bank.ParsedHeaderResult) (t : String) :
    (C6Bank.updTotal r t).invoiceNumber = r.invoiceNumber := by
  unfold C6Bank.updTotal
  split_ifs
  · split <;> first
    | rfl
    | (split <;> rfl)
  · rfl

theorem updMinimum_invoiceNumber (r : C6Bank.ParsedHeaderResult) (t : String) :
    (C6Bank.updMinimum r t).invoiceNumber = r.invoiceNumber := by
  unfold C6Bank.updMinimum
  split_ifs
  · split <;> first
    | rfl
    | (split <;> rfl)
  · rfl

theorem updBestDay_invoiceNumber (r : C6Bank.ParsedHeaderResult) (t : String) :
    (C6Bank.updBestDay r t).invoiceNumber = r.invoiceNumber := by
  unfold C6Bank.updBestDay
  split_ifs
  · split <;> first
    | rfl
    | (split <;> rfl)
  · rfl

theorem updAutoDebit_invoiceNumber (r : C6Bank.ParsedHeaderResult) (t : String) :
    (C6Bank.updAutoDebit r t).invoiceNumber = r.invoiceNumber := by
  unfold C6Bank.updAutoDebit
  split_ifs
  · split <;> first
    | rfl
    | (split <;> rfl)
  · rfl

theorem updAnnualFee_invoiceNumber (r : C6Bank.ParsedHeaderResult) (t : String) :
    (C6Bank.updAnnualFee r t).invoiceNumber = r.invoiceNumber := by
  unfold C6Bank.updAnnualFee
  split_ifs
  · split <;> first
    | rfl
    | (split <;> rfl)
  · rfl

theorem updCreditLimit_invoiceNumber (r : C6Bank.ParsedHeaderResult) (t : String) :
    (C6Bank.updCreditLimit r t).invoiceNumber = r.invoiceNumber := by
  unfold C6Bank.updCreditLimit
  split_ifs
  · split <;> first
    | rfl
    | (split <;> rfl)
  · rfl

theorem updAvailableLimit_invoiceNumber (r : C6Bank.ParsedHeaderResult) (t : String) :
    (C6Bank.updAvailableLimit r t).invoiceNumber = r.invoiceNumber := by
  unfold C6Bank.updAvailableLimit
  split_ifs
  · split <;> first
    | rfl
    | (split <;> rfl)
  · rfl

theorem updCardholder_bestPurchaseDay (r : C6Bank.ParsedHeaderResult) (t : String) :
    (C6Bank.updCardholder r t).bestPurchaseDay = r.bestPurchaseDay := by
  unfold C6Bank.updCardholder
  split_ifs
  · split <;> first
    | rfl
    | (split <;> rfl)
  · rfl

theorem updClosing_bestPurchaseDay (ny : ℤ) (r : C6Bank.ParsedHeaderResult) (t : String) :
    (C6Bank.updClosing ny r t).bestPurchaseDay = r.bestPurchaseDay := by
  unfold C6Bank.updClosing
  split_ifs
  · split <;> first
    | rfl
    | (split <;> rfl)
  · rfl

theorem updDue_bestPurchaseDay (ny : ℤ) (r : C6Bank.ParsedHeaderResult) (t : String) :
    (C6Bank.updDue ny r t).bestPurchaseDay = r.bestPurchaseDay := by
  unfold C6Bank.updDue
  split_ifs
  · split <;> first
    | rfl
    | (split <;> rfl)
  · rfl

theorem updTotal_bestPurchaseDay (r : C6Bank.ParsedHeaderResult) (t : String) :
    (C6Bank.updTotal r t).bestPurchaseDay = r.bestPurchaseDay := by
  unfold C6Bank.updTotal
  split_ifs
  · split <;> first
    | rfl
    | (split <;> rfl)
  · rfl

theorem updMinimum_bestPurchaseDay (r : C6Bank.ParsedHeaderResult) (t : String) :
    (C6Bank.updMinimum r t).bestPurchaseDay = r.bestPurchaseDay := by
  unfold C6Bank.updMinimum
  split_ifs
  · split <;> first
    | rfl
    | (split <;> rfl)
  · rfl

theorem updInvoice_bestPurchaseDay (r : C6Bank.ParsedHeaderResult) (t : String) :
    (C6Bank.updInvoice r t).bestPurchaseDay = r.bestPurchaseDay := by
  unfold C6Bank.updInvoice
  split_ifs
  · split <;> first
    | rfl
    | (split <;> rfl)
  · rfl

theorem updAutoDebit_bestPurchaseDay (r : C6Bank.ParsedHeaderResult) (t : String) :
    (C6Bank.updAutoDebit r t).bestPurchaseDay = r.bestPurchaseDay := by
  unfold C6Bank.updAutoDebit
  split_ifs
  · split <;> first
    | rfl
    | (split <;> rfl)
  · rfl

theorem updAnnualFee_bestPurchaseDay (r : C6Bank.ParsedHeaderResult) (t : String) :
    (C6Bank.updAnnualFee r t).bestPurchaseDay = r.bestPurchaseDay := by
  unfold C6Bank.updAnnualFee
  split_ifs
  · split <;> first
    | rfl
    | (split <;> rfl)
  · rfl

theorem updCreditLimit_bestPurchaseDay (r : C6Bank.ParsedHeaderResult) (t : String) :
    (C6Bank.updCreditLimit r t).bestPurchaseDay = r.bestPurchaseDay := by
  unfold C6Bank.updCreditLimit
  split_ifs
  · split <;> first
    | rfl
    | (split <;> rfl)
  · rfl

theorem updAvailableLimit_bestPurchaseDay (r : C6Bank.ParsedHeaderResult) (t : String) :
    (C6Bank.updAvailableLimit r t).bestPurchaseDay = r.bestPurchaseDay := by
  unfold C6Bank.updAvailableLimit
  split_ifs
  · split <;> first
    | rfl
    | (split <;> rfl)
  · rfl

theorem updCardholder_autoDebit (r : C6Bank.ParsedHeaderResult) (t : String) :
    (C6Bank.updCardholder r t).autoDebit = r.autoDebit := by
  unfold C6Bank.updCardholder
  split_ifs
  · split <;> first
    | rfl
    | (split <;> rfl)
  · rfl

theorem updClosing_autoDebit (ny : ℤ) (r : C6Bank.ParsedHeaderResult) (t : String) :
    (C6Bank.updClosing ny r t).autoDebit = r.autoDebit := by
  unfold C6Bank.updClosing
  split_ifs
  · split <;> first
    | rfl
    | (split <;> rfl)
  · rfl

theorem updDue_autoDebit (ny : ℤ) (r : C6Bank.ParsedHeaderResult) (t : String) :
    (C6Bank.updDue ny r t).autoDebit = r.autoDebit := by
  unfold C6Bank.updDue
  split_ifs
  · split <;> first
    | rfl
    | (split <;> rfl)
  · rfl

theorem updTotal_autoDebit (r : C6Bank.ParsedHeaderResult) (t : String) :
    (C6Bank.updTotal r t).autoDebit = r.autoDebit := by
  unfold C6Bank.updTotal
  split_ifs
  · split <;> first
    | rfl
    | (split <;> rfl)
  · rfl

theorem updMinimum_autoDebit (r : C6Bank.ParsedHeaderResult) (t : String) :
    (C6Bank.updMinimum r t).autoDebit = r.autoDebit := by
  unfold C6Bank.updMinimum
  split_ifs
  · split <;> first
    | rfl
    | (split <;> rfl)
  · rfl

theorem updInvoice_autoDebit (r : C6Bank.ParsedHeaderResult) (t : String) :
    (C6Bank.updInvoice r t).autoDebit = r.autoDebit := by
  unfold C6Bank.updInvoice
  split_ifs
  · split <;> first
    | rfl
    | (split <;> rfl)
  · rfl

theorem updBestDay_autoDebit (r : C6Bank.ParsedHeaderResult) (t : String) :
    (C6Bank.updBestDay r t).autoDebit = r.autoDebit := by
  unfold C6Bank.updBestDay
  split_ifs
  · split <;> first
    | rfl
    | (split <;> rfl)
  · rfl

theorem updAnnualFee_autoDebit (r : C6Bank.ParsedHeaderResult) (t : String) :
    (C6Bank.updAnnualFee r t).autoDebit = r.autoDebit := by
  unfold C6Bank.updAnnualFee
  split_ifs
  · split <;> first
    | rfl
    | (split <;> rfl)
  · rfl

theorem updCreditLimit_autoDebit (r : C6Bank.ParsedHeaderResult) (t : String) :
    (C6Bank.updCreditLimit r t).autoDebit = r.autoDebit := by
  unfold C6Bank.updCreditLimit
  split_ifs
  · split <;> first
    | rfl
    | (split <;> rfl)
  · rfl

theorem updAvailableLimit_autoDebit (r : C6Bank.ParsedHeaderResult) (t : String) :
    (C6Bank.updAvailableLimit r t).autoDebit = r.autoDebit := by
  unfold C6Bank.updAvailableLimit
  split_ifs
  · split <;> first
    | rfl
    | (split <;> rfl)
  · rfl

theorem updCardholder_annualFee (r : C6Bank.ParsedHeaderResult) (t : String) :
    (C6Bank.updCardholder r t).annualFee = r.annualFee := by
  unfold C6Bank.updCardholder
  split_ifs
  · split <;> first
    | rfl
    | (split <;> rfl)
  · rfl

theorem updClosing_annualFee (ny : ℤ) (r : C6Bank.ParsedHeaderResult) (t : String) :
    (C6Bank.updClosing ny r t).annualFee = r.annualFee := by
  unfold C6Bank.updClosing
  split_ifs
  · split <;> first
    | rfl
    | (split <;> rfl)
  · rfl

theorem updDue_annualFee (ny : ℤ) (r : C6Bank.ParsedHeaderResult) (t : String) :
    (C6Bank.updDue ny r t).annualFee = r.annualFee := by
  unfold C6Bank.updDue
  split_ifs
  · split <;> first
    | rfl
    | (split <;> rfl)
  · rfl

theorem updTotal_annualFee (r : C6Bank.ParsedHeaderResult) (t : String) :
    (C6Bank.updTotal r t).annualFee = r.annualFee := by
  unfold C6Bank.updTotal
  split_ifs
  · split <;> first
    | rfl
    | (split <;> rfl)
  · rfl

theorem updMinimum_annualFee (r : C6Bank.ParsedHeaderResult) (t : String) :
    (C6Bank.updMinimum r t).annualFee = r.annualFee := by
  unfold C6Bank.updMinimum
  split_ifs
  · split <;> first
    | rfl
    | (split <;> rfl)
  · rfl

theorem updInvoice_annualFee (r : C6Bank.ParsedHeaderResult) (t : String) :
    (C6Bank.updInvoice r t).annualFee = r.annualFee := by
  unfold C6Bank.updInvoice
  split_ifs
  · split <;> first
    | rfl
    | (split <;> rfl)
  · rfl

theorem updBestDay_annualFee (r : C6Bank.ParsedHeaderResult) (t : String) :
    (C6Bank.updBestDay r t).annualFee = r.annualFee := by
  unfold C6Bank.updBestDay
  split_ifs
  · split <;> first
    | rfl
    | (split <;> rfl)
  · rfl

theorem updAutoDebit_annualFee (r : C6Bank.ParsedHeaderResult) (t : String) :
    (C6Bank.updAutoDebit r t).annualFee = r.annualFee := by
  unfold C6Bank.updAutoDebit
  split_ifs
  · split <;> first
    | rfl
    | (split <;> rfl)
  · rfl

theorem updCreditLimit_annualFee (r : C6Bank.ParsedHeaderResult) (t : String) :
    (C6Bank.updCreditLimit r t).annualFee = r.annualFee := by
  unfold C6Bank.updCreditLimit
  split_ifs
  · split <;> first
    | rfl
    | (split <;> rfl)
  · rfl

theorem updAvailableLimit_annualFee (r : C6Bank.ParsedHeaderResult) (t : String) :
    (C6Bank.updAvailableLimit r t).annualFee = r.annualFee := by
  unfold C6Bank.updAvailableLimit
  split_ifs
  · split <;> first
    | rfl
    | (split <;> rfl)
  · rfl

theorem updCardholder_creditLimit (r : C6Bank.ParsedHeaderResult) (t : String) :
    (C6Bank.updCardholder r t).creditLimit = r.creditLimit := by
  unfold C6Bank.updCardholder
  split_ifs
  · split <;> first
    | rfl
    | (split <;> rfl)
  · rfl

theorem updClosing_creditLimit (ny : ℤ) (r : C6Bank.ParsedHeaderResult) (t : String) :
    (C6Bank.updClosing ny r t).creditLimit = r.creditLimit := by
  unfold C6Bank.updClosing
  split_ifs
  · split <;> first
    | rfl
    | (split <;> rfl)
  · rfl

theorem updDue_creditLimit (ny : ℤ) (r : C6Bank.ParsedHeaderResult) (t : String) :
    (C6Bank.updDue ny r t).creditLimit = r.creditLimit := by
  unfold C6Bank.updDue
  split_ifs
  · split <;> first
    | rfl
    | (split <;> rfl)
  · rfl

theorem updTotal_creditLimit (r : C6Bank.ParsedHeaderResult) (t : String) :
    (C6Bank.updTotal r t).creditLimit = r.creditLimit := by
  unfold C6Bank.updTotal
  split_ifs
  · split <;> first
    | rfl
    | (split <;> rfl)
  · rfl

theorem updMinimum_creditLimit (r : C6Bank.ParsedHeaderResult) (t : String) :
    (C6Bank.updMinimum r t).creditLimit = r.creditLimit := by
  unfold C6Bank.updMinimum
  split_ifs
  · split <;> first
    | rfl
    | (split <;> rfl)
  · rfl

theorem updInvoice_creditLimit (r : C6Bank.ParsedHeaderResult) (t : String) :
    (C6Bank.updInvoice r t).creditLimit = r.creditLimit := by
  unfold C6Bank.updInvoice
  split_ifs
  · split <;> first
    | rfl
    | (split <;> rfl)
  · rfl

theorem updBestDay_creditLimit (r : C6Bank.ParsedHeaderResult) (t : String) :
    (C6Bank.updBestDay r t).creditLimit = r.creditLimit := by
  unfold C6Bank.updBestDay
  split_ifs
  · split <;> first
    | rfl
    | (split <;> rfl)
  · rfl

theorem updAutoDebit_creditLimit (r : C6Bank.ParsedHeaderResult) (t : String) :
    (C6Bank.updAutoDebit r t).creditLimit = r.creditLimit := by
  unfold C6Bank.updAutoDebit
  split_ifs
  · split <;> first
    | rfl
    | (split <;> rfl)
  · rfl

theorem updAnnualFee_creditLimit (r : C6Bank.ParsedHeaderResult) (t : String) :
    (C6Bank.updAnnualFee r t).creditLimit = r.creditLimit := by
  unfold C6Bank.updAnnualFee
  split_ifs
  · split <;> first
    | rfl
    | (split <;> rfl)
  · rfl

theorem updAvailableLimit_creditLimit (r : C6Bank.ParsedHeaderResult) (t : String) :
    (C6Bank.updAvailableLimit r t).creditLimit = r.creditLimit := by
  unfold C6Bank.updAvailableLimit
  split_ifs
  · split <;> first
    | rfl
    | (split <;> rfl)
  · rfl

theorem updCardholder_availableLimit (r : C6Bank.ParsedHeaderResult) (t : String) :
    (C6Bank.updCardholder r t).availableLimit = r.availableLimit := by
  unfold C6Bank.updCardholder
  split_ifs
  · split <;> first
    | rfl
    | (split <;> rfl)
  · rfl

theorem updClosing_availableLimit (ny : ℤ) (r : C6Bank.ParsedHeaderResult) (t : String) :
    (C6Bank.updClosing ny r t).availableLimit = r.availableLimit := by
  unfold C6Bank.updClosing
  split_ifs
  · split <;> first
    | rfl
    | (split <;> rfl)
  · rfl

theorem updDue_availableLimit (ny : ℤ) (r : C6Bank.ParsedHeaderResult) (t : String) :
    (C6Bank.updDue ny r t).availableLimit = r.availableLimit := by
  unfold C6Bank.updDue
  split_ifs
  · split <;> first
    | rfl
    | (split <;> rfl)
  · rfl

theorem updTotal_availableLimit (r : C6Bank.ParsedHeaderResult) (t : String) :
    (C6Bank.updTotal r t).availableLimit = r.availableLimit := by
  unfold C6Bank.updTotal
  split_ifs
  · split <;> first
    | rfl
    | (split <;> rfl)
  · rfl

theorem updMinimum_availableLimit (r : C6Bank.ParsedHeaderResult) (t : String) :
    (C6Bank.updMinimum r t).availableLimit = r.availableLimit := by
  unfold C6Bank.updMinimum
  split_ifs
  · split <;> first
    | rfl
    | (split <;> rfl)
  · rfl

theorem updInvoice_availableLimit (r : C6Bank.ParsedHeaderResult) (t : String) :
    (C6Bank.updInvoice r t).availableLimit = r.availableLimit := by
  unfold C6Bank.updInvoice
  split_ifs
  · split <;> first
    | rfl
    | (split <;> rfl)
  · rfl

theorem updBestDay_availableLimit (r : C6Bank.ParsedHeaderResult) (t : String) :
    (C6Bank.updBestDay r t).availableLimit = r.availableLimit := by
  unfold C6Bank.updBestDay
  split_ifs
  · split <;> first
    | rfl
    | (split <;> rfl)
  · rfl

theorem updAutoDebit_availableLimit (r : C6Bank.ParsedHeaderResult) (t : String) :
    (C6Bank.updAutoDebit r t).availableLimit = r.availableLimit := by
  unfold C6Bank.updAutoDebit
  split_ifs
  · split <;> first
    | rfl
    | (split <;> rfl)
  · rfl

theorem updAnnualFee_availableLimit (r : C6Bank.ParsedHeaderResult) (t : String) :
    (C6Bank.updAnnualFee r t).availableLimit = r.availableLimit := by
  unfold C6Bank.updAnnualFee
  split_ifs
  · split <;> first
    | rfl
    | (split <;> rfl)
  · rfl

theorem updCreditLimit_availableLimit (r : C6Bank.ParsedHeaderResult) (t : String) :
    (C6Bank.updCreditLimit r t).availableLimit = r.availableLimit := by
  unfold C6Bank.updCreditLimit
  split_ifs
  · split <;> first
    | rfl
    | (split <;> rfl)
  · rfl

theorem updCardholder_keep (r : C6Bank.ParsedHeaderResult) (t : String)
    (h : C6Bank.falsyStr r.cardholderName = false) : (C6Bank.updCardholder r t).cardholderName = r.cardholderName := by
  unfold C6Bank.updCardholder
  simp [h]

theorem updClosing_keep (ny : ℤ) (r : C6Bank.ParsedHeaderResult) (t : String)
    (h : C6Bank.falsyStr r.closingDate = false) : (C6Bank.updClosing ny r t).closingDate = r.closingDate := by
  unfold C6Bank.updClosing
  simp [h]

theorem updDue_keep (ny : ℤ) (r : C6Bank.ParsedHeaderResult) (t : String)
    (h : C6Bank.falsyStr r.dueDate = false) : (C6Bank.updDue ny r t).dueDate = r.dueDate := by
  unfold C6Bank.updDue
  simp [h]

theorem updTotal_keep (r : C6Bank.ParsedHeaderResult) (t : String)
    (h : C6Bank.falsyNum r.totalAmount = false) : (C6Bank.updTotal r t).totalAmount = r.totalAmount := by
  unfold C6Bank.updTotal
  simp [h]

theorem updMinimum_keep (r : C6Bank.ParsedHeaderResult) (t : String)
    (h : C6Bank.falsyNum r.minimumPayment = false) : (C6Bank.updMinimum r t).minimumPayment = r.minimumPayment := by
  unfold C6Bank.updMinimum
  simp [h]

theorem updInvoice_keep (r : C6Bank.ParsedHeaderResult) (t : String)
    (h : C6Bank.falsyStr r.invoiceNumber = false) : (C6Bank.updInvoice r t).invoiceNumber = r.invoiceNumber := by
  unfold C6Bank.updInvoice
  simp [h]

theorem updBestDay_keep (r : C6Bank.ParsedHeaderResult) (t : String)
    (h : r.bestPurchaseDay.isNone = false) : (C6Bank.updBestDay r t).bestPurchaseDay = r.bestPurchaseDay := by
  unfold C6Bank.updBestDay
  simp [h]

theorem updAutoDebit_keep (r : C6Bank.ParsedHeaderResult) (t : String)
    (h : r.autoDebit.isNone = false) : (C6Bank.updAutoDebit r t).autoDebit = r.autoDebit := by
  unfold C6Bank.updAutoDebit
  simp [h]

theorem updAnnualFee_keep (r : C6Bank.ParsedHeaderResult) (t : String)
    (h : C6Bank.falsyStr r.annualFee = false) : (C6Bank.updAnnualFee r t).annualFee = r.annualFee := by
  unfold C6Bank.updAnnualFee
  simp [h]

theorem updCreditLimit_keep (r : C6Bank.ParsedHeaderResult) (t : String)
    (h : C6Bank.falsyNum r.creditLimit = false) : (C6Bank.updCreditLimit r t).creditLimit = r.creditLimit := by
  unfold C6Bank.updCreditLimit
  simp [h]

theorem updAvailableLimit_keep (r : C6Bank.ParsedHeaderResult) (t : String)
    (h : C6Bank.falsyNum r.availableLimit = false) : (C6Bank.updAvailableLimit r t).availableLimit = r.availableLimit := by
  unfold C6Bank.updAvailableLimit
  simp [h]

theorem headerStep_keeps_cardholderName (ny : ℤ) (r : C6Bank.ParsedHeaderResult)
    (line : NormalizedTextLine) (h : C6Bank.falsyStr r.cardholderName = false) :
    (C6Bank.headerStep ny r line).cardholderName = r.cardholderName := by
  unfold C6Bank.headerStep
  dsimp only
  split_ifs
  · rfl
  · rw [updAvailableLimit_cardholderName, updCreditLimit_cardholderName, updAnnualFee_cardholderName, updAutoDebit_cardholderName, updBestDay_cardholderName, updInvoice_cardholderName, updMinimum_cardholderName, updTotal_cardholderName, updDue_cardholderName, updClosing_cardholderName]
    rw [updCardholder_keep _ _ h]

theorem headerStep_keeps_closingDate (ny : ℤ) (r : C6Bank.ParsedHeaderResult)
    (line : NormalizedTextLine) (h : C6Bank.falsyStr r.closingDate = false) :
    (C6Bank.headerStep ny r line).closingDate = r.closingDate := by
  unfold C6Bank.headerStep
  dsimp only
  split_ifs
  · rfl
  · have hin : (C6Bank.updCardholder r line.text).closingDate = r.closingDate := by rw [updCardholder_closingDate]
    rw [updAvailableLimit_closingDate, updCreditLimit_closingDate, updAnnualFee_closingDate, updAutoDebit_closingDate, updBestDay_closingDate, updInvoice_closingDate, updMinimum_closingDate, updTotal_closingDate, updDue_closingDate]
    rw [updClosing_keep ny _ _ (by rw [hin]; exact h)]
    exact hin

theorem headerStep_keeps_dueDate (ny : ℤ) (r : C6Bank.ParsedHeaderResult)
    (line : NormalizedTextLine) (h : C6Bank.falsyStr r.dueDate = false) :
    (C6Bank.headerStep ny r line).dueDate = r.dueDate := by
  unfold C6Bank.headerStep
  dsimp only
  split_ifs
  · rfl
  · have hin : (C6Bank.updClosing ny (C6Bank.updCardholder r line.text) line.text).dueDate = r.dueDate := by rw [updClosing_dueDate, updCardholder_dueDate]
    rw [updAvailableLimit_dueDate, updCreditLimit_dueDate, updAnnualFee_dueDate, updAutoDebit_dueDate, updBestDay_dueDate, updInvoice_dueDate, updMinimum_dueDate, updTotal_dueDate]
    rw [updDue_keep ny _ _ (by rw [hin]; exact h)]
    exact hin

theorem headerStep_keeps_totalAmount (ny : ℤ) (r : C6Bank.ParsedHeaderResult)
    (line : NormalizedTextLine) (h : C6Bank.falsyNum r.totalAmount = false) :
    (C6Bank.headerStep ny r line).totalAmount = r.totalAmount := by
  unfold C6Bank.headerStep
  dsimp only
  split_ifs
  · rfl
  · have hin : (C6Bank.updDue ny (C6Bank.updClosing ny (C6Bank.updCardholder r line.text) line.text) line.text).totalAmount = r.totalAmount := by rw [updDue_totalAmount, updClosing_totalAmount, updCardholder_totalAmount]
    rw [updAvailableLimit_totalAmount, updCreditLimit_totalAmount, updAnnualFee_totalAmount, updAutoDebit_totalAmount, updBestDay_totalAmount, updInvoice_totalAmount, updMinimum_totalAmount]
    rw [updTotal_keep  _ _ (by rw [hin]; exact h)]
    exact hin

theorem headerStep_keeps_minimumPayment (ny : ℤ) (r : C6Bank.ParsedHeaderResult)
    (line : NormalizedTextLine) (h : C6Bank.falsyNum r.minimumPayment = false) :
    (C6Bank.headerStep ny r line).minimumPayment = r.minimumPayment := by
  unfold C6Bank.headerStep
  dsimp only
  split_ifs
  · rfl
  · have hin : (C6Bank.updTotal (C6Bank.updDue ny (C6Bank.updClosing ny (C6Bank.updCardholder r line.text) line.text) line.text) line.text).minimumPayment = r.minimumPayment := by rw [updTotal_minimumPayment, updDue_minimumPayment, updClosing_minimumPayment, updCardholder_minimumPayment]
    rw [updAvailableLimit_minimumPayment, updCreditLimit_minimumPayment, updAnnualFee_minimumPayment, updAutoDebit_minimumPayment, updBestDay_minimumPayment, updInvoice_minimumPayment]
    rw [updMinimum_keep  _ _ (by rw [hin]; exact h)]
    exact hin

theorem headerStep_keeps_invoiceNumber (ny : ℤ) (r : C6Bank.ParsedHeaderResult)
    (line : NormalizedTextLine) (h : C6Bank.falsyStr r.invoiceNumber = false) :
    (C6Bank.headerStep ny r line).invoiceNumber = r.invoiceNumber := by
  unfold C6Bank.headerStep
  dsimp only
  split_ifs
  · rfl
  · have hin : (C6Bank.updMinimum (C6Bank.updTotal (C6Bank.updDue ny (C6Bank.updClosing ny (C6Bank.updCardholder r line.text) line.text) line.text) line.text) line.text).invoiceNumber = r.invoiceNumber := by rw [updMinimum_invoiceNumber, updTotal_invoiceNumber, updDue_invoiceNumber, updClosing_invoiceNumber, updCardholder_invoiceNumber]
    rw [updAvailableLimit_invoiceNumber, updCreditLimit_invoiceNumber, updAnnualFee_invoiceNumber, updAutoDebit_invoiceNumber, updBestDay_invoiceNumber]
    rw [updInvoice_keep  _ _ (by rw [hin]; exact h)]
    exact hin

theorem headerStep_keeps_bestPurchaseDay (ny : ℤ) (r : C6Bank.ParsedHeaderResult)
    (line : NormalizedTextLine) (h : r.bestPurchaseDay.isNone = false) :
    (C6Bank.headerStep ny r line).bestPurchaseDay = r.bestPurchaseDay := by
  unfold C6Bank.headerStep
  dsimp only
  split_ifs
  · rfl
  · have hin : (C6Bank.updInvoice (C6Bank.updMinimum (C6Bank.updTotal (C6Bank.updDue ny (C6Bank.updClosing ny (C6Bank.updCardholder r line.text) line.text) line.text) line.text) line.text) line.text).bestPurchaseDay = r.bestPurchaseDay := by rw [updInvoice_bestPurchaseDay, updMinimum_bestPurchaseDay, updTotal_bestPurchaseDay, updDue_bestPurchaseDay, updClosing_bestPurchaseDay, updCardholder_bestPurchaseDay]
    rw [updAvailableLimit_bestPurchaseDay, updCreditLimit_bestPurchaseDay, updAnnualFee_bestPurchaseDay, updAutoDebit_bestPurchaseDay]
    rw [updBestDay_keep  _ _ (by rw [hin]; exact h)]
    exact hin

theorem headerStep_keeps_autoDebit (ny : ℤ) (r : C6Bank.ParsedHeaderResult)
    (line : NormalizedTextLine) (h : r.autoDebit.isNone = false) :
    (C6Bank.headerStep ny r line).autoDebit = r.autoDebit := by
  unfold C6Bank.headerStep
  dsimp only
  split_ifs
  · rfl
  · have hin : (C6Bank.updBestDay (C6Bank.updInvoice (C6Bank.updMinimum (C6Bank.updTotal (C6Bank.updDue ny (C6Bank.updClosing ny (C6Bank.updCardholder r line.text) line.text) line.text) line.text) line.text) line.text) line.text).autoDebit = r.autoDebit := by rw [updBestDay_autoDebit, updInvoice_autoDebit, updMinimum_autoDebit, updTotal_autoDebit, updDue_autoDebit, updClosing_autoDebit, updCardholder_autoDebit]
    rw [updAvailableLimit_autoDebit, updCreditLimit_autoDebit, updAnnualFee_autoDebit]
    rw [updAutoDebit_keep  _ _ (by rw [hin]; exact h)]
    exact hin

theorem headerStep_keeps_annualFee (ny : ℤ) (r : C6Bank.ParsedHeaderResult)
    (line : NormalizedTextLine) (h : C6Bank.falsyStr r.annualFee = false) :
    (C6Bank.headerStep ny r line).annualFee = r.annualFee := by
  unfold C6Bank.headerStep
  dsimp only
  split_ifs
  · rfl
  · have hin : (C6Bank.updAutoDebit (C6Bank.updBestDay (C6Bank.updInvoice (C6Bank.updMinimum (C6Bank.updTotal (C6Bank.updDue ny (C6Bank.updClosing ny (C6Bank.updCardholder r line.text) line.text) line.text) line.text) line.text) line.text) line.text) line.text).annualFee = r.annualFee := by rw [updAutoDebit_annualFee, updBestDay_annualFee, updInvoice_annualFee, updMinimum_annualFee, updTotal_annualFee, updDue_annualFee, updClosing_annualFee, updCardholder_annualFee]
    rw [updAvailableLimit_annualFee, updCreditLimit_annualFee]
    rw [updAnnualFee_keep  _ _ (by rw [hin]; exact h)]
    exact hin

theorem headerStep_keeps_creditLimit (ny : ℤ) (r : C6Bank.ParsedHeaderResult)
    (line : NormalizedTextLine) (h : C6Bank.falsyNum r.creditLimit = false) :
    (C6Bank.headerStep ny r line).creditLimit = r.creditLimit := by
  unfold C6Bank.headerStep
  dsimp only
  split_ifs
  · rfl
  · have hin : (C6Bank.updAnnualFee (C6Bank.updAutoDebit (C6Bank.updBestDay (C6Bank.updInvoice (C6Bank.updMinimum (C6Bank.updTotal (C6Bank.updDue ny (C6Bank.updClosing ny (C6Bank.updCardholder r line.text) line.text) line.text) line.text) line.text) line.text) line.text) line.text) line.text).creditLimit = r.creditLimit := by rw [updAnnualFee_creditLimit, updAutoDebit_creditLimit, updBestDay_creditLimit, updInvoice_creditLimit, updMinimum_creditLimit, updTotal_creditLimit, updDue_creditLimit, updClosing_creditLimit, updCardholder_creditLimit]
    rw [updAvailableLimit_creditLimit]
    rw [updCreditLimit_keep  _ _ (by rw [hin]; exact h)]
    exact hin

theorem headerStep_keeps_availableLimit (ny : ℤ) (r : C6Bank.ParsedHeaderResult)
    (line : NormalizedTextLine) (h : C6Bank.falsyNum r.availableLimit = false) :
    (C6Bank.headerStep ny r line).availableLimit = r.availableLimit := by
  unfold C6Bank.headerStep
  dsimp only
  split_ifs
  · rfl
  · have hin : (C6Bank.updCreditLimit (C6Bank.updAnnualFee (C6Bank.updAutoDebit (C6Bank.updBestDay (C6Bank.updInvoice (C6Bank.updMinimum (C6Bank.updTotal (C6Bank.updDue ny (C6Bank.updClosing ny (C6Bank.updCardholder r line.text) line.text) line.text) line.text) line.text) line.text) line.text) line.text) line.text) line.text).availableLimit = r.availableLimit := by rw [updCreditLimit_availableLimit, updAnnualFee_availableLimit, updAutoDebit_availableLimit, updBestDay_availableLimit, updInvoice_availableLimit, updMinimum_availableLimit, updTotal_availableLimit, updDue_availableLimit, updClosing_availableLimit, updCardholder_availableLimit]
    skip
    rw [updAvailableLimit_keep  _ _ (by rw [hin]; exact h)]
    exact hin
theorem updLClosing_cardholder (ny : ℤ) (r : LocalParser.LocalHeader) (t : String) :
    (LocalParser.updLClosing ny r t).cardholder = r.cardholder := by
  unfold LocalParser.updLClosing
  split
  · split_ifs
    · first
      | rfl
      | (split <;> rfl)
    · rfl
  · rfl

theorem updLDue_cardholder (ny : ℤ) (r : LocalParser.LocalHeader) (t : String) :
    (LocalParser.updLDue ny r t).cardholder = r.cardholder := by
  unfold LocalParser.updLDue
  split
  · split_ifs
    · first
      | rfl
      | (split <;> rfl)
    · rfl
  · rfl

theorem updLInvoice_cardholder (r : LocalParser.LocalHeader) (t : String) :
    (LocalParser.updLInvoice r t).cardholder = r.cardholder := by
  unfold LocalParser.updLInvoice
  split
  · split_ifs
    · first
      | rfl
      | (split <;> rfl)
    · rfl
  · rfl

theorem updLCurrency_cardholder (r : LocalParser.LocalHeader) (t : String) :
    (LocalParser.updLCurrency r t).cardholder = r.cardholder := by
  unfold LocalParser.updLCurrency
  split
  · split_ifs
    · first
      | rfl
      | (split <;> rfl)
    · rfl
  · rfl

theorem updLTotal_cardholder (r : LocalParser.LocalHeader) (t : String) :
    (LocalParser.updLTotal r t).cardholder = r.cardholder := by
  unfold LocalParser.updLTotal
  split
  · split_ifs
    · first
      | rfl
      | (split <;> rfl)
    · rfl
  · rfl

theorem updLMinimum_cardholder (r : LocalParser.LocalHeader) (t : String) :
    (LocalParser.updLMinimum r t).cardholder = r.cardholder := by
  unfold LocalParser.updLMinimum
  split
  · split_ifs
    · first
      | rfl
      | (split <;> rfl)
    · rfl
  · rfl

theorem updLCardholder_closingDate (r : LocalParser.LocalHeader) (t : String) :
    (LocalParser.updLCardholder r t).closingDate = r.closingDate := by
  unfold LocalParser.updLCardholder
  split
  · split_ifs
    · first
      | rfl
      | (split <;> rfl)
    · rfl
  · rfl

theorem updLDue_closingDate (ny : ℤ) (r : LocalParser.LocalHeader) (t : String) :
    (LocalParser.updLDue ny r t).closingDate = r.closingDate := by
  unfold LocalParser.updLDue
  split
  · split_ifs
    · first
      | rfl
      | (split <;> rfl)
    · rfl
  · rfl

theorem updLInvoice_closingDate (r : LocalParser.LocalHeader) (t : String) :
    (LocalParser.updLInvoice r t).closingDate = r.closingDate := by
  unfold LocalParser.updLInvoice
  split
  · split_ifs
    · first
      | rfl
      | (split <;> rfl)
    · rfl
  · rfl

theorem updLCurrency_closingDate (r : LocalParser.LocalHeader) (t : String) :
    (LocalParser.updLCurrency r t).closingDate = r.closingDate := by
  unfold LocalParser.updLCurrency
  split
  · split_ifs
    · first
      | rfl
      | (split <;> rfl)
    · rfl
  · rfl

theorem updLTotal_closingDate (r : LocalParser.LocalHeader) (t : String) :
    (LocalParser.updLTotal r t).closingDate = r.closingDate := by
  unfold LocalParser.updLTotal
  split
  · split_ifs
    · first
      | rfl
      | (split <;> rfl)
    · rfl
  · rfl

theorem updLMinimum_closingDate (r : LocalParser.LocalHeader) (t : String) :
    (LocalParser.updLMinimum r t).closingDate = r.closingDate := by
  unfold LocalParser.updLMinimum
  split
  · split_ifs
    · first
      | rfl
      | (split <;> rfl)
    · rfl
  · rfl

theorem updLCardholder_dueDate (r : LocalParser.LocalHeader) (t : String) :
    (LocalParser.updLCardholder r t).dueDate = r.dueDate := by
  unfold LocalParser.updLCardholder
  split
  · split_ifs
    · first
      | rfl
      | (split <;> rfl)
    · rfl
  · rfl

theorem updLClosing_dueDate (ny : ℤ) (r : LocalParser.LocalHeader) (t : String) :
    (LocalParser.updLClosing ny r t).dueDate = r.dueDate := by
  unfold LocalParser.updLClosing
  split
  · split_ifs
    · first
      | rfl
      | (split <;> rfl)
    · rfl
  · rfl

theorem updLInvoice_dueDate (r : LocalParser.LocalHeader) (t : String) :
    (LocalParser.updLInvoice r t).dueDate = r.dueDate := by
  unfold LocalParser.updLInvoice
  split
  · split_ifs
    · first
      | rfl
      | (split <;> rfl)
    · rfl
  · rfl

theorem updLCurrency_dueDate (r : LocalParser.LocalHeader) (t : String) :
    (LocalParser.updLCurrency r t).dueDate = r.dueDate := by
  unfold LocalParser.updLCurrency
  split
  · split_ifs
    · first
      | rfl
      | (split <;> rfl)
    · rfl
  · rfl

theorem updLTotal_dueDate (r : LocalParser.LocalHeader) (t : String) :
    (LocalParser.updLTotal r t).dueDate = r.dueDate := by
  unfold LocalParser.updLTotal
  split
  · split_ifs
    · first
      | rfl
      | (split <;> rfl)
    · rfl
  · rfl

theorem updLMinimum_dueDate (r : LocalParser.LocalHeader) (t : String) :
    (LocalParser.updLMinimum r t).dueDate = r.dueDate := by
  unfold LocalParser.updLMinimum
  split
  · split_ifs
    · first
      | rfl
      | (split <;> rfl)
    · rfl
  · rfl

theorem updLCardholder_invoiceNumber (r : LocalParser.LocalHeader) (t : String) :
    (LocalParser.updLCardholder r t).invoiceNumber = r.invoiceNumber := by
  unfold LocalParser.updLCardholder
  split
  · split_ifs
    · first
      | rfl
      | (split <;> rfl)
    · rfl
  · rfl

theorem updLClosing_invoiceNumber (ny : ℤ) (r : LocalParser.LocalHeader) (t : String) :
    (LocalParser.updLClosing ny r t).invoiceNumber = r.invoiceNumber := by
  unfold LocalParser.updLClosing
  split
  · split_ifs
    · first
      | rfl
      | (split <;> rfl)
    · rfl
  · rfl

theorem updLDue_invoiceNumber (ny : ℤ) (r : LocalParser.LocalHeader) (t : String) :
    (LocalParser.updLDue ny r t).invoiceNumber = r.invoiceNumber := by
  unfold LocalParser.updLDue
  split
  · split_ifs
    · first
      | rfl
      | (split <;> rfl)
    · rfl
  · rfl

theorem updLCurrency_invoiceNumber (r : LocalParser.LocalHeader) (t : String) :
    (LocalParser.updLCurrency r t).invoiceNumber = r.invoiceNumber := by
  unfold LocalParser.updLCurrency
  split
  · split_ifs
    · first
      | rfl
      | (split <;> rfl)
    · rfl
  · rfl

theorem updLTotal_invoiceNumber (r : LocalParser.LocalHeader) (t : String) :
    (LocalParser.updLTotal r t).invoiceNumber = r.invoiceNumber := by
  unfold LocalParser.updLTotal
  split
  · split_ifs
    · first
      | rfl
      | (split <;> rfl)
    · rfl
  · rfl

theorem updLMinimum_invoiceNumber (r : LocalParser.LocalHeader) (t : String) :
    (LocalParser.updLMinimum r t).invoiceNumber = r.invoiceNumber := by
  unfold LocalParser.updLMinimum
  split
  · split_ifs
    · first
      | rfl
      | (split <;> rfl)
    · rfl
  · rfl

theorem updLCardholder_currency (r : LocalParser.LocalHeader) (t : String) :
    (LocalParser.updLCardholder r t).currency = r.currency := by
  unfold LocalParser.updLCardholder
  split
  · split_ifs
    · first
      | rfl
      | (split <;> rfl)
    · rfl
  · rfl

theorem updLClosing_currency (ny : ℤ) (r : LocalParser.LocalHeader) (t : String) :
    (LocalParser.updLClosing ny r t).currency = r.currency := by
  unfold LocalParser.updLClosing
  split
  · split_ifs
    · first
      | rfl
      | (split <;> rfl)
    · rfl
  · rfl

theorem updLDue_currency (ny : ℤ) (r : LocalParser.LocalHeader) (t : String) :
    (LocalParser.updLDue ny r t).currency = r.currency := by
  unfold LocalParser.updLDue
  split
  · split_ifs
    · first
      | rfl
      | (split <;> rfl)
    · rfl
  · rfl

theorem updLInvoice_currency (r : LocalParser.LocalHeader) (t : String) :
    (LocalParser.updLInvoice r t).currency = r.currency := by
  unfold LocalParser.updLInvoice
  split
  · split_ifs
    · first
      | rfl
      | (split <;> rfl)
    · rfl
  · rfl

theorem updLTotal_currency (r : LocalParser.LocalHeader) (t : String) :
    (LocalParser.updLTotal r t).currency = r.currency := by
  unfold LocalParser.updLTotal
  split
  · split_ifs
    · first
      | rfl
      | (split <;> rfl)
    · rfl
  · rfl

theorem updLMinimum_currency (r : LocalParser.LocalHeader) (t : String) :
    (LocalParser.updLMinimum r t).currency = r.currency := by
  unfold LocalParser.updLMinimum
  split
  · split_ifs
    · first
      | rfl
      | (split <;> rfl)
    · rfl
  · rfl

theorem updLCardholder_totalAmount (r : LocalParser.LocalHeader) (t : String) :
    (LocalParser.updLCardholder r t).totalAmount = r.totalAmount := by
  unfold LocalParser.updLCardholder
  split
  · split_ifs
    · first
      | rfl
      | (split <;> rfl)
    · rfl
  · rfl

theorem updLClosing_totalAmount (ny : ℤ) (r : LocalParser.LocalHeader) (t : String) :
    (LocalParser.updLClosing ny r t).totalAmount = r.totalAmount := by
  unfold LocalParser.updLClosing
  split
  · split_ifs
    · first
      | rfl
      | (split <;> rfl)
    · rfl
  · rfl

theorem updLDue_totalAmount (ny : ℤ) (r : LocalParser.LocalHeader) (t : String) :
    (LocalParser.updLDue ny r t).totalAmount = r.totalAmount := by
  unfold LocalParser.updLDue
  split
  · split_ifs
    · first
      | rfl
      | (split <;> rfl)
    · rfl
  · rfl

theorem updLInvoice_totalAmount (r : LocalParser.LocalHeader) (t : String) :
    (LocalParser.updLInvoice r t).totalAmount = r.totalAmount := by
  unfold LocalParser.updLInvoice
  split
  · split_ifs
    · first
      | rfl
      | (split <;> rfl)
    · rfl
  · rfl

theorem updLCurrency_totalAmount (r : LocalParser.LocalHeader) (t : String) :
    (LocalParser.updLCurrency r t).totalAmount = r.totalAmount := by
  unfold LocalParser.updLCurrency
  split
  · split_ifs
    · first
      | rfl
      | (split <;> rfl)
    · rfl
  · rfl

theorem updLMinimum_totalAmount (r : LocalParser.LocalHeader) (t : String) :
    (LocalParser.updLMinimum r t).totalAmount = r.totalAmount := by
  unfold LocalParser.updLMinimum
  split
  · split_ifs
    · first
      | rfl
      | (split <;> rfl)
    · rfl
  · rfl

theorem updLCardholder_minimumPayment (r : LocalParser.LocalHeader) (t : String) :
    (LocalParser.updLCardholder r t).minimumPayment = r.minimumPayment := by
  unfold LocalParser.updLCardholder
  split
  · split_ifs
    · first
      | rfl
      | (split <;> rfl)
    · rfl
  · rfl

theorem updLClosing_minimumPayment (ny : ℤ) (r : LocalParser.LocalHeader) (t : String) :
    (LocalParser.updLClosing ny r t).minimumPayment = r.minimumPayment := by
  unfold LocalParser.updLClosing
  split
  · split_ifs
    · first
      | rfl
      | (split <;> rfl)
    · rfl
  · rfl

theorem updLDue_minimumPayment (ny : ℤ) (r : LocalParser.LocalHeader) (t : String) :
    (LocalParser.updLDue ny r t).minimumPayment = r.minimumPayment := by
  unfold LocalParser.updLDue
  split
  · split_ifs
    · first
      | rfl
      | (split <;> rfl)
    · rfl
  · rfl

theorem updLInvoice_minimumPayment (r : LocalParser.LocalHeader) (t : String) :
    (LocalParser.updLInvoice r t).minimumPayment = r.minimumPayment := by
  unfold LocalParser.updLInvoice
  split
  · split_ifs
    · first
      | rfl
      | (split <;> rfl)
    · rfl
  · rfl

theorem updLCurrency_minimumPayment (r : LocalParser.LocalHeader) (t : String) :
    (LocalParser.updLCurrency r t).minimumPayment = r.minimumPayment := by
  unfold LocalParser.updLCurrency
  split
  · split_ifs
    · first
      | rfl
      | (split <;> rfl)
    · rfl
  · rfl

theorem updLTotal_minimumPayment (r : LocalParser.LocalHeader) (t : String) :
    (LocalParser.updLTotal r t).minimumPayment = r.minimumPayment := by
  unfold LocalParser.updLTotal
  split
  · split_ifs
    · first
      | rfl
      | (split <;> rfl)
    · rfl
  · rfl

theorem updLCardholder_keep (r : LocalParser.LocalHeader) (t : String)
    (h : C6Bank.falsyStr r.cardholder = false) : (LocalParser.updLCardholder r t).cardholder = r.cardholder := by
  unfold LocalParser.updLCardholder
  split
  · simp [h]
  · rfl

theorem updLClosing_keep (ny : ℤ) (r : LocalParser.LocalHeader) (t : String)
    (h : C6Bank.falsyStr r.closingDate = false) : (LocalParser.updLClosing ny r t).closingDate = r.closingDate := by
  unfold LocalParser.updLClosing
  split
  · simp [h]
  · rfl

theorem updLDue_keep (ny : ℤ) (r : LocalParser.LocalHeader) (t : String)
    (h : C6Bank.falsyStr r.dueDate = false) : (LocalParser.updLDue ny r t).dueDate = r.dueDate := by
  unfold LocalParser.updLDue
  split
  · simp [h]
  · rfl

theorem updLInvoice_keep (r : LocalParser.LocalHeader) (t : String)
    (h : C6Bank.falsyStr r.invoiceNumber = false) : (LocalParser.updLInvoice r t).invoiceNumber = r.invoiceNumber := by
  unfold LocalParser.updLInvoice
  split
  · simp [h]
  · rfl

theorem updLCurrency_keep (r : LocalParser.LocalHeader) (t : String)
    (h : C6Bank.falsyStr r.currency = false) : (LocalParser.updLCurrency r t).currency = r.currency := by
  unfold LocalParser.updLCurrency
  split
  · simp [h]
  · rfl

theorem updLTotal_keep (r : LocalParser.LocalHeader) (t : String)
    (h : C6Bank.falsyNum r.totalAmount = false) : (LocalParser.updLTotal r t).totalAmount = r.totalAmount := by
  unfold LocalParser.updLTotal
  split
  · simp [h]
  · rfl

theorem updLMinimum_keep (r : LocalParser.LocalHeader) (t : String)
    (h : C6Bank.falsyNum r.minimumPayment = false) : (LocalParser.updLMinimum r t).minimumPayment = r.minimumPayment := by
  unfold LocalParser.updLMinimum
  split
  · simp [h]
  · rfl

theorem localHeaderStep_keeps_cardholder (ny : ℤ) (r : LocalParser.LocalHeader)
    (line : NormalizedTextLine) (h : C6Bank.falsyStr r.cardholder = false) :
    (LocalParser.headerStep ny r line).cardholder = r.cardholder := by
  unfold LocalParser.headerStep
  dsimp only
  · rw [updLMinimum_cardholder, updLTotal_cardholder, updLCurrency_cardholder, updLInvoice_cardholder, updLDue_cardholder, updLClosing_cardholder]
    rw [updLCardholder_keep _ _ h]

theorem localHeaderStep_keeps_closingDate (ny : ℤ) (r : LocalParser.LocalHeader)
    (line : NormalizedTextLine) (h : C6Bank.falsyStr r.closingDate = false) :
    (LocalParser.headerStep ny r line).closingDate = r.closingDate := by
  unfold LocalParser.headerStep
  dsimp only
  · have hin : (LocalParser.updLCardholder r line.text).closingDate = r.closingDate := by rw [updLCardholder_closingDate]
    rw [updLMinimum_closingDate, updLTotal_closingDate, updLCurrency_closingDate, updLInvoice_closingDate, updLDue_closingDate]
    rw [updLClosing_keep ny _ _ (by rw [hin]; exact h)]
    exact hin

theorem localHeaderStep_keeps_dueDate (ny : ℤ) (r : LocalParser.LocalHeader)
    (line : NormalizedTextLine) (h : C6Bank.falsyStr r.dueDate = false) :
    (LocalParser.headerStep ny r line).dueDate = r.dueDate := by
  unfold LocalParser.headerStep
  dsimp only
  · have hin : (LocalParser.updLClosing ny (LocalParser.updLCardholder r line.text) line.text).dueDate = r.dueDate := by rw [updLClosing_dueDate, updLCardholder_dueDate]
    rw [updLMinimum_dueDate, updLTotal_dueDate, updLCurrency_dueDate, updLInvoice_dueDate]
    rw [updLDue_keep ny _ _ (by rw [hin]; exact h)]
    exact hin

theorem localHeaderStep_keeps_invoiceNumber (ny : ℤ) (r : LocalParser.LocalHeader)
    (line : NormalizedTextLine) (h : C6Bank.falsyStr r.invoiceNumber = false) :
    (LocalParser.headerStep ny r line).invoiceNumber = r.invoiceNumber := by
  unfold LocalParser.headerStep
  dsimp only
  · have hin : (LocalParser.updLDue ny (LocalParser.updLClosing ny (LocalParser.updLCardholder r line.text) line.text) line.text).invoiceNumber = r.invoiceNumber := by rw [updLDue_invoiceNumber, updLClosing_invoiceNumber, updLCardholder_invoiceNumber]
    rw [updLMinimum_invoiceNumber, updLTotal_invoiceNumber, updLCurrency_invoiceNumber]
    rw [updLInvoice_keep _ _ (by rw [hin]; exact h)]
    exact hin

theorem localHeaderStep_keeps_currency (ny : ℤ) (r : LocalParser.LocalHeader)
    (line : NormalizedTextLine) (h : C6Bank.falsyStr r.currency = false) :
    (LocalParser.headerStep ny r line).currency = r.currency := by
  unfold LocalParser.headerStep
  dsimp only
  · have hin : (LocalParser.updLInvoice (LocalParser.updLDue ny (LocalParser.updLClosing ny (LocalParser.updLCardholder r line.text) line.text) line.text) line.text).currency = r.currency := by rw [updLInvoice_currency, updLDue_currency, updLClosing_currency, updLCardholder_currency]
    rw [updLMinimum_currency, updLTotal_currency]
    rw [updLCurrency_keep _ _ (by rw [hin]; exact h)]
    exact hin

theorem localHeaderStep_keeps_totalAmount (ny : ℤ) (r : LocalParser.LocalHeader)
    (line : NormalizedTextLine) (h : C6Bank.falsyNum r.totalAmount = false) :
    (LocalParser.headerStep ny r line).totalAmount = r.totalAmount := by
  unfold LocalParser.headerStep
  dsimp only
  · have hin : (LocalParser.updLCurrency (LocalParser.updLInvoice (LocalParser.updLDue ny (LocalParser.updLClosing ny (LocalParser.updLCardholder r line.text) line.text) line.text) line.text) line.text).totalAmount = r.totalAmount := by rw [updLCurrency_totalAmount, updLInvoice_totalAmount, updLDue_totalAmount, updLClosing_totalAmount, updLCardholder_totalAmount]
    rw [updLMinimum_totalAmount]
    rw [updLTotal_keep _ _ (by rw [hin]; exact h)]
    exact hin

theorem localHeaderStep_keeps_minimumPayment (ny : ℤ) (r : LocalParser.LocalHeader)
    (line : NormalizedTextLine) (h : C6Bank.falsyNum r.minimumPayment = false) :
    (LocalParser.headerStep ny r line).minimumPayment = r.minimumPayment := by
  unfold LocalParser.headerStep
  dsimp only
  · have hin : (LocalParser.updLTotal (LocalParser.updLCurrency (LocalParser.updLInvoice (LocalParser.updLDue ny (LocalParser.updLClosing ny (LocalParser.updLCardholder r line.text) line.text) line.text) line.text) line.text) line.text).minimumPayment = r.minimumPayment := by rw [updLTotal_minimumPayment, updLCurrency_minimumPayment, updLInvoice_minimumPayment, updLDue_minimumPayment, updLClosing_minimumPayment, updLCardholder_minimumPayment]
    skip
    rw [updLMinimum_keep _ _ (by rw [hin]; exact h)]
    exact hin
theorem headerFold_keeps_cardholderName (ny : ℤ) (lines : List NormalizedTextLine) :
    ∀ (r : C6Bank.ParsedHeaderResult), C6Bank.falsyStr r.cardholderName = false →
      (lines.foldl (C6Bank.headerStep ny) r).cardholderName = r.cardholderName := by
  induction lines with
  | nil =>
    intro r h
    rfl
  | cons l ls ih =>
    intro r h
    rw [List.foldl_cons]
    have hs := headerStep_keeps_cardholderName ny r l h
    have hg : C6Bank.falsyStr (C6Bank.headerStep ny r l).cardholderName = false := by
      rw [hs]
      exact h
    rw [ih (C6Bank.headerStep ny r l) hg, hs]

theorem headerFold_keeps_closingDate (ny : ℤ) (lines : List NormalizedTextLine) :
    ∀ (r : C6Bank.ParsedHeaderResult), C6Bank.falsyStr r.closingDate = false →
      (lines.foldl (C6Bank.headerStep ny) r).closingDate = r.closingDate := by
  induction lines with
  | nil =>
    intro r h
    rfl
  | cons l ls ih =>
    intro r h
    rw [List.foldl_cons]
    have hs := headerStep_keeps_closingDate ny r l h
    have hg : C6Bank.falsyStr (C6Bank.headerStep ny r l).closingDate = false := by
      rw [hs]
      exact h
    rw [ih (C6Bank.headerStep ny r l) hg, hs]

theorem headerFold_keeps_dueDate (ny : ℤ) (lines : List NormalizedTextLine) :
    ∀ (r : C6Bank.ParsedHeaderResult), C6Bank.falsyStr r.dueDate = false →
      (lines.foldl (C6Bank.headerStep ny) r).dueDate = r.dueDate := by
  induction lines with
  | nil =>
    intro r h
    rfl
  | cons l ls ih =>
    intro r h
    rw [List.foldl_cons]
    have hs := headerStep_keeps_dueDate ny r l h
    have hg : C6Bank.falsyStr (C6Bank.headerStep ny r l).dueDate = false := by
      rw [hs]
      exact h
    rw [ih (C6Bank.headerStep ny r l) hg, hs]

theorem headerFold_keeps_totalAmount (ny : ℤ) (lines : List NormalizedTextLine) :
    ∀ (r : C6Bank.ParsedHeaderResult), C6Bank.falsyNum r.totalAmount = false →
      (lines.foldl (C6Bank.headerStep ny) r).totalAmount = r.totalAmount := by
  induction lines with
  | nil =>
    intro r h
    rfl
  | cons l ls ih =>
    intro r h
    rw [List.foldl_cons]
    have hs := headerStep_keeps_totalAmount ny r l h
    have hg : C6Bank.falsyNum (C6Bank.headerStep ny r l).totalAmount = false := by
      rw [hs]
      exact h
    rw [ih (C6Bank.headerStep ny r l) hg, hs]

theorem headerFold_keeps_minimumPayment (ny : ℤ) (lines : List NormalizedTextLine) :
    ∀ (r : C6Bank.ParsedHeaderResult), C6Bank.falsyNum r.minimumPayment = false →
      (lines.foldl (C6Bank.headerStep ny) r).minimumPayment = r.minimumPayment := by
  induction lines with
  | nil =>
    intro r h
    rfl
  | cons l ls ih =>
    intro r h
    rw [List.foldl_cons]
    have hs := headerStep_keeps_minimumPayment ny r l h
    have hg : C6Bank.falsyNum (C6Bank.headerStep ny r l).minimumPayment = false := by
      rw [hs]
      exact h
    rw [ih (C6Bank.headerStep ny r l) hg, hs]

theorem headerFold_keeps_invoiceNumber (ny : ℤ) (lines : List NormalizedTextLine) :
    ∀ (r : C6Bank.ParsedHeaderResult), C6Bank.falsyStr r.invoiceNumber = false →
      (lines.foldl (C6Bank.headerStep ny) r).invoiceNumber = r.invoiceNumber := by
  induction lines with
  | nil =>
    intro r h
    rfl
  | cons l ls ih =>
    intro r h
    rw [List.foldl_cons]
    have hs := headerStep_keeps_invoiceNumber ny r l h
    have hg : C6Bank.falsyStr (C6Bank.headerStep ny r l).invoiceNumber = false := by
      rw [hs]
      exact h
    rw [ih (C6Bank.headerStep ny r l) hg, hs]

theorem headerFold_keeps_bestPurchaseDay (ny : ℤ) (lines : List NormalizedTextLine) :
    ∀ (r : C6Bank.ParsedHeaderResult), r.bestPurchaseDay.isNone = false →
      (lines.foldl (C6Bank.headerStep ny) r).bestPurchaseDay = r.bestPurchaseDay := by
  induction lines with
  | nil =>
    intro r h
    rfl
  | cons l ls ih =>
    intro r h
    rw [List.foldl_cons]
    have hs := headerStep_keeps_bestPurchaseDay ny r l h
    have hg : (C6Bank.headerStep ny r l).bestPurchaseDay.isNone = false := by
      rw [hs]
      exact h
    rw [ih (C6Bank.headerStep ny r l) hg, hs]

theorem headerFold_keeps_autoDebit (ny : ℤ) (lines : List NormalizedTextLine) :
    ∀ (r : C6Bank.ParsedHeaderResult), r.autoDebit.isNone = false →
      (lines.foldl (C6Bank.headerStep ny) r).autoDebit = r.autoDebit := by
  induction lines with
  | nil =>
    intro r h
    rfl
  | cons l ls ih =>
    intro r h
    rw [List.foldl_cons]
    have hs := headerStep_keeps_autoDebit ny r l h
    have hg : (C6Bank.headerStep ny r l).autoDebit.isNone = false := by
      rw [hs]
      exact h
    rw [ih (C6Bank.headerStep ny r l) hg, hs]

theorem headerFold_keeps_annualFee (ny : ℤ) (lines : List NormalizedTextLine) :
    ∀ (r : C6Bank.ParsedHeaderResult), C6Bank.falsyStr r.annualFee = false →
      (lines.foldl (C6Bank.headerStep ny) r).annualFee = r.annualFee := by
  induction lines with
  | nil =>
    intro r h
    rfl
  | cons l ls ih =>
    intro r h
    rw [List.foldl_cons]
    have hs := headerStep_keeps_annualFee ny r l h
    have hg : C6Bank.falsyStr (C6Bank.headerStep ny r l).annualFee = false := by
      rw [hs]
      exact h
    rw [ih (C6Bank.headerStep ny r l) hg, hs]

theorem headerFold_keeps_creditLimit (ny : ℤ) (lines : List NormalizedTextLine) :
    ∀ (r : C6Bank.ParsedHeaderResult), C6Bank.falsyNum r.creditLimit = false →
      (lines.foldl (C6Bank.headerStep ny) r).creditLimit = r.creditLimit := by
  induction lines with
  | nil =>
    intro r h
    rfl
  | cons l ls ih =>
    intro r h
    rw [List.foldl_cons]
    have hs := headerStep_keeps_creditLimit ny r l h
    have hg : C6Bank.falsyNum (C6Bank.headerStep ny r l).creditLimit = false := by
      rw [hs]
      exact h
    rw [ih (C6Bank.headerStep ny r l) hg, hs]

theorem headerFold_keeps_availableLimit (ny : ℤ) (lines : List NormalizedTextLine) :
    ∀ (r : C6Bank.ParsedHeaderResult), C6Bank.falsyNum r.availableLimit = false →
      (lines.foldl (C6Bank.headerStep ny) r).availableLimit = r.availableLimit := by
  induction lines with
  | nil =>
    intro r h
    rfl
  | cons l ls ih =>
    intro r h
    rw [List.foldl_cons]
    have hs := headerStep_keeps_availableLimit ny r l h
    have hg : C6Bank.falsyNum (C6Bank.headerStep ny r l).availableLimit = false := by
      rw [hs]
      exact h
    rw [ih (C6Bank.headerStep ny r l) hg, hs]

theorem localHeaderFold_keeps_cardholder (ny : ℤ) (lines : List NormalizedTextLine) :
    ∀ (r : LocalParser.LocalHeader), C6Bank.falsyStr r.cardholder = false →
      (lines.foldl (LocalParser.headerStep ny) r).cardholder = r.cardholder := by
  induction lines with
  | nil =>
    intro r h
    rfl
  | cons l ls ih =>
    intro r h
    rw [List.foldl_cons]
    have hs := localHeaderStep_keeps_cardholder ny r l h
    have hg : C6Bank.falsyStr (LocalParser.headerStep ny r l).cardholder = false := by
      rw [hs]
      exact h
    rw [ih (LocalParser.headerStep ny r l) hg, hs]

theorem localHeaderFold_keeps_closingDate (ny : ℤ) (lines : List NormalizedTextLine) :
    ∀ (r : LocalParser.LocalHeader), C6Bank.falsyStr r.closingDate = false →
      (lines.foldl (LocalParser.headerStep ny) r).closingDate = r.closingDate := by
  induction lines with
  | nil =>
    intro r h
    rfl
  | cons l ls ih =>
    intro r h
    rw [List.foldl_cons]
    have hs := localHeaderStep_keeps_closingDate ny r l h
    have hg : C6Bank.falsyStr (LocalParser.headerStep ny r l).closingDate = false := by
      rw [hs]
      exact h
    rw [ih (LocalParser.headerStep ny r l) hg, hs]

theorem localHeaderFold_keeps_dueDate (ny : ℤ) (lines : List NormalizedTextLine) :
    ∀ (r : LocalParser.LocalHeader), C6Bank.falsyStr r.dueDate = false →
      (lines.foldl (LocalParser.headerStep ny) r).dueDate = r.dueDate := by
  induction lines with
  | nil =>
    intro r h
    rfl
  | cons l ls ih =>
    intro r h
    rw [List.foldl_cons]
    have hs := localHeaderStep_keeps_dueDate ny r l h
    have hg : C6Bank.falsyStr (LocalParser.headerStep ny r l).dueDate = false := by
      rw [hs]
      exact h
    rw [ih (LocalParser.headerStep ny r l) hg, hs]

theorem localHeaderFold_keeps_invoiceNumber (ny : ℤ) (lines : List NormalizedTextLine) :
    ∀ (r : LocalParser.LocalHeader), C6Bank.falsyStr r.invoiceNumber = false →
      (lines.foldl (LocalParser.headerStep ny) r).invoiceNumber = r.invoiceNumber := by
  induction lines with
  | nil =>
    intro r h
    rfl
  | cons l ls ih =>
    intro r h
    rw [List.foldl_cons]
    have hs := localHeaderStep_keeps_invoiceNumber ny r l h
    have hg : C6Bank.falsyStr (LocalParser.headerStep ny r l).invoiceNumber = false := by
      rw [hs]
      exact h
    rw [ih (LocalParser.headerStep ny r l) hg, hs]

theorem localHeaderFold_keeps_currency (ny : ℤ) (lines : List NormalizedTextLine) :
    ∀ (r : LocalParser.LocalHeader), C6Bank.falsyStr r.currency = false →
      (lines.foldl (LocalParser.headerStep ny) r).currency = r.currency := by
  induction lines with
  | nil =>
    intro r h
    rfl
  | cons l ls ih =>
    intro r h
    rw [List.foldl_cons]
    have hs := localHeaderStep_keeps_currency ny r l h
    have hg : C6Bank.falsyStr (LocalParser.headerStep ny r l).currency = false := by
      rw [hs]
      exact h
    rw [ih (LocalParser.headerStep ny r l) hg, hs]

theorem localHeaderFold_keeps_totalAmount (ny : ℤ) (lines : List NormalizedTextLine) :
    ∀ (r : LocalParser.LocalHeader), C6Bank.falsyNum r.totalAmount = false →
      (lines.foldl (LocalParser.headerStep ny) r).totalAmount = r.totalAmount := by
  induction lines with
  | nil =>
    intro r h
    rfl
  | cons l ls ih =>
    intro r h
    rw [List.foldl_cons]
    have hs := localHeaderStep_keeps_totalAmount ny r l h
    have hg : C6Bank.falsyNum (LocalParser.headerStep ny r l).totalAmount = false := by
      rw [hs]
      exact h
    rw [ih (LocalParser.headerStep ny r l) hg, hs]

theorem localHeaderFold_keeps_minimumPayment (ny : ℤ) (lines : List NormalizedTextLine) :
    ∀ (r : LocalParser.LocalHeader), C6Bank.falsyNum r.minimumPayment = false →
      (lines.foldl (LocalParser.headerStep ny) r).minimumPayment = r.minimumPayment := by
  induction lines with
  | nil =>
    intro r h
    rfl
  | cons l ls ih =>
    intro r h
    rw [List.foldl_cons]
    have hs := localHeaderStep_keeps_minimumPayment ny r l h
    have hg : C6Bank.falsyNum (LocalParser.headerStep ny r l).minimumPayment = false := by
      rw [hs]
      exact h
    rw [ih (LocalParser.headerStep ny r l) hg, hs]

/-- C5 (amended): header detection never overwrites a field that holds a
truthy value: a field already set to a nonempty string, a nonzero amount,
or (for best-purchase day and auto-debit, whose guards test for null) any
value at all, keeps that value through the rest of the scan, in both
parser variants.  A field whose stored value is falsy, that is the number
0 or an empty string, is treated as unset and can be overwritten by a
later matching row, which is what the counterexample exhibits. -/
theorem C5_header_first_match_wins (ny : ℤ) (lines : List NormalizedTextLine)
    (r : C6Bank.ParsedHeaderResult) (rl : LocalParser.LocalHeader) :
    (∀ s : String, r.cardholderName = some s → s ≠ "" →
      (lines.foldl (C6Bank.headerStep ny) r).cardholderName = some s) ∧
    (∀ s : String, r.closingDate = some s → s ≠ "" →
      (lines.foldl (C6Bank.headerStep ny) r).closingDate = some s) ∧
    (∀ s : String, r.dueDate = some s → s ≠ "" →
      (lines.foldl (C6Bank.headerStep ny) r).dueDate = some s) ∧
    (∀ q : ℚ, r.totalAmount = some q → q ≠ 0 →
      (lines.foldl (C6Bank.headerStep ny) r).totalAmount = some q) ∧
    (∀ q : ℚ, r.minimumPayment = some q → q ≠ 0 →
      (lines.foldl (C6Bank.headerStep ny) r).minimumPayment = some q) ∧
    (∀ s : String, r.invoiceNumber = some s → s ≠ "" →
      (lines.foldl (C6Bank.headerStep ny) r).invoiceNumber = some s) ∧
    (∀ v : ℕ, r.bestPurchaseDay = some v →
      (lines.foldl (C6Bank.headerStep ny) r).bestPurchaseDay = some v) ∧
    (∀ v : AutoDebit, r.autoDebit = some v →
      (lines.foldl (C6Bank.headerStep ny) r).autoDebit = some v) ∧
    (∀ s : String, r.annualFee = some s → s ≠ "" →
      (lines.foldl (C6Bank.headerStep ny) r).annualFee = some s) ∧
    (∀ q : ℚ, r.creditLimit = some q → q ≠ 0 →
      (lines.foldl (C6Bank.headerStep ny) r).creditLimit = some q) ∧
    (∀ q : ℚ, r.availableLimit = some q → q ≠ 0 →
      (lines.foldl (C6Bank.headerStep ny) r).availableLimit = some q) ∧
    (∀ s : String, rl.cardholder = some s → s ≠ "" →
      (lines.foldl (LocalParser.headerStep ny) rl).cardholder = some s) ∧
    (∀ s : String, rl.closingDate = some s → s ≠ "" →
      (lines.foldl (LocalParser.headerStep ny) rl).closingDate = some s) ∧
    (∀ s : String, rl.dueDate = some s → s ≠ "" →
      (lines.foldl (LocalParser.headerStep ny) rl).dueDate = some s) ∧
    (∀ s : String, rl.invoiceNumber = some s → s ≠ "" →
      (lines.foldl (LocalParser.headerStep ny) rl).invoiceNumber = some s) ∧
    (∀ s : String, rl.currency = some s → s ≠ "" →
      (lines.foldl (LocalParser.headerStep ny) rl).currency = some s) ∧
    (∀ q : ℚ, rl.totalAmount = some q → q ≠ 0 →
      (lines.foldl (LocalParser.headerStep ny) rl).totalAmount = some q) ∧
    (∀ q : ℚ, rl.minimumPayment = some q → q ≠ 0 →
      (lines.foldl (LocalParser.headerStep ny) rl).minimumPayment = some q) := by
  refine ⟨?_, ?_, ?_, ?_, ?_, ?_, ?_, ?_, ?_, ?_, ?_, ?_, ?_, ?_, ?_, ?_, ?_, ?_⟩
  · intro s hF hs
    rw [headerFold_keeps_cardholderName ny lines r (by rw [hF]; simp [C6Bank.falsyStr, hs])]
    exact hF
  · intro s hF hs
    rw [headerFold_keeps_closingDate ny lines r (by rw [hF]; simp [C6Bank.falsyStr, hs])]
    exact hF
  · intro s hF hs
    rw [headerFold_keeps_dueDate ny lines r (by rw [hF]; simp [C6Bank.falsyStr, hs])]
    exact hF
  · intro q hF hq
    rw [headerFold_keeps_totalAmount ny lines r (by rw [hF]; simp [C6Bank.falsyNum, hq])]
    exact hF
  · intro q hF hq
    rw [headerFold_keeps_minimumPayment ny lines r (by rw [hF]; simp [C6Bank.falsyNum, hq])]
    exact hF
  · intro s hF hs
    rw [headerFold_keeps_invoiceNumber ny lines r (by rw [hF]; simp [C6Bank.falsyStr, hs])]
    exact hF
  · intro v hF
    rw [headerFold_keeps_bestPurchaseDay ny lines r (by rw [hF]; rfl)]
    exact hF
  · intro v hF
    rw [headerFold_keeps_autoDebit ny lines r (by rw [hF]; rfl)]
    exact hF
  · intro s hF hs
    rw [headerFold_keeps_annualFee ny lines r (by rw [hF]; simp [C6Bank.falsyStr, hs])]
    exact hF
  · intro q hF hq
    rw [headerFold_keeps_creditLimit ny lines r (by rw [hF]; simp [C6Bank.falsyNum, hq])]
    exact hF
  · intro q hF hq
    rw [headerFold_keeps_availableLimit ny lines r (by rw [hF]; simp [C6Bank.falsyNum, hq])]
    exact hF
  · intro s hF hs
    rw [localHeaderFold_keeps_cardholder ny lines rl (by rw [hF]; simp [C6Bank.falsyStr, hs])]
    exact hF
  · intro s hF hs
    rw [localHeaderFold_keeps_closingDate ny lines rl (by rw [hF]; simp [C6Bank.falsyStr, hs])]
    exact hF
  · intro s hF hs
    rw [localHeaderFold_keeps_dueDate ny lines rl (by rw [hF]; simp [C6Bank.falsyStr, hs])]
    exact hF
  · intro s hF hs
    rw [localHeaderFold_keeps_invoiceNumber ny lines rl (by rw [hF]; simp [C6Bank.falsyStr, hs])]
    exact hF
  · intro s hF hs
    rw [localHeaderFold_keeps_currency ny lines rl (by rw [hF]; simp [C6Bank.falsyStr, hs])]
    exact hF
  · intro q hF hq
    rw [localHeaderFold_keeps_totalAmount ny lines rl (by rw [hF]; simp [C6Bank.falsyNum, hq])]
    exact hF
  · intro q hF hq
    rw [localHeaderFold_keeps_minimumPayment ny lines rl (by rw [hF]; simp [C6Bank.falsyNum, hq])]
    exact hF

/-- C5 counterexample: the guards use JavaScript truthiness, so a field
set to 0 by the earliest matching row is overwritten by a later matching
row: with the rows `Valor da fatura: R$ 0,00` and `Valor da fatura: R$
5,00`, the first matching row yields 0 but the final total is 5, so the
first match does not always win. -/
theorem C5_counterexample :
    C6Bank.totalFind "Valor da fatura: R$ 0,00" = some "0,00" ∧
    C6Bank.parseCurrency "0,00" = some 0 ∧
    (C6Bank.extractHeader 2030
        [⟨1, 1, "Valor da fatura: R$ 0,00", []⟩,
         ⟨1, 2, "Valor da fatura: R$ 5,00", []⟩]).totalAmount = some 5 ∧
    (5 : ℚ) ≠ 0 := by
  refine ⟨by decide, by decide, by decide, by decide⟩

/-- Witness for C5 at a concrete header state and row: a total already
set to 7 survives a later matching row. -/
theorem C5_header_first_match_wins_witness :
    ({ C6Bank.emptyHeader with totalAmount := some 7 } : C6Bank.ParsedHeaderResult).totalAmount =
      some 7 ∧
    (7 : ℚ) ≠ 0 ∧
    ([(⟨1, 1, "Valor da fatura: R$ 5,00", []⟩ : NormalizedTextLine)].foldl
        (C6Bank.headerStep 2030)
        { C6Bank.emptyHeader with totalAmount := some 7 }).totalAmount = some 7 := by
  refine ⟨by decide, by decide, ?_⟩
  exact (C5_header_first_match_wins 2030 [⟨1, 1, "Valor da fatura: R$ 5,00", []⟩]
      { C6Bank.emptyHeader with totalAmount := some 7 }
      LocalParser.emptyLocalHeader).2.2.2.1 7 (by decide) (by decide)
/-- The pair of data a subtotal-marker row stamps on the block it opens. -/
def C6Bank.blockTag (b : C6Bank.CardBlock) : String × Option ℚ :=
  (b.sectionTag, b.expectedSubtotal)

/-- The tags of the block currently open (at most one). -/
def C6Bank.openSummaries (cur : Option C6Bank.CardBlock) : List (String × Option ℚ) :=
  match cur with
  | none => []
  | some b => [C6Bank.blockTag b]

theorem finalizeBlock_map_tag (p : C6Bank.C6Parser) (fy : Option ℤ) (cm : Option ℕ) (ny : ℤ)
    (cur : Option C6Bank.CardBlock) (buf : List NormalizedTextLine) :
    (C6Bank.finalizeBlock p fy cm ny cur buf).map C6Bank.blockTag = C6Bank.openSummaries cur := by
  cases cur <;> rfl

theorem extractCardBlocksGo_map_tag (p : C6Bank.C6Parser) (fy : Option ℤ) (cm : Option ℕ)
    (ny : ℤ) :
    ∀ (lines : List NormalizedTextLine) (sec : String) (cur : Option C6Bank.CardBlock)
      (buf : List NormalizedTextLine),
      (C6Bank.extractCardBlocksGo p fy cm ny sec cur buf lines).map C6Bank.blockTag =
        C6Bank.openSummaries cur ++ C6Bank.markerSummaries sec lines := by
  intro lines
  induction lines with
  | nil =>
    intro sec cur buf
    rw [C6Bank.extractCardBlocksGo, finalizeBlock_map_tag, C6Bank.markerSummaries,
      List.append_nil]
  | cons line rest ih =>
    intro sec cur buf
    rw [C6Bank.extractCardBlocksGo, C6Bank.markerSummaries]
    dsimp only
    by_cases h1 : line.text = ""
    · rw [if_pos h1, if_pos h1]
      exact ih sec cur buf
    · rw [if_neg h1, if_neg h1]
      by_cases h2 : C6Bank.adicionaisTest line.text
      · rw [if_pos h2, if_pos h2]
        exact ih "adicionais" cur buf
      · rw [if_neg h2, if_neg h2]
        by_cases h3 : C6Bank.principalTest line.text
        · rw [if_pos h3, if_pos h3]
          exact ih "principal" cur buf
        · rw [if_neg h3, if_neg h3]
          rcases hf : C6Bank.subtotalFind line.text with _ | fullCap
          · dsimp only
            by_cases h4 : cur.isSome
            · rw [if_pos h4]
              by_cases h5 : C6Bank.valoresEmReaisTest line.text
              · rw [if_pos h5]
                exact ih sec cur buf
              · rw [if_neg h5]
                exact ih sec cur (buf ++ [line])
            · rw [if_neg h4]
              exact ih sec cur buf
          · dsimp only
            rw [List.map_append, finalizeBlock_map_tag, ih sec _ []]
            rfl

theorem markerSummaries_length :
    ∀ (lines : List NormalizedTextLine) (sec : String),
      (C6Bank.markerSummaries sec lines).length =
        lines.countP (fun l => C6Bank.isSubtotalMarkerRow l) := by
  intro lines
  induction lines with
  | nil =>
    intro sec
    rfl
  | cons line rest ih =>
    intro sec
    rw [C6Bank.markerSummaries, List.countP_cons]
    by_cases h1 : line.text = ""
    · rw [if_pos h1]
      have hm : C6Bank.isSubtotalMarkerRow line = false := by
        simp [C6Bank.isSubtotalMarkerRow, h1]
      rw [ih sec]
      simp [hm]
    · rw [if_neg h1]
      by_cases h2 : C6Bank.adicionaisTest line.text
      · rw [if_pos h2]
        have hm : C6Bank.isSubtotalMarkerRow line = false := by
          simp [C6Bank.isSubtotalMarkerRow, h2]
        rw [ih "adicionais"]
        simp [hm]
      · rw [if_neg h2]
        by_cases h3 : C6Bank.principalTest line.text
        · rw [if_pos h3]
          have hm : C6Bank.isSubtotalMarkerRow line = false := by
            simp [C6Bank.isSubtotalMarkerRow, h3]
          rw [ih "principal"]
          simp [hm]
        · rw [if_neg h3]
          rcases hf : C6Bank.subtotalFind line.text with _ | fullCap
          · dsimp only
            have hm : C6Bank.isSubtotalMarkerRow line = false := by
              simp [C6Bank.isSubtotalMarkerRow, hf]
            rw [ih sec]
            simp [hm]
          · dsimp only
            have hm : C6Bank.isSubtotalMarkerRow line = true := by
              simp [C6Bank.isSubtotalMarkerRow, h1, h2, h3, hf]
            rw [List.length_cons, ih sec]
            simp [hm]

theorem extractCardBlocksGo_discard_prefix (p : C6Bank.C6Parser) (fy : Option ℤ)
    (cm : Option ℕ) (ny : ℤ) :
    ∀ (pre post : List NormalizedTextLine) (sec : String),
      (∀ l ∈ pre, C6Bank.isSubtotalMarkerRow l = false) →
        C6Bank.extractCardBlocksGo p fy cm ny sec none [] (pre ++ post) =
          C6Bank.extractCardBlocksGo p fy cm ny (C6Bank.sectionAfter sec pre) none [] post := by
  intro pre
  induction pre with
  | nil =>
    intro post sec h
    rfl
  | cons line rest ih =>
    intro post sec h
    have hline : C6Bank.isSubtotalMarkerRow line = false := h line (List.mem_cons_self line rest)
    have hrest : ∀ l ∈ rest, C6Bank.isSubtotalMarkerRow l = false := fun l hl =>
      h l (List.mem_cons_of_mem line hl)
    rw [List.cons_append, C6Bank.extractCardBlocksGo, C6Bank.sectionAfter, List.foldl_cons]
    dsimp only
    by_cases h1 : line.text = ""
    · rw [if_pos h1, if_pos h1]
      exact ih post sec hrest
    · rw [if_neg h1, if_neg h1]
      by_cases h2 : C6Bank.adicionaisTest line.text
      · rw [if_pos h2, if_pos h2]
        exact ih post "adicionais" hrest
      · rw [if_neg h2, if_neg h2]
        by_cases h3 : C6Bank.principalTest line.text
        · rw [if_pos h3, if_pos h3]
          exact ih post "principal" hrest
        · rw [if_neg h3, if_neg h3]
          rcases hf : C6Bank.subtotalFind line.text with _ | fullCap
          · dsimp only
            exact ih post sec hrest
          · exfalso
            have : C6Bank.isSubtotalMarkerRow line = true := by
              simp [C6Bank.isSubtotalMarkerRow, h1, h2, h3, hf]
            rw [this] at hline
            cases hline

/-- C8: card-block segmentation emits exactly one block per subtotal-marker
row, in document order: the emitted blocks' section tags and declared
subtotals are exactly the marker summaries read off the rows (each marker
row opens a block tagged with the current section and the amount it
declares, the previously open block being finalized there and the last
open block at end of input), the number of blocks equals the number of
subtotal-marker rows, and a marker-free row prefix is discarded: running
segmentation on the whole input equals running it on the remaining rows
with no open block, an empty buffer and the section left by the prefix. -/
theorem C8_card_block_segmentation (p : C6Bank.C6Parser) (nowYear : ℤ)
    (header : C6Bank.ParsedHeaderResult) (lines pre post : List NormalizedTextLine) :
    (C6Bank.extractCardBlocks p nowYear header lines).map C6Bank.blockTag =
      C6Bank.markerSummaries "principal" lines ∧
    (C6Bank.extractCardBlocks p nowYear header lines).length =
      lines.countP (fun l => C6Bank.isSubtotalMarkerRow l) ∧
    ((∀ l ∈ pre, C6Bank.isSubtotalMarkerRow l = false) →
      C6Bank.extractCardBlocks p nowYear header (pre ++ post) =
        C6Bank.extractCardBlocksGo p header.year header.closingMonth nowYear
          (C6Bank.sectionAfter "principal" pre) none [] post) := by
  have hmap := extractCardBlocksGo_map_tag p header.year header.closingMonth nowYear lines
    "principal" none []
  refine ⟨?_, ?_, ?_⟩
  · rw [C6Bank.extractCardBlocks]
    simpa using hmap
  · rw [C6Bank.extractCardBlocks, ← markerSummaries_length lines "principal"]
    have := congrArg List.length hmap
    simpa [C6Bank.openSummaries] using this
  · intro h
    rw [C6Bank.extractCardBlocks]
    exact extractCardBlocksGo_discard_prefix p header.year header.closingMonth nowYear
      pre post "principal" h

set_option maxRecDepth 10000 in
/-- Witness for C8 on the concrete sample document, splitting off its
marker-free two-row prefix. -/
theorem C8_card_block_segmentation_witness :
    C6Bank.extractCardBlocks sampleParser 2030 C6Bank.emptyHeader
        (sampleLines.take 2 ++ sampleLines.drop 2) =
      C6Bank.extractCardBlocksGo sampleParser C6Bank.emptyHeader.year
        C6Bank.emptyHeader.closingMonth 2030
        (C6Bank.sectionAfter "principal" (sampleLines.take 2)) none [] (sampleLines.drop 2) :=
  (C8_card_block_segmentation sampleParser 2030 C6Bank.emptyHeader sampleLines
      (sampleLines.take 2) (sampleLines.drop 2)).2.2 (by decide)
theorem extractCardBlocksGo_expectedSubtotal_den2 (p : C6Bank.C6Parser) (fy : Option ℤ)
    (cm : Option ℕ) (ny : ℤ) :
    ∀ (lines : List NormalizedTextLine) (sec : String) (cur : Option C6Bank.CardBlock)
      (buf : List NormalizedTextLine),
      (∀ b d, cur = some b → b.expectedSubtotal = some d → Den2 d) →
      ∀ blk ∈ C6Bank.extractCardBlocksGo p fy cm ny sec cur buf lines,
        ∀ d, blk.expectedSubtotal = some d → Den2 d := by
  intro lines
  induction lines with
  | nil =>
    intro sec cur buf hcur blk hblk d hd
    rw [C6Bank.extractCardBlocksGo] at hblk
    cases cur with
    | none => cases hblk
    | some b =>
      rcases List.mem_singleton.mp hblk with rfl
      exact hcur b d rfl hd
  | cons line rest ih =>
    intro sec cur buf hcur blk hblk d hd
    rw [C6Bank.extractCardBlocksGo] at hblk
    dsimp only at hblk
    by_cases h1 : line.text = ""
    · rw [if_pos h1] at hblk
      exact ih sec cur buf hcur blk hblk d hd
    · rw [if_neg h1] at hblk
      by_cases h2 : C6Bank.adicionaisTest line.text
      · rw [if_pos h2] at hblk
        exact ih "adicionais" cur buf hcur blk hblk d hd
      · rw [if_neg h2] at hblk
        by_cases h3 : C6Bank.principalTest line.text
        · rw [if_pos h3] at hblk
          exact ih "principal" cur buf hcur blk hblk d hd
        · rw [if_neg h3] at hblk
          rcases hf : C6Bank.subtotalFind line.text with _ | fullCap <;> rw [hf] at hblk
          · dsimp only at hblk
            by_cases h4 : cur.isSome
            · rw [if_pos h4] at hblk
              by_cases h5 : C6Bank.valoresEmReaisTest line.text
              · rw [if_pos h5] at hblk
                exact ih sec cur buf hcur blk hblk d hd
              · rw [if_neg h5] at hblk
                exact ih sec cur (buf ++ [line]) hcur blk hblk d hd
            · rw [if_neg h4] at hblk
              exact ih sec cur buf hcur blk hblk d hd
          · dsimp only at hblk
            rcases List.mem_append.mp hblk with hmem | hmem
            · cases cur with
              | none => cases hmem
              | some b =>
                rcases List.mem_singleton.mp hmem with rfl
                exact hcur b d rfl hd
            · refine ih sec _ [] ?_ blk hmem d hd
              intro b d' hb hd'
              cases hb
              dsimp only at hd'
              rcases hcap : C6Bank.parseCurrency fullCap.2 with _ | v <;> rw [hcap] at hd'
              · cases hd'
              · cases hd'
                exact parseCurrency_den2 hcap

/-- C4: in every emitted statement's per-card reconciliation summary, when
the declared subtotal is present the reported difference equals the
computed subtotal minus the declared subtotal exactly (the final
two-decimal rounding of the difference is the identity, because both
operands are whole numbers of hundredths), and when the declared subtotal
is absent the difference is absent. -/
theorem C4_subtotal_difference_exact (p : C6Bank.C6Parser) (nowYear : ℤ)
    (lines : List NormalizedTextLine) (st : CreditCardStatement C6Bank.C6Metadata)
    (hst : C6Bank.parseStatement p nowYear lines = some st) :
    ∀ cs ∈ st.metadata.cardSummaries,
      (∀ d, cs.expectedSubtotal = some d →
        cs.subtotalDifference = some (cs.computedSubtotal - d)) ∧
      (cs.expectedSubtotal = none → cs.subtotalDifference = none) := by
  intro cs hcs
  rw [C6Bank.parseStatement] at hst
  dsimp only at hst
  split at hst
  · cases hst
  · rcases Option.some.inj hst with rfl
    dsimp only at hcs
    rcases List.mem_map.mp hcs with ⟨blk, hblk, rfl⟩
    rw [C6Bank.extractCardBlocks] at hblk
    have hden : ∀ d, blk.expectedSubtotal = some d → Den2 d :=
      extractCardBlocksGo_expectedSubtotal_den2 p _ _ nowYear lines "principal" none []
        (by intro b d hb; cases hb) blk hblk
    constructor
    · intro d hd
      rw [C6Bank.mkCardSummary] at hd ⊢
      dsimp only at hd ⊢
      rw [hd]
      dsimp only
      rw [qSub_eq, round2_den2 (den2_sub (den2_round2 _) (hden d hd))]
    · intro hd
      rw [C6Bank.mkCardSummary] at hd ⊢
      dsimp only at hd ⊢
      rw [hd]

set_option maxRecDepth 10000 in
/-- Witness for C4 on the concrete sample document: the single card block
declares a subtotal of 30 and its reported difference is exactly the
computed subtotal minus 30. -/
theorem C4_subtotal_difference_exact_witness :
    sampleSummary.expectedSubtotal = some 30 ∧
    sampleSummary.subtotalDifference = some (sampleSummary.computedSubtotal - 30) :=
  ⟨by decide,
   (C4_subtotal_difference_exact sampleParser 2030 sampleLines
      ((C6Bank.parseStatement sampleParser 2030 sampleLines).get (by decide))
      (Option.some_get _).symm sampleSummary (by decide)).1 30 (by decide)⟩
theorem chunkLE_y_le {a b : NormalizedTextChunk} (h : PdfNorm.chunkLE a b) : a.y ≤ b.y := by
  unfold PdfNorm.chunkLE at h
  split_ifs at h with he
  · exact le_of_eq he
  · exact le_of_lt ((qLt_iff _ _).mp h)

theorem sumY_foldl (l : List NormalizedTextChunk) :
    ∀ init : ℚ, l.foldl (fun sum item => qAdd sum item.y) init =
      init + (l.map fun c => c.y).sum := by
  induction l with
  | nil =>
    intro init
    simp
  | cons c rest ih =>
    intro init
    rw [List.foldl_cons, ih, qAdd_eq, List.map_cons, List.sum_cons]
    ring

theorem sumY_eq (l : List NormalizedTextChunk) : PdfNorm.sumY l = (l.map fun c => c.y).sum := by
  rw [PdfNorm.sumY, sumY_foldl]
  ring

theorem avg_le_of_forall_le {l : List NormalizedTextChunk} (hne : l ≠ []) {b : ℚ}
    (hb : ∀ c ∈ l, c.y ≤ b) : PdfNorm.qDivNat (PdfNorm.sumY l) l.length ≤ b := by
  rw [PdfNorm.qDivNat_eq, sumY_eq]
  have hlen : (0 : ℚ) < (l.length : ℚ) := by
    exact_mod_cast List.length_pos.mpr hne
  rw [div_le_iff₀ hlen]
  have hsum : (l.map fun c => c.y).sum ≤ (l.map fun c => c.y).length • b :=
    List.sum_le_card_nsmul _ b (by
      intro x hx
      rcases List.mem_map.mp hx with ⟨c, hc, rfl⟩
      exact hb c hc)
  rw [List.length_map, nsmul_eq_mul] at hsum
  linarith

theorem le_avg_of_forall_le {l : List NormalizedTextChunk} (hne : l ≠ []) {a : ℚ}
    (ha : ∀ c ∈ l, a ≤ c.y) : a ≤ PdfNorm.qDivNat (PdfNorm.sumY l) l.length := by
  rw [PdfNorm.qDivNat_eq, sumY_eq]
  have hlen : (0 : ℚ) < (l.length : ℚ) := by
    exact_mod_cast List.length_pos.mpr hne
  rw [le_div_iff₀ hlen]
  have hsum : (l.map fun c => c.y).length • a ≤ (l.map fun c => c.y).sum :=
    List.card_nsmul_le_sum _ a (by
      intro x hx
      rcases List.mem_map.mp hx with ⟨c, hc, rfl⟩
      exact ha c hc)
  rw [List.length_map, nsmul_eq_mul] at hsum
  linarith

theorem head_append_single {α : Type} {l : List α} (c : α) (hne : l ≠ []) :
    (l ++ [c]).head? = l.head? := by
  cases l with
  | nil => exact absurd rfl hne
  | cons a rest => rfl
theorem groupStep_fold_inv (cfg : PdfTextNormalizer) (htol : 0 ≤ cfg.yTolerance) (P : ℕ) :
    ∀ (rest : List NormalizedTextChunk) (st : PdfNorm.GroupState),
      List.Sorted PdfNorm.chunkLE rest →
      (∀ b ∈ rest, b.page = P) →
      (∀ a ∈ PdfNorm.curChunks st, ∀ b ∈ rest, PdfNorm.chunkLE a b) →
      PdfNorm.GroupInv cfg.yTolerance P st →
      PdfNorm.GroupInv cfg.yTolerance P (rest.foldl (PdfNorm.groupStep cfg) st) := by
  intro rest
  induction rest with
  | nil =>
    intro st hs hp hcompat hinv
    exact hinv
  | cons c rest ih =>
    intro st hs hp hcompat hinv
    rw [List.foldl_cons]
    have hs' : List.Sorted PdfNorm.chunkLE rest := hs.of_cons
    have hrel : ∀ b ∈ rest, PdfNorm.chunkLE c b := fun b hb => (List.pairwise_cons.mp hs).1 b hb
    have hp' : ∀ b ∈ rest, b.page = P := fun b hb => hp b (List.mem_cons_of_mem c hb)
    have hpc : c.page = P := hp c (List.mem_cons_self c rest)
    rcases hcur : st.current with _ | cur
    · -- no open line: open a fresh one holding only `c`
      have hrev : st.revLines = [] := by
        unfold PdfNorm.GroupInv at hinv
        rw [hcur] at hinv
        exact hinv
      have hstep : PdfNorm.groupStep cfg st c =
          { revLines := st.revLines
            current := some
              { page := c.page
                y := PdfNorm.qDivNat (PdfNorm.sumY [c]) 1
                text := c.text
                chunks := [c] } } := by
        unfold PdfNorm.groupStep
        dsimp only
        rw [hcur]
        dsimp only
        rfl
      rw [hstep]
      refine ih _ hs' hp' ?_ ?_
      · intro a ha b hb
        rcases List.mem_singleton.mp ha with rfl
        exact hrel b hb
      · unfold PdfNorm.GroupInv
        dsimp only
        refine ⟨hpc, by simp, rfl, List.sorted_singleton c, ?_, ?_, ?_⟩
        · rw [hrev]
          exact List.chain'_nil
        · intro l hl
          rw [hrev] at hl
          cases hl
        · intro h hh
          rw [hrev] at hh
          cases hh
    · -- an open line exists
      unfold PdfNorm.GroupInv at hinv
      rw [hcur] at hinv
      dsimp only at hinv
      obtain ⟨hpage, hne, hy, hsort, hchain, hclosed, hlink⟩ := hinv
      have hcompat' : ∀ a ∈ cur.chunks, ∀ b ∈ c :: rest, PdfNorm.chunkLE a b := by
        intro a ha b hb
        refine hcompat a ?_ b hb
        unfold PdfNorm.curChunks
        rw [hcur]
        exact ha
      have hylec : ∀ a ∈ cur.chunks, a.y ≤ c.y := fun a ha =>
        chunkLE_y_le (hcompat' a ha c (List.mem_cons_self c rest))
      have havg : cur.y ≤ c.y := by
        rw [hy]
        exact avg_le_of_forall_le hne hylec
      by_cases hq : qLt cfg.yTolerance (qAbs (qSub c.y cur.y)) = true
      · -- boundary: close `cur`, open a fresh line holding only `c`
        have hstep : PdfNorm.groupStep cfg st c =
            { revLines := cur :: st.revLines
              current := some
                { page := c.page
                  y := PdfNorm.qDivNat (PdfNorm.sumY [c]) 1
                  text := c.text
                  chunks := [c] } } := by
          unfold PdfNorm.groupStep
          dsimp only
          rw [hcur]
          dsimp only
          rw [if_pos (Or.inr hq)]
          rfl
        rw [hstep]
        have hgap : cur.y + cfg.yTolerance < c.y := by
          rw [qLt_iff, qAbs_eq, qSub_eq] at hq
          rw [abs_of_nonneg (sub_nonneg.mpr havg)] at hq
          linarith
        refine ih _ hs' hp' ?_ ?_
        · intro a ha b hb
          rcases List.mem_singleton.mp ha with rfl
          exact hrel b hb
        · unfold PdfNorm.GroupInv
          dsimp only
          refine ⟨hpc, by simp, rfl, List.sorted_singleton c, ?_, ?_, ?_⟩
          · -- closed rows stay in strictly increasing order
            rw [List.reverse_cons]
            rw [List.chain'_append]
            refine ⟨hchain, List.chain'_singleton cur, ?_⟩
            intro x hx z hz
            rw [List.getLast?_reverse] at hx
            obtain rfl : cur = z := by simpa using hz
            rcases List.exists_cons_of_ne_nil hne with ⟨c0, rest0, hc0⟩
            have hc0y : x.y + cfg.yTolerance < c0.y := by
              refine hlink x hx c0 ?_
              rw [hc0]
              rfl
            have hmin : c0.y ≤ cur.y := by
              rw [hy]
              refine le_avg_of_forall_le hne ?_
              intro d hd
              rw [hc0] at hd
              rcases List.mem_cons.mp hd with rfl | hd
              · exact le_refl _
              · exact chunkLE_y_le ((List.pairwise_cons.mp (hc0 ▸ hsort)).1 d hd)
            show rowLt x cur
            unfold rowLt
            linarith
          · intro l hl
            rcases List.mem_cons.mp hl with rfl | hl
            · exact hsort
            · exact hclosed l hl
          · intro h hh c0 hc0
            rcases Option.some.inj hh with rfl
            rcases Option.some.inj hc0 with rfl
            exact hgap
      · -- same line: append `c` to the open line
        have hcond : ¬(c.page ≠ cur.page ∨ qLt cfg.yTolerance (qAbs (qSub c.y cur.y)) = true) := by
          rintro (hne' | hb)
          · exact hne' (hpc.trans hpage.symm)
          · exact hq hb
        have hstep : PdfNorm.groupStep cfg st c =
            { revLines := st.revLines
              current := some
                { page := cur.page
                  y := PdfNorm.qDivNat (PdfNorm.sumY (cur.chunks ++ [c]))
                    (cur.chunks ++ [c]).length
                  text :=
                    if (cur.text != "" &&
                        match cur.chunks.getLast? with
                        | some lc => qLt cfg.spaceThreshold (qSub c.x (qAdd lc.x lc.width))
                        | none => false) = true then
                      cur.text ++ " " ++ c.text
                    else cur.text ++ c.text
                  chunks := cur.chunks ++ [c] } } := by
          unfold PdfNorm.groupStep
          dsimp only
          rw [hcur]
          dsimp only
          rw [if_neg hcond]
          rw [hcur]
        rw [hstep]
        refine ih _ hs' hp' ?_ ?_
        · intro a ha b hb
          rcases List.mem_append.mp ha with ha | ha
          · exact hcompat' a ha b (List.mem_cons_of_mem c hb)
          · rcases List.mem_singleton.mp ha with rfl
            exact hrel b hb
        · unfold PdfNorm.GroupInv
          dsimp only
          refine ⟨hpage, by simp, rfl, ?_, hchain, hclosed, ?_⟩
          · rw [List.Sorted, List.pairwise_append]
            refine ⟨hsort, List.pairwise_singleton _ _, ?_⟩
            intro a ha b hb
            rcases List.mem_singleton.mp hb with rfl
            exact hcompat' a ha b (List.mem_cons_self b rest)
          · intro h hh c0 hc0
            rw [head_append_single c hne] at hc0
            exact hlink h hh c0 hc0
theorem groupChunksByLine_order (cfg : PdfTextNormalizer) (htol : 0 ≤ cfg.yTolerance) (P : ℕ)
    (chunks : List NormalizedTextChunk) (hs : List.Sorted PdfNorm.chunkLE chunks)
    (hp : ∀ b ∈ chunks, b.page = P) :
    (∀ l ∈ PdfNorm.groupChunksByLine cfg chunks, List.Sorted PdfNorm.chunkLE l.chunks) ∧
    List.Chain' rowLt (PdfNorm.groupChunksByLine cfg chunks) := by
  have hInv := groupStep_fold_inv cfg htol P chunks ⟨[], none⟩ hs hp
    (by intro a ha; cases ha) rfl
  rw [PdfNorm.groupChunksByLine]
  unfold PdfNorm.GroupInv at hInv
  rcases hcur : (chunks.foldl (PdfNorm.groupStep cfg) ⟨[], none⟩).current with _ | cur <;>
    rw [hcur] at hInv <;> dsimp only at hInv
  · rw [hInv]
    constructor
    · intro l hl
      simp at hl
    · simp
  · obtain ⟨hpage, hne, hy, hsort, hchain, hclosed, hlink⟩ := hInv
    dsimp only
    constructor
    · intro l hl
      rcases List.mem_map.mp hl with ⟨l0, hl0, rfl⟩
      rw [List.reverse_cons] at hl0
      rcases List.mem_append.mp hl0 with h0 | h0
      · exact hclosed l0 (List.mem_reverse.mp h0)
      · rcases List.mem_singleton.mp h0 with rfl
        exact hsort
    · rw [List.chain'_map]
      have hbase : List.Chain' rowLt
          ((chunks.foldl (PdfNorm.groupStep cfg) ⟨[], none⟩).revLines.reverse ++ [cur]) := by
        rw [List.chain'_append]
        refine ⟨hchain, List.chain'_singleton cur, ?_⟩
        intro x hx z hz
        rw [List.getLast?_reverse] at hx
        obtain rfl : cur = z := by simpa using hz
        rcases List.exists_cons_of_ne_nil hne with ⟨c0, rest0, hc0⟩
        have hc0y : x.y + cfg.yTolerance < c0.y := by
          refine hlink x hx c0 ?_
          rw [hc0]
          rfl
        have hmin : c0.y ≤ cur.y := by
          rw [hy]
          refine le_avg_of_forall_le hne ?_
          intro d hd
          rw [hc0] at hd
          rcases List.mem_cons.mp hd with rfl | hd
          · exact le_refl _
          · exact chunkLE_y_le ((List.pairwise_cons.mp (hc0 ▸ hsort)).1 d hd)
        show rowLt x cur
        unfold rowLt
        linarith
      rw [List.reverse_cons]
      exact hbase.imp fun a b hab => hab

theorem flattenPage_sorted (page : Pdf2JsonPage) (i : ℕ) :
    List.Sorted PdfNorm.chunkLE (PdfNorm.flattenPage page i) :=
  List.sorted_insertionSort PdfNorm.chunkLE _

theorem flattenPage_page (page : Pdf2JsonPage) (i : ℕ) :
    ∀ b ∈ PdfNorm.flattenPage page i, b.page = i + 1 := by
  intro b hb
  rw [PdfNorm.flattenPage] at hb
  rw [(List.perm_insertionSort PdfNorm.chunkLE _).mem_iff] at hb
  rcases List.mem_filterMap.mp hb with ⟨ti, _, hmap⟩
  rcases ht : PdfNorm.decodeTextItem ti with _ | t <;> rw [ht] at hmap
  · cases hmap
  · rcases Option.some.inj hmap with rfl
    rfl

/-- C6 (amended): in the normalizer's output the member fragments of each
row are sorted by the flatten order, `y` first then `x` (in particular
fragments of equal `y` are in left-to-right `x` order, but a row built
from fragments of different nearby `y` values need not be `x`-sorted, see
the counterexample); and within each page the rows appear in strictly
increasing `y` order, provided the `y` tolerance is nonnegative (it is 2
by default). -/
theorem C6_normalized_row_order (cfg : PdfTextNormalizer)
    (htol : qLe 0 cfg.yTolerance = true) (document : Pdf2JsonDocument) :
    (∀ line ∈ PdfNorm.normalize cfg document, List.Sorted PdfNorm.chunkLE line.chunks) ∧
    ∀ pair ∈ document.Pages.enum,
      List.Chain' rowLt (PdfNorm.groupChunksByLine cfg (PdfNorm.flattenPage pair.2 pair.1)) := by
  have htol' : 0 ≤ cfg.yTolerance := (qLe_iff _ _).mp htol
  constructor
  · intro line hline
    rw [PdfNorm.normalize] at hline
    rcases List.mem_flatten.mp hline with ⟨group, hgroup, hmem⟩
    rcases List.mem_map.mp hgroup with ⟨pair, _, rfl⟩
    exact (groupChunksByLine_order cfg htol' (pair.1 + 1) _ (flattenPage_sorted pair.2 pair.1)
      (flattenPage_page pair.2 pair.1)).1 line hmem
  · intro pair _
    exact (groupChunksByLine_order cfg htol' (pair.1 + 1) _ (flattenPage_sorted pair.2 pair.1)
      (flattenPage_page pair.2 pair.1)).2

/-- C6 counterexample: two fragments at `(x, y)` positions `(50, 10)` and
`(3, 11)` land in a single row (the `y` gap 1 is within the tolerance 2),
and that row's fragments are in `x` order `50, 3`, not left-to-right. -/
theorem C6_counterexample :
    ((PdfNorm.normalize defaultNormalizer
          ⟨[⟨600, 800, [⟨50, 10, 4, 0, [⟨"A"⟩]⟩, ⟨3, 11, 4, 0, [⟨"B"⟩]⟩]⟩]⟩).map
        fun line => line.chunks.map fun ch => ch.x) = [[50, 3]] ∧
    qLe 50 3 = false := by
  exact ⟨by decide, by decide⟩

/-- Witness for C6 at the default tolerance and a concrete two-row page. -/
theorem C6_normalized_row_order_witness :
    qLe 0 defaultNormalizer.yTolerance = true ∧
    List.Chain' rowLt
      (PdfNorm.groupChunksByLine defaultNormalizer
        (PdfNorm.flattenPage ⟨600, 800, [⟨1, 1, 4, 0, [⟨"A"⟩]⟩, ⟨1, 9, 4, 0, [⟨"B"⟩]⟩]⟩ 0)) :=
  ⟨by decide,
   (C6_normalized_row_order defaultNormalizer (by decide)
        ⟨[⟨600, 800, [⟨1, 1, 4, 0, [⟨"A"⟩]⟩, ⟨1, 9, 4, 0, [⟨"B"⟩]⟩]⟩]⟩).2
      (0, ⟨600, 800, [⟨1, 1, 4, 0, [⟨"A"⟩]⟩, ⟨1, 9, 4, 0, [⟨"B"⟩]⟩]⟩) (by decide)⟩
